import Mathlib

/-!
# ScriptX, Hermes backend: a shallow embedding

The embedding follows the C++ sources of the Hermes backend of ScriptX:

* `src/Native.hpp` (call marshalling: `checkArgs`, `handleException`,
  `ConvertingFuncCallHelper`, `bindStaticFunc`, `adaptOverLoadedFunction`, ...),
* `backend/Hermes/HermesReference.hpp`, `trait/TraitReference.h` and
  `HermesLocalReference.cc` (the `Local` / `Global` / `Weak` handles),
* `backend/Hermes/HermesEngine-Native.cc` (class projection).

C++ exceptions are an explicit `Except Thrown _` result, native memory and the
script heap are explicit state, and places where the C++ has undefined
behaviour (null dereference, invalid downcast) are the distinguished outcome
`Thrown.undefinedBehaviour`.
-/

set_option autoImplicit false

namespace ScriptX

/-! ## Values -/

/-- A native address; `0` is `nullptr`. -/
abbrev Ptr := Nat

/-- Identity of an object of the script heap. -/
abbrev ObjId := Nat

/-- Identity of a `std::shared_ptr<jsi::Value>` cell. -/
abbrev CellId := Nat

/-- The payload of a script number: `NaN` or an integral double. -/
inductive JsNumber
  | nan
  | val (z : Int)
  deriving DecidableEq, Repr

/-- The kinds of `facebook::jsi::Value` the backend touches. -/
inductive JsValue
  | undefined
  | null
  | bool (b : Bool)
  | number (n : JsNumber)
  | string (s : String)
  | object (id : ObjId)
  deriving DecidableEq, Repr

/-- What a C++ call can raise instead of returning. -/
inductive Thrown
  /-- A `script::Exception` carrying a message. -/
  | exception (message : String)
  /-- The class `script::internal::OverloadInvalidArguments`. -/
  | overloadInvalidArguments
  /-- Calling an empty `std::function` (`std::bad_function_call`). -/
  | badFunctionCall
  /-- A `facebook::jsi::JSError` / `JSIException` raised by the runtime. -/
  | jsError (message : String)
  /-- The C++ has undefined behaviour at this point; the model stops here. -/
  | undefinedBehaviour (what : String)
  deriving DecidableEq, Repr

/-- A native (C++) value handed to or returned by a bound native function. -/
inductive CppVal
  | void
  | boolean (b : Bool)
  | integer (i : Int)
  | text (s : String)
  | pointer (p : Ptr)
  deriving DecidableEq, Repr

/-! ## `src/Native.hpp`: the call marshalling layer -/

/-- The view `hermes_backend::ArgumentsData`: engine, `this` value and the
argument array (`argc_` is the length of `argv_`). -/
structure Arguments where
  engine_ : Ptr
  thiz_ : JsValue
  argv_ : List JsValue

/-- The member `Arguments::size()`. -/
def Arguments.size (args : Arguments) : Nat := args.argv_.length

/-- The member `Arguments::operator[]`: an index past the end yields an empty
`Local` (holding `undefined`), otherwise a transient `Local` for `argv_[i]`.
The marshalling layer only reads the value of that `Local`. -/
def Arguments.get (args : Arguments) (i : Nat) : JsValue :=
  if i ≥ args.size then JsValue.undefined else args.argv_.getD i JsValue.undefined

/-- An observable step of a bound thunk: the overload loop invoking candidate
`overload[index]`, or `std::apply` running the native function `tag`; and of
a projected host thunk: invoking the native callback `name` (for the
constructor hook the native constructor thunk of the class `name`) for a call
with `thiz` and `argv`, or calling `registry.instanceTypeToScriptClass`. -/
inductive Event
  | tried (index : Nat)
  | invoked (tag : Nat) (args : List CppVal)
  | callback (name : String) (thiz : JsValue) (argv : List JsValue)
  | toScriptClass (thiz : Ptr)
  deriving DecidableEq, Repr

/-- The result of running a thunk: what it did and how it ended. -/
structure Run where
  trace : List Event
  outcome : Except Thrown JsValue

/-- The type `script::FunctionCallback`. -/
abbrev FunctionCallback := Arguments → Run

/-- The type `script::InstanceFunctionCallback` (`void*` instance first). -/
abbrev InstanceFunctionCallback := Ptr → Arguments → Run

/-- One parameter type `T` of a native signature: whether `TypeHolder<T>` is the
string-like specialisation, and the rule `TypeConverter<T>::toCpp`. -/
structure Param where
  stringLike : Bool
  toCpp : JsValue → Except String CppVal

/-- A typed native callable `Ret(Args...)`: its identity, parameter types,
whether `Ret` is `void`, the native code itself (it returns or raises a
`script::Exception`) and the rule `TypeConverter<Ret>::toScript`. -/
structure NativeFunction where
  tag : Nat
  params : List Param
  returnsVoid : Bool
  body : List CppVal → Except String CppVal
  toScript : CppVal → Except String JsValue

/-- The constructor of `TypeHolder<T>`: the string-like specialisation calls
`asString()`, which raises unless the value is a string; the generic one
stores the reference. -/
def TypeHolder.make (p : Param) (v : JsValue) : Except String JsValue :=
  if p.stringLike then
    match v with
    | JsValue.string _ => Except.ok v
    | _ => Except.error "can't cast value as String"
  else Except.ok v

/-- The function `internal::handleException`. -/
def handleException (e : String) (nothrow : Bool) : Except Thrown JsValue :=
  if !nothrow then Except.error (Thrown.exception e) else Except.ok JsValue.undefined

/-- The function `ConvertCallHelperUtils::checkArgs`: `true` means "abort". -/
def ConvertCallHelperUtils.checkArgs (args : Arguments) (argsCount : Nat) (nothrow : Bool) :
    Except String Bool :=
  if args.size ≠ argsCount then
    if nothrow then Except.ok true
    else Except.error
      ("Argument count mismatch, expect:" ++ toString argsCount ++ " got:" ++ toString args.size)
  else Except.ok false

/-- The function `ConvertCallHelperUtils::handleParamConvertFailure`. -/
def ConvertCallHelperUtils.handleParamConvertFailure (e : String)
    (nothrow throwForOverload : Bool) : Except Thrown JsValue :=
  if !nothrow && throwForOverload then Except.error Thrown.overloadInvalidArguments
  else handleException e nothrow

/-- The function `ConvertCallHelperUtils::convertAndReturn`. -/
def ConvertCallHelperUtils.convertAndReturn (toScript : CppVal → Except String JsValue)
    (ret : CppVal) (nothrow : Bool) : Except Thrown JsValue :=
  match toScript ret with
  | Except.ok v => Except.ok v
  | Except.error e => handleException e nothrow

/-- The statement `typeHolders.emplace(args[index]...)`: one `TypeHolder` per
parameter, built from `args[0]`, `args[1]`, ... -/
def emplaceTypeHolders (args : Arguments) : List Param → Nat → Except String (List JsValue)
  | [], _ => Except.ok []
  | p :: ps, i =>
    match TypeHolder.make p (args.get i) with
    | Except.error e => Except.error e
    | Except.ok h =>
      match emplaceTypeHolders args ps (i + 1) with
      | Except.error e => Except.error e
      | Except.ok hs => Except.ok (h :: hs)

/-- The statement `cppArgs.emplace(std::get<index>(*typeHolders).toCpp<Args>()...)`. -/
def emplaceCppArgs : List Param → List JsValue → Except String (List CppVal)
  | p :: ps, h :: hs =>
    match p.toCpp h with
    | Except.error e => Except.error e
    | Except.ok c =>
      match emplaceCppArgs ps hs with
      | Except.error e => Except.error e
      | Except.ok cs => Except.ok (c :: cs)
  | _, _ => Except.ok []

/-- The tail of `ConvertingFuncCallHelper::call`, after the `try` block:
`std::apply(func, cppArgs)` and the conversion of what it returns. -/
def ConvertingFuncCallHelper.applyAndReturn (f : NativeFunction) (cppArgs : List CppVal)
    (nothrow : Bool) : Run :=
  match f.body cppArgs with
  | Except.error e => ⟨[Event.invoked f.tag cppArgs], Except.error (Thrown.exception e)⟩
  | Except.ok ret =>
    ⟨[Event.invoked f.tag cppArgs],
      if f.returnsVoid then Except.ok JsValue.undefined
      else ConvertCallHelperUtils.convertAndReturn f.toScript ret nothrow⟩

/-- The common body of `ConvertingFuncCallHelper::call` (with `receiver = []`)
and `::callInstanceFunc` (with `receiver = [ins]`, the instance pointer that
`cppArgs.emplace(ins, ...)` puts first). -/
def ConvertingFuncCallHelper.callWith (receiver : List CppVal) (f : NativeFunction)
    (args : Arguments) (nothrow throwForOverload : Bool) : Run :=
  match ConvertCallHelperUtils.checkArgs args f.params.length nothrow with
  | Except.error e =>
    ⟨[], ConvertCallHelperUtils.handleParamConvertFailure e nothrow throwForOverload⟩
  | Except.ok true => ⟨[], Except.ok JsValue.undefined⟩
  | Except.ok false =>
    match emplaceTypeHolders args f.params 0 with
    | Except.error e =>
      ⟨[], ConvertCallHelperUtils.handleParamConvertFailure e nothrow throwForOverload⟩
    | Except.ok typeHolders =>
      match emplaceCppArgs f.params typeHolders with
      | Except.error e =>
        ⟨[], ConvertCallHelperUtils.handleParamConvertFailure e nothrow throwForOverload⟩
      | Except.ok cppArgs =>
        ConvertingFuncCallHelper.applyAndReturn f (receiver ++ cppArgs) nothrow

/-- The function `ConvertingFuncCallHelper::call`. -/
def ConvertingFuncCallHelper.call (f : NativeFunction) (args : Arguments)
    (nothrow throwForOverload : Bool) : Run :=
  ConvertingFuncCallHelper.callWith [] f args nothrow throwForOverload

/-- The function `ConvertingFuncCallHelper::callInstanceFunc`. -/
def ConvertingFuncCallHelper.callInstanceFunc (f : NativeFunction) (ins : Ptr)
    (args : Arguments) (nothrow throwForOverload : Bool) : Run :=
  ConvertingFuncCallHelper.callWith [CppVal.pointer ins] f args nothrow throwForOverload

/-- What may be handed to `bindStaticFunc`: a typed native function, or an
already uniform `FunctionCallback` (the "plain overload"). -/
inductive StaticCallable
  | typed (f : NativeFunction)
  | plain (cb : FunctionCallback)

/-- The overloads of `bindStaticFunc`. -/
def bindStaticFunc (func : StaticCallable) (nothrow throwForOverload : Bool) :
    FunctionCallback :=
  match func with
  | StaticCallable.typed f =>
    fun args => ConvertingFuncCallHelper.call f args nothrow throwForOverload
  | StaticCallable.plain cb => cb

/-- What may be handed to `bindInstanceFunc`: a typed native function, a null
function pointer / empty `std::function`, or an `InstanceFunctionCallback`. -/
inductive InstanceCallable
  | typed (f : NativeFunction)
  | null
  | plain (cb : InstanceFunctionCallback)

/-- An empty `std::function`: invoking it raises `std::bad_function_call`. -/
def emptyInstanceCallback : InstanceFunctionCallback :=
  fun _ _ => ⟨[], Except.error Thrown.badFunctionCall⟩

/-- The overloads of `bindInstanceFunc`; `if (!func) return {};` is the
`null` case. -/
def bindInstanceFunc (func : InstanceCallable) (nothrow throwForOverload : Bool) :
    InstanceFunctionCallback :=
  match func with
  | InstanceCallable.typed f =>
    fun ins args => ConvertingFuncCallHelper.callInstanceFunc f ins args nothrow throwForOverload
  | InstanceCallable.null => emptyInstanceCallback
  | InstanceCallable.plain cb => cb

/-- The loop of `adaptOverLoadedFunction` / `adaptOverloadedInstanceFunction`
from iteration `i` on, over the candidates not yet tried; `count` is
`sizeof...(Func)`. Leaving the loop is `return {}`. -/
def overloadLoop (count : Nat) : Nat → List FunctionCallback → Arguments → Run
  | _, [], _ => ⟨[], Except.ok JsValue.undefined⟩
  | i, cb :: rest, args =>
    let r := cb args
    match r.outcome with
    | Except.error Thrown.overloadInvalidArguments =>
      if i = count - 1 then
        ⟨Event.tried i :: r.trace,
          Except.error (Thrown.exception "no valid overloaded function chosen")⟩
      else
        let r' := overloadLoop count (i + 1) rest args
        ⟨Event.tried i :: r.trace ++ r'.trace, r'.outcome⟩
    | _ => ⟨Event.tried i :: r.trace, r.outcome⟩

/-- The function `adaptOverLoadedFunction`: every candidate is bound with
`nothrow = false`, `throwForOverload = true`. -/
def adaptOverLoadedFunction (functions : List StaticCallable) : FunctionCallback :=
  let funcs := functions.map (fun f => bindStaticFunc f false true)
  fun args => overloadLoop functions.length 0 funcs args

/-- The function `adaptOverloadedInstanceFunction`. -/
def adaptOverloadedInstanceFunction (functions : List InstanceCallable) :
    InstanceFunctionCallback :=
  let funcs := functions.map (fun f => bindInstanceFunc f false true)
  fun thiz args => overloadLoop functions.length 0 (funcs.map (fun cb => cb thiz)) args

/-! ### Specification-side notions for the marshalling layer -/

/-- Converting one argument for one parameter: holder, then `toCpp`. -/
def Param.convert (p : Param) (v : JsValue) : Except String CppVal :=
  match TypeHolder.make p v with
  | Except.error e => Except.error e
  | Except.ok h => p.toCpp h

/-- Whether the argument converts for the parameter. -/
def Param.converts (p : Param) (v : JsValue) : Bool :=
  match p.convert v with
  | Except.ok _ => true
  | Except.error _ => false

/-- The arguments match the native signature: the count equals the arity and
every argument converts. -/
def NativeFunction.argumentsMatch (f : NativeFunction) (args : Arguments) : Bool :=
  decide (args.size = f.params.length) &&
    (List.zip f.params args.argv_).all (fun pv => pv.1.converts pv.2)

/-- The converted native arguments, argument by argument (`CppVal.void` where
an argument does not convert). -/
def NativeFunction.convertedArgs (f : NativeFunction) (args : Arguments) : List CppVal :=
  (List.zip f.params args.argv_).map (fun pv =>
    match pv.1.convert pv.2 with
    | Except.ok c => c
    | Except.error _ => CppVal.void)

/-- The result of a throwing binding once its native function runs on
`cppArgs`: an exception of the native code or of the return conversion
propagates, `void` yields an empty value. -/
def NativeFunction.result (f : NativeFunction) (cppArgs : List CppVal) : Except Thrown JsValue :=
  match f.body cppArgs with
  | Except.error e => Except.error (Thrown.exception e)
  | Except.ok ret =>
    if f.returnsVoid then Except.ok JsValue.undefined
    else
      match f.toScript ret with
      | Except.ok v => Except.ok v
      | Except.error e => Except.error (Thrown.exception e)

/-! ### A concrete overload set: `f(number)` and `f(string)` -/

/-- A parameter of a numeric type: `toCpp` accepts integral numbers. -/
def numberParam : Param :=
  ⟨false, fun v =>
    match v with
    | JsValue.number (JsNumber.val z) => Except.ok (CppVal.integer z)
    | _ => Except.error "can't cast value as Number"⟩

/-- A parameter of type `std::string` (string-like). -/
def stringParam : Param :=
  ⟨true, fun v =>
    match v with
    | JsValue.string s => Except.ok (CppVal.text s)
    | _ => Except.error "can't cast value as String"⟩

/-- The native function `int f(int)`, tagged `1`: it returns its last argument. -/
def fNumber : NativeFunction :=
  ⟨1, [numberParam], false,
    fun cs => Except.ok (cs.getLastD CppVal.void),
    fun c =>
      match c with
      | CppVal.integer i => Except.ok (JsValue.number (JsNumber.val i))
      | _ => Except.ok JsValue.undefined⟩

/-- The native function `std::string f(std::string)`, tagged `2`. -/
def fString : NativeFunction :=
  ⟨2, [stringParam], false,
    fun cs => Except.ok (cs.getLastD CppVal.void),
    fun c =>
      match c with
      | CppVal.text s => Except.ok (JsValue.string s)
      | _ => Except.ok JsValue.undefined⟩

/-- The native function `void g(int, int)`, tagged `3`. -/
def gTwoNumbers : NativeFunction :=
  ⟨3, [numberParam, numberParam], true,
    fun _ => Except.ok CppVal.void, fun _ => Except.ok JsValue.undefined⟩

/-- A call with the single argument `"a"`. -/
def oneStringCall : Arguments := ⟨1, JsValue.undefined, [JsValue.string "a"]⟩

/-- A call with the single argument `true`. -/
def oneBoolCall : Arguments := ⟨1, JsValue.undefined, [JsValue.bool true]⟩

/-! ## Value cells: `trait/TraitReference.h` -/

/-- One `std::shared_ptr<jsi::Value>` cell: the value it holds and the number
of `shared_ptr` owners. A cell whose `useCount` is `0` has been destroyed: only
`weak_ptr`s can still name it. -/
structure Cell where
  value : JsValue
  useCount : Nat
  deriving DecidableEq, Repr

/-- The call `std::make_shared<jsi::Value>(v)`: a new cell with one owner. -/
def allocCell (cells : List Cell) (v : JsValue) : CellId × List Cell :=
  (cells.length, cells ++ [⟨v, 1⟩])

/-- Copying a `shared_ptr`: one more owner (nothing for a null pointer). -/
def retainCell (cells : List Cell) : Option CellId → List Cell
  | none => cells
  | some c => cells.modify (fun cell => ⟨cell.value, cell.useCount + 1⟩) c

/-- Destroying or resetting a `shared_ptr`: one owner less. -/
def releaseCell (cells : List Cell) : Option CellId → List Cell
  | none => cells
  | some c => cells.modify (fun cell => ⟨cell.value, cell.useCount - 1⟩) c

/-- Dereferencing a `shared_ptr`: `none` for a null pointer. -/
def deref (cells : List Cell) : Option CellId → Option JsValue
  | none => none
  | some c => cells[c]?.map (fun cell => cell.value)

/-- The call `std::weak_ptr::lock`: the cell while it still has an owner. -/
def lockCell (cells : List Cell) : Option CellId → Option CellId
  | none => none
  | some c =>
    match cells[c]? with
    | some cell => if cell.useCount > 0 then some c else none
    | none => none

/-- The class `internal::ValueHolder`, the state of a `Local<T>`. -/
structure Local where
  valuePtr : Option CellId
  deriving DecidableEq, Repr

/-- The class `internal::GlobalValueHolder`, the state of a `Global<T>`
(`engine_` is `0` for `nullptr`; the bookkeeping handle is left out). -/
structure Global where
  valuePtr : Option CellId
  engine_ : Ptr
  deriving DecidableEq, Repr

/-- The class `internal::WeakValueHolder`, the state of a `Weak<T>`: `valuePtr`
is a `std::weak_ptr`. -/
structure Weak where
  valuePtr : Option CellId
  engine_ : Ptr
  deriving DecidableEq, Repr

/-! ## `HermesLocalReference.cc`: `Local<Value>` -/

/-- The constructor `Local<Value>::Local()`: a fresh cell holding `undefined`. -/
def Local.empty (cells : List Cell) : Local × List Cell :=
  (⟨some (allocCell cells JsValue.undefined).1⟩, (allocCell cells JsValue.undefined).2)

/-- The call `hermes_interop::makeLocal<Value>(value)`, also
`Local<Value>(const jsi::Value&)`: a fresh cell holding a copy of `value`. -/
def makeLocal (cells : List Cell) (v : JsValue) : Local × List Cell :=
  (⟨some (allocCell cells v).1⟩, (allocCell cells v).2)

/-- The destructor `Local<T>::~Local()`. -/
def Local.destroy (cells : List Cell) (l : Local) : List Cell :=
  releaseCell cells l.valuePtr

/-- The helper `hermes_interop::isType`: `false` for a null cell pointer,
otherwise the predicate applied to the value. -/
def isType (cells : List Cell) (val : Local) (isFunc : JsValue → Bool) : Bool :=
  match deref cells val.valuePtr with
  | none => false
  | some v => isFunc v

/-- The member `jsi::Value::isNull`. -/
def JsValue.isNull : JsValue → Bool
  | JsValue.null => true
  | _ => false

/-- The member `jsi::Value::isUndefined`. -/
def JsValue.isUndefined : JsValue → Bool
  | JsValue.undefined => true
  | _ => false

/-- The member `jsi::Value::isObject`. -/
def JsValue.isObject : JsValue → Bool
  | JsValue.object _ => true
  | _ => false

/-- The member `Local<Value>::isNull`. -/
def Local.isNull (cells : List Cell) (l : Local) : Bool :=
  if l.valuePtr = none then true
  else isType cells l JsValue.isNull || isType cells l JsValue.isUndefined

/-- The member `Local<Value>::isObject`. -/
def Local.isObject (cells : List Cell) (l : Local) : Bool :=
  isType cells l JsValue.isObject

/-- The runtime's `jsi::Value::strictEquals` (script `===`), a capability of
the wrapped runtime: the kinds must agree; `NaN` differs from every number; strings compare by content and
objects by identity. -/
def strictEquals : JsValue → JsValue → Bool
  | JsValue.undefined, JsValue.undefined => true
  | JsValue.null, JsValue.null => true
  | JsValue.bool a, JsValue.bool b => a == b
  | JsValue.number (JsNumber.val a), JsValue.number (JsNumber.val b) => a == b
  | JsValue.string a, JsValue.string b => a == b
  | JsValue.object a, JsValue.object b => a == b
  | _, _ => false

/-- The operator `Local<Value>::operator==`. Dereferencing a null cell pointer
in the `strictEquals` call is undefined behaviour. -/
def Local.eq (cells : List Cell) (self other : Local) : Except Thrown Bool :=
  if self.isNull cells then Except.ok (other.isNull cells)
  else
    match deref cells self.valuePtr, deref cells other.valuePtr with
    | some a, some b => Except.ok (strictEquals a b)
    | _, _ => Except.error (Thrown.undefinedBehaviour "null cell pointer dereferenced")

/-! ## `HermesReference.hpp`: `Global<T>` and `Weak<T>` (at `T = Value`) -/

/-- The constructor `Global<T>::Global()`. -/
def Global.empty : Global := ⟨none, 0⟩

/-- The constructor `Global<T>::Global(const Local<T>&)` under the current
engine `currentEngine`: it shares the cell of the `Local`. -/
def Global.ofLocal (currentEngine : Ptr) (cells : List Cell) (localReference : Local) :
    Global × List Cell :=
  (⟨localReference.valuePtr, currentEngine⟩, retainCell cells localReference.valuePtr)

/-- The member `Global<T>::isEmpty`. -/
def Global.isEmpty (g : Global) : Bool := g.engine_ == 0

/-- The member `Global<T>::get`: `Local<T>(val_)` shares the cell. -/
def Global.get (cells : List Cell) (g : Global) : Except Thrown Local × List Cell :=
  if g.isEmpty then (Except.error (Thrown.exception "get on empty Global"), cells)
  else (Except.ok ⟨g.valuePtr⟩, retainCell cells g.valuePtr)

/-- The member `Global<T>::getValue`. -/
def Global.getValue (cells : List Cell) (g : Global) : Local × List Cell :=
  if g.isEmpty then Local.empty cells
  else (⟨g.valuePtr⟩, retainCell cells g.valuePtr)

/-- The member `Global<T>::reset`. -/
def Global.reset (cells : List Cell) (g : Global) : Global × List Cell :=
  if g.isEmpty then (g, cells)
  else (⟨none, 0⟩, releaseCell cells g.valuePtr)

/-- The constructor `Weak<T>::Weak()`. -/
def Weak.empty : Weak := ⟨none, 0⟩

/-- The constructor `Weak<T>::Weak(const Local<T>&)`: a `weak_ptr` to the cell
of the `Local` (when it has one), under the current engine. -/
def Weak.ofLocal (currentEngine : Ptr) (localReference : Local) : Weak :=
  ⟨localReference.valuePtr, currentEngine⟩

/-- The constructor `Weak<T>::Weak(const Global<T>&)`: it delegates to
`Weak(Local)` on the temporary `globalReference.getValue()`, which is
destroyed afterwards. -/
def Weak.ofGlobal (currentEngine : Ptr) (cells : List Cell) (globalReference : Global) :
    Weak × List Cell :=
  let tmp := globalReference.getValue cells
  (Weak.ofLocal currentEngine tmp.1, Local.destroy tmp.2 tmp.1)

/-- The member `Weak<T>::isEmpty`. -/
def Weak.isEmpty (w : Weak) : Bool := w.engine_ == 0

/-- The member `Weak<T>::getValue`: an empty handle and an expired cell both
give an empty `Local`; a live cell gives `Local<Value>(*shared)`, a fresh cell
holding a copy of the value. -/
def Weak.getValue (cells : List Cell) (w : Weak) : Local × List Cell :=
  if w.isEmpty then Local.empty cells
  else
    match deref cells (lockCell cells w.valuePtr) with
    | some v => makeLocal cells v
    | none => Local.empty cells

/-- The member `Weak<T>::get`; the temporary `value` is destroyed when the
exception leaves, and the closing `Converter<Local<T>>::toCpp` is the
identity at `T = Value`. -/
def Weak.get (cells : List Cell) (w : Weak) : Except Thrown Local × List Cell :=
  let value := w.getValue cells
  if value.1.isNull value.2 then
    (Except.error (Thrown.exception "get on null Weak"), Local.destroy value.2 value.1)
  else (Except.ok value.1, value.2)

/-! ### Concrete handle scenarios -/

/-- Two `Local`s obtained separately for the same script object `7` (as two
`engine->get(...)` calls give): cell `0` and cell `1`. -/
def twoLocalsCells : List Cell :=
  (makeLocal (makeLocal [] (JsValue.object 7)).2 (JsValue.object 7)).2

/-- The first of the two `Local`s (cell `0`). -/
def firstLocal : Local := (makeLocal [] (JsValue.object 7)).1

/-- The second of the two `Local`s (cell `1`). -/
def secondLocal : Local := (makeLocal (makeLocal [] (JsValue.object 7)).2 (JsValue.object 7)).1

/-- A `Weak` made from the first `Local`, under engine `1`. -/
def weakOfFirst : Weak := Weak.ofLocal 1 firstLocal

/-- A `Global` made from the second `Local`, under engine `1`. -/
def globalOfSecond : Global := (Global.ofLocal 1 twoLocalsCells secondLocal).1

/-- The cells once both `Local`s have gone out of scope: only the `Global`
still owns a cell. -/
def cellsAfterLocalsDie : List Cell :=
  Local.destroy (Local.destroy (Global.ofLocal 1 twoLocalsCells secondLocal).2 firstLocal)
    secondLocal

/-- Two cells holding `null` and `undefined`. -/
def nullAndUndefinedCells : List Cell := [⟨JsValue.null, 1⟩, ⟨JsValue.undefined, 1⟩]

/-! ## The script heap and the native-state attachment -/

/-- The payload attached to a script object with `setNativeState`: one of the
two holders of `trait/TraitNative.h`, or any other subclass of the open base
class `jsi::NativeState`. -/
inductive NativeState
  /-- The owning `SharedScriptClassHolder` with its `sc` pointer. -/
  | shared (sc : Ptr)
  /-- The `NonOwningSharedScriptClassHolder` with its `sc` pointer. -/
  | nonOwning (sc : Ptr)
  /-- Some other `jsi::NativeState`. -/
  | foreign (tag : Nat)
  deriving DecidableEq, Repr

/-- An object of the script heap, as far as the backend looks at it: its
prototype link, whether it is callable, the object stored under its own
property `prototype`, the elements when it is an `Array`, and its native
state. Builtin prototypes are not heap objects of the model: `proto = none`
is a chain that ends there. -/
structure JsObject where
  proto : Option ObjId
  callable : Bool
  prototypeProperty : Option ObjId
  elements : Option (List JsValue)
  nativeState : Option NativeState
  deriving DecidableEq, Repr

/-- A plain object created with the given prototype link. -/
def JsObject.plain (proto : Option ObjId) : JsObject := ⟨proto, false, none, none, none⟩

/-- The array `jsi::Array(runtime, 0)`. -/
def JsObject.emptyArray : JsObject := ⟨none, false, none, some [], none⟩

/-- Allocating an object of the script heap: its identity and the new heap. -/
def allocObject (objects : List JsObject) (o : JsObject) : ObjId × List JsObject :=
  (objects.length, objects ++ [o])

/-- The members `jsi::Object::hasNativeState` / `getNativeState`. -/
def getNativeState (objects : List JsObject) (obj : ObjId) : Option NativeState :=
  match objects[obj]? with
  | some o => o.nativeState
  | none => none

/-- The member `jsi::Object::setNativeState`. -/
def setNativeState (objects : List JsObject) (obj : ObjId) (state : NativeState) :
    List JsObject :=
  objects.modify (fun o => ⟨o.proto, o.callable, o.prototypeProperty, o.elements, some state⟩) obj

/-- Walking a prototype chain from `start`, at most `fuel` links. -/
def protoChainContains (objects : List JsObject) : Nat → Option ObjId → ObjId → Bool
  | 0, _, _ => false
  | _ + 1, none, _ => false
  | fuel + 1, some o, target =>
    o == target ||
      protoChainContains objects fuel
        (match objects[o]? with
          | some x => x.proto
          | none => none) target

/-- The runtime's `instanceOf(obj, func)` (script `obj instanceof func`), a
capability of the wrapped runtime: the prototype chain of `obj` is searched for the object under `func.prototype`;
a function without such an object makes the runtime raise. -/
def instanceOf (objects : List JsObject) (obj func : ObjId) : Except Thrown Bool :=
  match objects[func]? with
  | some f =>
    match f.prototypeProperty with
    | some p =>
      Except.ok (protoChainContains objects objects.length
        (match objects[obj]? with
          | some x => x.proto
          | none => none) p)
    | none => Except.error (Thrown.jsError "function has non-object prototype in instanceof")
  | none => Except.error (Thrown.jsError "function has non-object prototype in instanceof")

/-- The script builtin `Object.create(proto)` of the wrapped runtime. -/
def objectCreate (objects : List JsObject) (proto : JsValue) :
    Except Thrown (ObjId × List JsObject) :=
  match proto with
  | JsValue.object p => Except.ok (allocObject objects (JsObject.plain (some p)))
  | JsValue.null => Except.ok (allocObject objects (JsObject.plain none))
  | _ => Except.error (Thrown.jsError "Object prototype argument must be an Object or null")

/-- The chain `valuePtr->asObject(rt).asFunction(rt)`: a null cell pointer is
undefined behaviour, a value that is not a callable object makes `jsi` raise. -/
def asFunction (objects : List JsObject) (v : Option JsValue) : Except Thrown ObjId :=
  match v with
  | none => Except.error (Thrown.undefinedBehaviour "null cell pointer dereferenced")
  | some (JsValue.object f) =>
    match objects[f]? with
    | some o =>
      if o.callable then Except.ok f else Except.error (Thrown.jsError "Object is not a function")
    | none => Except.error (Thrown.jsError "Object is not a function")
  | some _ => Except.error (Thrown.jsError "Value is not an Object")

/-! ## `HermesEngine.h`, `trait/TraitNative.h`: engine and native instances -/

/-- The struct `hermes_backend::HermesScriptClassState`, the `internalState_`
of a `ScriptClass`. -/
structure HermesScriptClassState where
  scriptEngine_ : Ptr
  classDefine : Ptr
  polymorphicPointer : Ptr
  internalStore_ : Local
  weakRef_ : Option CellId
  deriving DecidableEq, Repr

/-- The part of `internal::ClassDefineState` the projection reads: the address
of the description (its identity), the class name and the native constructor
thunk `instanceDefine.constructor`, which returns the instance pointer (`0`
for `nullptr`) or raises. -/
structure ClassDefineState where
  addr : Ptr
  className : String
  constructor : Arguments → Except Thrown Ptr

/-- The struct `HermesEngine::ClassRegistryData`. -/
structure ClassRegistryData where
  constructor : Global
  prototype : Global
  instanceTypeToScriptClass : Ptr → Ptr

/-- The fields of `HermesEngine` the class projection uses; `self` is the
address of the engine. -/
structure HermesEngine where
  self : Ptr
  runtime_ : Ptr
  classRegistry_ : List (Ptr × ClassRegistryData)

/-- The lookup `classRegistry_.find(classDefine)`. -/
def findClass (registry : List (Ptr × ClassRegistryData)) (classDefine : Ptr) :
    Option ClassRegistryData :=
  match registry with
  | [] => none
  | (key, data) :: rest => if key = classDefine then some data else findClass rest classDefine

/-- The state the projection works on: the engine, the value cells, the script
heap and the `internalState_` of the `ScriptClass` at each native address. -/
structure World where
  engine : HermesEngine
  cells : List Cell
  objects : List JsObject
  scriptClasses : Ptr → HermesScriptClassState

/-! ## `HermesEngine-Native.cc`: class projection -/

/-- The method `HermesEngine::performIsInstanceOf`. The `static_cast` of the
native state to `SharedScriptClassHolder*` is undefined behaviour when the
payload is of another class. -/
def performIsInstanceOf (w : World) (value : Local) (classDefine : Ptr) : Except Thrown Bool :=
  if !value.isObject w.cells then Except.ok false
  else
    match findClass w.engine.classRegistry_ classDefine with
    | none => Except.ok false
    | some registry =>
      if registry.constructor.isEmpty then Except.ok false
      else
        match deref w.cells value.valuePtr with
        | some (JsValue.object obj) =>
          match asFunction w.objects (deref w.cells registry.constructor.valuePtr) with
          | Except.error t => Except.error t
          | Except.ok func =>
            match instanceOf w.objects obj func with
            | Except.error t => Except.error t
            | Except.ok true => Except.ok true
            | Except.ok false =>
              match getNativeState w.objects obj with
              | none => Except.ok false
              | some (NativeState.shared sc) =>
                Except.ok (decide ((w.scriptClasses sc).classDefine = classDefine))
              | some _ =>
                Except.error (Thrown.undefinedBehaviour
                  "static_cast to SharedScriptClassHolder of another NativeState")
        | _ => Except.ok false

/-- The method `HermesEngine::performGetNativeInstance`. The result of
`getNativeState(rt).get()` is cast and dereferenced without a
`hasNativeState` test: for an object without native state the call is
outside the contract of `jsi` and there is no holder to read. -/
def performGetNativeInstance (w : World) (value : Local) (classDefine : Ptr) :
    Except Thrown Ptr :=
  if value.isObject w.cells then
    match performIsInstanceOf w value classDefine with
    | Except.error t => Except.error t
    | Except.ok false => Except.ok 0
    | Except.ok true =>
      match deref w.cells value.valuePtr with
      | some (JsValue.object obj) =>
        match getNativeState w.objects obj with
        | none =>
          Except.error (Thrown.undefinedBehaviour
            "getNativeState of an object without native state, dereferenced")
        | some (NativeState.shared sc) => Except.ok (w.scriptClasses sc).polymorphicPointer
        | some _ =>
          Except.error (Thrown.undefinedBehaviour
            "static_cast to SharedScriptClassHolder of another NativeState")
      | _ => Except.ok 0
  else Except.ok 0

/-- How a host callback ended and the state it left. -/
structure HookResult where
  world : World
  outcome : Except Thrown JsValue

/-- Lines 120-134 of the constructor hook: the instance adopted from a single
object argument carrying a non-owning attachment (`0` when none is
adopted); any other native state on that argument raises. -/
def adoptedInstance (objects : List JsObject) (arguments : List JsValue) : Except Thrown Ptr :=
  match arguments with
  | [JsValue.object o] =>
    match getNativeState objects o with
    | some (NativeState.nonOwning sc) => Except.ok sc
    | some _ => Except.error (Thrown.exception "NativeState is of incorrect type")
    | none => Except.ok 0
  | _ => Except.ok 0

/-- Lines 136-144 of the constructor hook: without an adopted instance the
native constructor thunk runs, and a null result raises. -/
def nativeInstance (classDefine : ClassDefineState) (scriptArgs : Arguments) (adopted : Ptr) :
    Except Thrown Ptr :=
  if adopted = 0 then
    match classDefine.constructor scriptArgs with
    | Except.error t => Except.error t
    | Except.ok thiz =>
      if thiz = 0 then
        Except.error (Thrown.exception ("can't create class " ++ classDefine.className))
      else Except.ok thiz
  else Except.ok adopted

/-- Lines 146-151 of the constructor hook: the four fields of
`scriptClass->internalState_` are written; the store is a fresh `Local` for a
fresh empty array, and the `Local` it replaces is destroyed. -/
def bindState (w : World) (classDefine : Ptr) (scriptClass thiz : Ptr) : World :=
  let arr := allocObject w.objects JsObject.emptyArray
  let store := makeLocal w.cells (JsValue.object arr.1)
  let old := w.scriptClasses scriptClass
  let state : HermesScriptClassState :=
    ⟨w.engine.self, classDefine, thiz, store.1, old.weakRef_⟩
  ⟨w.engine, releaseCell store.2 old.internalStore_.valuePtr, arr.2,
    fun p => if p = scriptClass then state else w.scriptClasses p⟩

/-- The host function built by `HermesEngine::createConstructor`, called by
the runtime `runtime` with `thisValue` and `arguments`. -/
def constructorHook (classDefine : ClassDefineState) (w : World) (runtime : Ptr)
    (thisValue : JsValue) (arguments : List JsValue) : HookResult :=
  if runtime ≠ w.engine.runtime_ then ⟨w, Except.error (Thrown.exception "Invalid Runtime")⟩
  else
    match findClass w.engine.classRegistry_ classDefine.addr with
    | none =>
      ⟨w, Except.error (Thrown.undefinedBehaviour "assert(it != classRegistry_.end())")⟩
    | some registry =>
      match adoptedInstance w.objects arguments with
      | Except.error t => ⟨w, Except.error t⟩
      | Except.ok adopted =>
        match nativeInstance classDefine ⟨w.engine.self, thisValue, arguments⟩ adopted with
        | Except.error t => ⟨w, Except.error t⟩
        | Except.ok thiz =>
          let scriptClass := registry.instanceTypeToScriptClass thiz
          let w1 := bindState w classDefine.addr scriptClass thiz
          match registry.prototype.valuePtr with
          | some protoCell =>
            match deref w1.cells (some protoCell) with
            | none =>
              ⟨w1, Except.error (Thrown.undefinedBehaviour "dangling cell pointer")⟩
            | some protoValue =>
              match objectCreate w1.objects protoValue with
              | Except.error t => ⟨w1, Except.error t⟩
              | Except.ok created =>
                ⟨⟨w1.engine, w1.cells,
                    setNativeState created.2 created.1 (NativeState.shared scriptClass),
                    w1.scriptClasses⟩,
                  Except.ok (JsValue.object created.1)⟩
          | none =>
            match thisValue with
            | JsValue.object t =>
              ⟨⟨w1.engine, w1.cells,
                  setNativeState w1.objects t (NativeState.shared scriptClass),
                  w1.scriptClasses⟩,
                Except.ok JsValue.undefined⟩
            | _ => ⟨w1, Except.error (Thrown.jsError "Value is not an Object")⟩

/-! ### A concrete engine with the class `Image` registered -/

/-- The class description of `Image` at address `500`; its native constructor
thunk returns the instance at address `5`. -/
def imageClass : ClassDefineState := ⟨500, "Image", fun _ => Except.ok 5⟩

/-- The script heap: `0` the registered constructor function (its `prototype`
is object `1`), `1` the registered prototype object, `2` an object carrying a
non-owning attachment for the native instance at `9`, `3` an object made by
script with `Object.create(Image.prototype)`. -/
def imageObjects : List JsObject :=
  [⟨none, true, some 1, none, none⟩,
   JsObject.plain none,
   ⟨none, false, none, none, some (NativeState.nonOwning 9)⟩,
   JsObject.plain (some 1)]

/-- The value cells: cells `0` and `1` belong to the registry's `Global`s,
cells `2` and `3` to `Local`s for the objects `2` and `3`. -/
def imageCells : List Cell :=
  [⟨JsValue.object 0, 1⟩, ⟨JsValue.object 1, 1⟩, ⟨JsValue.object 2, 1⟩, ⟨JsValue.object 3, 1⟩]

/-- The registry entry `defineInstance` builds for `Image`. -/
def imageRegistry : ClassRegistryData := ⟨⟨some 0, 100⟩, ⟨some 1, 100⟩, fun p => p⟩

/-- The engine at address `100` with runtime `200` and `Image` registered. -/
def imageEngine : HermesEngine := ⟨100, 200, [(500, imageRegistry)]⟩

/-- The state before any instance of `Image` is constructed. -/
def imageWorld : World :=
  ⟨imageEngine, imageCells, imageObjects, fun _ => ⟨0, 0, 0, ⟨none⟩, none⟩⟩

/-- The state with one more `Local`, made by `makeLocal` for `v`. -/
def World.withLocal (w : World) (v : JsValue) : World :=
  ⟨w.engine, (makeLocal w.cells v).2, w.objects, w.scriptClasses⟩

/-! ### The constructor hook with its native calls recorded -/

/-- Lines 136-144 of the constructor hook, as `nativeInstance`, together with
the invocation of the native constructor thunk they make. -/
def nativeInstanceTraced (classDefine : ClassDefineState) (scriptArgs : Arguments)
    (adopted : Ptr) : List Event × Except Thrown Ptr :=
  if adopted = 0 then
    ([Event.callback classDefine.className scriptArgs.thiz_ scriptArgs.argv_],
      match classDefine.constructor scriptArgs with
      | Except.error t => Except.error t
      | Except.ok thiz =>
        if thiz = 0 then
          Except.error (Thrown.exception ("can't create class " ++ classDefine.className))
        else Except.ok thiz)
  else ([], Except.ok adopted)

/-- Lines 146-167 of the constructor hook: the state of the `ScriptClass` of
`thiz` is bound, then the owning attachment is put on a new object that has
the registered prototype, or, without a prototype, on `thisValue`. -/
def attachInstance (w : World) (classDefine : Ptr) (registry : ClassRegistryData)
    (thisValue : JsValue) (thiz : Ptr) : HookResult :=
  let scriptClass := registry.instanceTypeToScriptClass thiz
  let w1 := bindState w classDefine scriptClass thiz
  match registry.prototype.valuePtr with
  | some protoCell =>
    match deref w1.cells (some protoCell) with
    | none => ⟨w1, Except.error (Thrown.undefinedBehaviour "dangling cell pointer")⟩
    | some protoValue =>
      match objectCreate w1.objects protoValue with
      | Except.error t => ⟨w1, Except.error t⟩
      | Except.ok created =>
        ⟨⟨w1.engine, w1.cells,
            setNativeState created.2 created.1 (NativeState.shared scriptClass),
            w1.scriptClasses⟩,
          Except.ok (JsValue.object created.1)⟩
  | none =>
    match thisValue with
    | JsValue.object t =>
      ⟨⟨w1.engine, w1.cells, setNativeState w1.objects t (NativeState.shared scriptClass),
          w1.scriptClasses⟩,
        Except.ok JsValue.undefined⟩
    | _ => ⟨w1, Except.error (Thrown.jsError "Value is not an Object")⟩

/-- The host function built by `HermesEngine::createConstructor`, as
`constructorHook`, together with the native calls it makes, in order: the
native constructor thunk and `instanceTypeToScriptClass`. -/
def constructorHookTraced (classDefine : ClassDefineState) (w : World) (runtime : Ptr)
    (thisValue : JsValue) (arguments : List JsValue) : List Event × HookResult :=
  if runtime ≠ w.engine.runtime_ then
    ([], ⟨w, Except.error (Thrown.exception "Invalid Runtime")⟩)
  else
    match findClass w.engine.classRegistry_ classDefine.addr with
    | none =>
      ([], ⟨w, Except.error (Thrown.undefinedBehaviour "assert(it != classRegistry_.end())")⟩)
    | some registry =>
      match adoptedInstance w.objects arguments with
      | Except.error t => ([], ⟨w, Except.error t⟩)
      | Except.ok adopted =>
        match nativeInstanceTraced classDefine ⟨w.engine.self, thisValue, arguments⟩ adopted with
        | (trace, Except.error t) => (trace, ⟨w, Except.error t⟩)
        | (trace, Except.ok thiz) =>
          (trace ++ [Event.toScriptClass thiz],
            attachInstance w classDefine.addr registry thisValue thiz)

/-- The helper `InstanceDefineBuilder::constructor(std::nullptr_t)`: a native
constructor thunk that always returns `nullptr`. -/
def nullConstructor : Arguments → Except Thrown Ptr := fun _ => Except.ok 0

/-! ### The other projected host thunks -/

/-- The struct `internal::InstanceDefine::FunctionDefine`. -/
structure InstanceFunctionDefine where
  name : String
  callback : InstanceFunctionCallback
  traceName : String

/-- The struct `internal::StaticDefine::FunctionDefine`. -/
structure StaticFunctionDefine where
  name : String
  callback : FunctionCallback
  traceName : String

/-- The struct `internal::InstanceDefine::PropertyDefine`: `none` is a null
`InstanceGetterCallback` / `InstanceSetterCallback`. -/
structure InstancePropertyDefine where
  name : String
  getter : Option (Ptr → Run)
  setter : Option (Ptr → JsValue → Run)

/-- The struct `internal::StaticDefine::PropertyDefine`: `none` is a null
`GetterCallback` / `SetterCallback`. -/
structure StaticPropertyDefine where
  name : String
  getter : Option (Unit → Run)
  setter : Option (JsValue → Run)

/-- The type `jsi::HostFunctionType`, called by the runtime `rt` with a `this`
value and arguments, in the state `w` of the engine captured at binding time. -/
abbrev HostFunction := World → Ptr → JsValue → List JsValue → Run

/-- The statement `throw Exception(std::string("Invalid Runtime"))`. -/
def invalidRuntime : Run := ⟨[], Except.error (Thrown.exception "Invalid Runtime")⟩

/-- A host thunk that returns nothing (`return {};`) after its callback. -/
def returnNothing (r : Run) : Except Thrown JsValue :=
  match r.outcome with
  | Except.ok _ => Except.ok JsValue.undefined
  | Except.error t => Except.error t

/-- The function `HermesEngine::getThisPointer`. -/
def getThisPointer (w : World) (thisVal : JsValue) : Except Thrown Ptr :=
  match thisVal with
  | JsValue.object o =>
    match getNativeState w.objects o with
    | none => Except.error (Thrown.exception "No private data added to Native Instance")
    | some (NativeState.shared sc) => Except.ok (w.scriptClasses sc).polymorphicPointer
    | some _ =>
      Except.error
        (Thrown.exception "Private data added to Native Instance isn't of ScriptClass")
  | _ => Except.error (Thrown.jsError "Value is not an Object")

/-- The host callback of `HermesEngine::defineInstanceFunction`. -/
def instanceFunctionThunk (f : InstanceFunctionDefine) : HostFunction :=
  fun w rt thisVal args =>
    if rt ≠ w.engine.runtime_ then invalidRuntime
    else
      match getThisPointer w thisVal with
      | Except.error t => ⟨[], Except.error t⟩
      | Except.ok thiz =>
        let res := f.callback thiz ⟨w.engine.self, thisVal, args⟩
        ⟨Event.callback f.name thisVal args :: res.trace, res.outcome⟩

/-- The host callback of `HermesEngine::newStaticFunction`. -/
def newStaticFunction (func : StaticFunctionDefine) : HostFunction :=
  fun w rt thisVal args =>
    if rt ≠ w.engine.runtime_ then invalidRuntime
    else
      let res := func.callback ⟨w.engine.self, thisVal, args⟩
      ⟨Event.callback func.name thisVal args :: res.trace, res.outcome⟩

/-- The function `HermesEngine::newStaticSetter`: an empty `Local` (`none`)
for a null setter, else a function for its host callback. -/
def newStaticSetter (prop : StaticPropertyDefine) : Option HostFunction :=
  match prop.setter with
  | none => none
  | some setter =>
    some (fun w rt thisVal args =>
      if rt ≠ w.engine.runtime_ then invalidRuntime
      else
        let res := setter ((⟨w.engine.self, thisVal, args⟩ : Arguments).get 0)
        ⟨Event.callback prop.name thisVal args :: res.trace, returnNothing res⟩)

/-- The function `HermesEngine::newStaticGetter`. -/
def newStaticGetter (prop : StaticPropertyDefine) : Option HostFunction :=
  match prop.getter with
  | none => none
  | some getter =>
    some (fun w rt thisVal args =>
      if rt ≠ w.engine.runtime_ then invalidRuntime
      else
        let res := getter ()
        ⟨Event.callback prop.name thisVal args :: res.trace, res.outcome⟩)

/-- The function `HermesEngine::newInstanceSetter`. -/
def newInstanceSetter (prop : InstancePropertyDefine) : Option HostFunction :=
  match prop.setter with
  | none => none
  | some setter =>
    some (fun w rt thisVal args =>
      if rt ≠ w.engine.runtime_ then invalidRuntime
      else
        match getThisPointer w thisVal with
        | Except.error t => ⟨[], Except.error t⟩
        | Except.ok thiz =>
          let res := setter thiz ((⟨w.engine.self, thisVal, args⟩ : Arguments).get 0)
          ⟨Event.callback prop.name thisVal args :: res.trace, returnNothing res⟩)

/-- The function `HermesEngine::newInstanceGetter`. -/
def newInstanceGetter (prop : InstancePropertyDefine) : Option HostFunction :=
  match prop.getter with
  | none => none
  | some getter =>
    some (fun w rt thisVal args =>
      if rt ≠ w.engine.runtime_ then invalidRuntime
      else
        match getThisPointer w thisVal with
        | Except.error t => ⟨[], Except.error t⟩
        | Except.ok thiz =>
          let res := getter thiz
          ⟨Event.callback prop.name thisVal args :: res.trace, res.outcome⟩)

/-- The host callback of `Function::newFunction` (`HermesValue.cc`). -/
def Function.newFunction (callback : FunctionCallback) : HostFunction :=
  fun w rt thisVal args =>
    if rt ≠ w.engine.runtime_ then invalidRuntime
    else
      let res := callback ⟨w.engine.self, thisVal, args⟩
      ⟨Event.callback "CppFunction" thisVal args :: res.trace, res.outcome⟩

/-- The class `Image` of `imageWorld` declared with `constructor(nullptr)`. -/
def sealedImageClass : ClassDefineState := ⟨500, "Image", nullConstructor⟩

/-- The first statements of `ScriptClass::performConstructFromCpp`
(`HermesNative.cc`, lines 61-63), the only place where a
`NonOwningSharedScriptClassHolder` is made: a fresh object receives the
holder of `this`. -/
def newNonOwningHolder (objects : List JsObject) (this : Ptr) : ObjId × List JsObject :=
  let created := allocObject objects (JsObject.plain none)
  (created.1, setNativeState created.2 created.1 (NativeState.nonOwning this))

/-- The invariant of the heap that this construction gives: no object carries
a non-owning holder whose `sc` is null (`this` is the address of a live
`ScriptClass`). -/
def holdersNonNull (objects : List JsObject) : Bool :=
  objects.all (fun o => decide (o.nativeState ≠ some (NativeState.nonOwning 0)))

/-- An instance function `drop` of `Image` whose native callback returns `1`. -/
def dropFunction : InstanceFunctionDefine :=
  ⟨"drop", fun _ _ => ⟨[], Except.ok (JsValue.number (JsNumber.val 1))⟩, "Image::drop"⟩

/-- The state after `new Image()` on `imageWorld`; the new instance is object
`5` and carries the owning attachment of the native instance `5`. -/
def imageInstanceWorld : World :=
  (constructorHook imageClass imageWorld 200 JsValue.undefined []).world

/-! ### Property descriptors (`defineInstanceProperties`, `registerStaticDefine`)

The registration code builds plain script objects with `Object::set`; such an
object is an ordered list of named properties. -/

/-- A plain script object under construction: its own properties in creation
order. -/
abbrev PropertyBag (α : Type) := List (String × α)

/-- The member `Object::set` on a plain object: an existing property keeps its
place and takes the new value, a new property is appended. -/
def PropertyBag.set {α : Type} : PropertyBag α → String → α → PropertyBag α
  | [], key, value => [(key, value)]
  | (k, v) :: rest, key, value =>
    if k = key then (k, value) :: rest else (k, v) :: PropertyBag.set rest key value

/-- Reading an own property of a plain object. -/
def PropertyBag.get {α : Type} : PropertyBag α → String → Option α
  | [], _ => none
  | (k, v) :: rest, key => if k = key then some v else PropertyBag.get rest key

/-- The procedures this backend stores in a `utils::Message`: the empty lambda,
the tick handler of `scheduleTick`, and the cleanup lambda of
`deleteScriptClass` (`delete static_cast<ScriptClass*>(msg.ptr0)`). -/
inductive MessageProc
  | nop
  | tick
  | deleteScriptClass
  deriving DecidableEq, Repr

/-- The fields of `utils::Message` the backend sets: `Message(handler, cleanup)`,
then `tag` and `ptr0`. -/
structure Message where
  handler : MessageProc
  cleanup : MessageProc
  tag : Ptr
  ptr0 : Ptr
  deriving DecidableEq, Repr

/-- A job in the runtime's microtask queue: running it either completes or
raises a script error. Jobs are atomic here; a job that enqueues further jobs
is represented by those jobs standing behind it in the queue. -/
structure Microtask where
  id : Nat
  throws : Option String
  deriving DecidableEq, Repr

/-- The calls `HermesEngine::destroy` makes, in a ghost log. -/
inductive TeardownStep
  | setDestroying
  | destroyUserData
  | removeMessageByTag (tag : Ptr)
  | drainMicrotasks
  | clearBookkeeping
  | clearClassRegistry
  | releaseRuntime
  deriving DecidableEq, Repr

/-- The engine with its lifecycle state: the projection state `world`, the
members `isDestroying_`, `tickScheduled_`, `messageQueue_`,
`globalWeakBookkeeping_` (the addresses of the registered handles) and
`userData_` of the base class, the runtime's pending microtasks, and ghost
state: the ids of the jobs completed so far, the `ScriptClass` instances
deleted so far, whether `delete runtime_` has run, and the teardown log. -/
structure Host where
  world : World
  isDestroying_ : Bool
  tickScheduled_ : Bool
  messageQueue_ : List Message
  globalWeakBookkeeping_ : List Ptr
  userData_ : Option Ptr
  microtasks : List Microtask
  completed : List Nat
  deleted : List Ptr
  runtimeReleased : Bool
  teardownLog : List TeardownStep

/-- The script-executing capabilities of the wrapped runtime, taken as
parameters: each runs arbitrary script on the engine state and returns a value
or raises. `global` is the runtime's global object. -/
structure ScriptRuntime where
  global : ObjId
  evaluateJavaScript : Host → String → String → Host × Except Thrown JsValue
  callWithThis : Host → ObjId → JsValue → List JsValue → Host × Except Thrown JsValue
  callAsConstructor : Host → ObjId → List JsValue → Host × Except Thrown JsValue

/-- Running the pending jobs in order: a job that raises is taken off the
queue and ends the run with its error, the jobs behind it stay queued. -/
def drainJobs : List Microtask → List Nat → List Microtask × List Nat × Except Thrown Bool
  | [], done => ([], done, Except.ok true)
  | job :: rest, done =>
    match job.throws with
    | some message => (rest, done, Except.error (Thrown.jsError message))
    | none => drainJobs rest (done ++ [job.id])

/-- The runtime's `drainMicrotasks(-1)` (Hermes: `drainJobs`, then `return
true`): it runs jobs without limit and returns `true` whenever it returns. -/
def drainMicrotasks (h : Host) : Host × Except Thrown Bool :=
  let r := drainJobs h.microtasks h.completed
  ({ h with microtasks := r.1, completed := r.2.1,
            teardownLog := h.teardownLog ++ [TeardownStep.drainMicrotasks] }, r.2.2)

/-- The destructor `HermesEngineScope::~HermesEngineScope`. -/
def HermesEngineScope.destroy (h : Host) : Host × Except Thrown Bool :=
  drainMicrotasks h

/-- Modelled from the spec: `MessageQueue::postMessage` of the host task
queue (`utils/MessageQueue.h` is not among the sources), a serial queue that
takes the message at its end. -/
def postMessage (queue : List Message) (message : Message) : List Message :=
  queue ++ [message]

/-- The expression `delete sc` for a `ScriptClass*`: the instance is destroyed
(recorded in the ghost list `deleted`). -/
def deleteInstance (h : Host) (sc : Ptr) : Host :=
  { h with deleted := h.deleted ++ [sc] }

/-- The function `HermesEngine::deleteScriptClass`. -/
def deleteScriptClass (h : Host) (sc : Ptr) : Host :=
  if !h.isDestroying_ then
    { h with
      messageQueue_ := postMessage h.messageQueue_
        ⟨MessageProc.nop, MessageProc.deleteScriptClass, h.world.engine.self, sc⟩ }
  else deleteInstance h sc

/-- The destructor `SharedScriptClassHolder::~SharedScriptClassHolder`: it
asks the engine recorded in the instance to delete it; `none` when that is an
engine other than the one of this state. -/
def SharedScriptClassHolder.destroy (h : Host) (sc : Ptr) : Option Host :=
  if (h.world.scriptClasses sc).scriptEngine_ = h.world.engine.self then
    some (deleteScriptClass h sc)
  else none

/-- The loop `while (!eng->runtime_->drainMicrotasks(-1)) {}` of the tick
handler, with a bound on the number of rounds. -/
def drainUntilDone : Nat → Host → Option (Host × Except Thrown Unit)
  | 0, _ => none
  | fuel + 1, h =>
    match drainMicrotasks h with
    | (h1, Except.error t) => some (h1, Except.error t)
    | (h1, Except.ok true) => some (h1, Except.ok ())
    | (h1, Except.ok false) => drainUntilDone fuel h1

/-- Running one of the stored procedures on a message. The tick handler
drains until done and then clears `tickScheduled_`; the engine scope it opens
drains once more when it is left. A raising job leaves the handler at the
drain, with `tickScheduled_` still set; the unwinding of the scope after that
is not followed. -/
def MessageProc.run (fuel : Nat) (proc : MessageProc) (message : Message) (h : Host) :
    Option (Host × Except Thrown Unit) :=
  match proc with
  | MessageProc.nop => some (h, Except.ok ())
  | MessageProc.deleteScriptClass => some (deleteInstance h message.ptr0, Except.ok ())
  | MessageProc.tick =>
    match drainUntilDone fuel h with
    | none => none
    | some (h1, Except.error t) => some (h1, Except.error t)
    | some (h1, Except.ok _) =>
      let h2 := { h1 with tickScheduled_ := false }
      match HermesEngineScope.destroy h2 with
      | (h3, Except.error t) => some (h3, Except.error t)
      | (h3, Except.ok _) => some (h3, Except.ok ())

/-- Modelled from the spec: disposing a message of the host task queue runs
its cleanup procedure (the second lambda given to `utils::Message`). -/
def Message.dispose (message : Message) (h : Host) : Host :=
  match message.cleanup with
  | MessageProc.deleteScriptClass => deleteInstance h message.ptr0
  | _ => h

/-- Modelled from the spec: `MessageQueue::removeMessageByTag`, "remove all
queued tasks matching a tag"; the removed messages are disposed, in queue
order, without being handled. -/
def removeMessageByTag (h : Host) (tag : Ptr) : Host :=
  let removed := h.messageQueue_.filter (fun m => m.tag = tag)
  let h1 :=
    { h with
      messageQueue_ := h.messageQueue_.filter (fun m => ¬ m.tag = tag),
      teardownLog := h.teardownLog ++ [TeardownStep.removeMessageByTag tag] }
  removed.foldl (fun s m => Message.dispose m s) h1

/-- Modelled from the spec: `ScriptEngine::destroyUserData` of the base class
(`Engine.h` is not among the sources), which drops the engine's native user
data. -/
def destroyUserData (h : Host) : Host :=
  { h with userData_ := none,
           teardownLog := h.teardownLog ++ [TeardownStep.destroyUserData] }

/-- Modelled from the spec: `GlobalWeakBookkeeping::clear`
(`utils/GlobalWeakBookkeeping.hpp` is not among the sources), the "explicit
clear at teardown" that leaves the table of registered handles empty. -/
def GlobalWeakBookkeeping.clear (h : Host) : Host :=
  { h with globalWeakBookkeeping_ := [],
           teardownLog := h.teardownLog ++ [TeardownStep.clearBookkeeping] }

/-- The statement `isDestroying_ = true`. -/
def setDestroying (h : Host) : Host :=
  { h with isDestroying_ := true,
           teardownLog := h.teardownLog ++ [TeardownStep.setDestroying] }

/-- The statement `classRegistry_.clear()`. -/
def clearClassRegistry (h : Host) : Host :=
  { h with world := { h.world with engine := { h.world.engine with classRegistry_ := [] } },
           teardownLog := h.teardownLog ++ [TeardownStep.clearClassRegistry] }

/-- The statements `invalidatePropNameCache = nullptr; delete runtime_;`. -/
def releaseRuntime (h : Host) : Host :=
  { h with runtimeReleased := true,
           teardownLog := h.teardownLog ++ [TeardownStep.releaseRuntime] }

/-- The function `HermesEngine::destroy`. It is `noexcept`: an error outcome
is the exception of a raising microtask reaching that boundary, where the
program is terminated (`std::terminate`) in the state returned. -/
def HermesEngine.destroy (h : Host) : Host × Except Thrown Unit :=
  let h1 := setDestroying h
  let h2 := destroyUserData h1
  let h3 := removeMessageByTag h2 h2.world.engine.self
  match drainMicrotasks h3 with
  | (h4, Except.error t) => (h4, Except.error t)
  | (h4, Except.ok _) =>
    let h5 := GlobalWeakBookkeeping.clear h4
    let h6 := clearClassRegistry h5
    (releaseRuntime h6, Except.ok ())

/-- The helper `hermes_interop::toJsiVector`: it dereferences the cell pointer
of every argument handle. -/
def toJsiVector (cells : List Cell) : List Local → Except Thrown (List JsValue)
  | [] => Except.ok []
  | arg :: rest =>
    match deref cells arg.valuePtr with
    | none => Except.error (Thrown.undefinedBehaviour "null cell pointer dereferenced")
    | some v =>
      match toJsiVector cells rest with
      | Except.error t => Except.error t
      | Except.ok vs => Except.ok (v :: vs)

/-- The state with one more `Local`, made by `makeLocal` for `v`. -/
def Host.withLocal (h : Host) (v : JsValue) : Host :=
  { h with world := h.world.withLocal v }

/-- The function `Object::newObjectImpl` (`HermesValue.cc`). -/
def Object.newObjectImpl (rt : ScriptRuntime) (h : Host) (type : Local) (args : List Local) :
    Host × Except Thrown Local :=
  match toJsiVector h.world.cells args with
  | Except.error t => (h, Except.error t)
  | Except.ok arguments =>
    match asFunction h.world.objects (deref h.world.cells type.valuePtr) with
    | Except.error t => (h, Except.error t)
    | Except.ok constructor =>
      match rt.callAsConstructor h constructor arguments with
      | (h1, Except.error t) => (h1, Except.error t)
      | (h1, Except.ok v) => (h1.withLocal v, Except.ok (makeLocal h1.world.cells v).1)

/-- The function `HermesEngine::performNewNativeClass`; `Local<Value>
constructor(it->second.constructor.val_)` shares the cell of the entry's
`Global`. -/
def performNewNativeClass (rt : ScriptRuntime) (h : Host) (classDefine : ClassDefineState)
    (args : List Local) : Host × Except Thrown Local :=
  match findClass h.world.engine.classRegistry_ classDefine.addr with
  | some registry =>
    let constructor : Local := ⟨registry.constructor.valuePtr⟩
    let h0 : Host :=
      { h with world := { h.world with
          cells := retainCell h.world.cells registry.constructor.valuePtr } }
    match Object.newObjectImpl rt h0 constructor args with
    | (h1, outcome) =>
      ({ h1 with world := { h1.world with
          cells := releaseCell h1.world.cells constructor.valuePtr } }, outcome)
  | none =>
    (h, Except.error
      (Thrown.exception ("class define[" ++ classDefine.className ++ "] is not registered")))

/-- The two `catch` clauses of `callImpl` and `eval`: an error of the runtime
becomes a `script::Exception`; anything else passes through. -/
def translateJsError : Thrown → Thrown
  | Thrown.jsError message => Thrown.exception message
  | t => t

/-- The function `HermesEngine::eval(script, sourceFile)`; `script` and
`sourceFile` are the strings `script.toString()` and
`sourceFile.describeUtf8()`. -/
def HermesEngine.eval (rt : ScriptRuntime) (h : Host) (script sourceFile : String) :
    Host × Except Thrown Local :=
  match rt.evaluateJavaScript h script sourceFile with
  | (h1, Except.error t) => (h1, Except.error (translateJsError t))
  | (h1, Except.ok ret) =>
    match drainMicrotasks h1 with
    | (h2, Except.error t) => (h2, Except.error t)
    | (h2, Except.ok _) => (h2.withLocal ret, Except.ok (makeLocal h2.world.cells ret).1)

/-- The function `HermesEngine::evalInPlaceInternal`, reached from every
`evalInPlace`; `buffer` is the content of the buffer. -/
def HermesEngine.evalInPlaceInternal (rt : ScriptRuntime) (h : Host)
    (buffer sourceFile : String) : Host × Except Thrown Local :=
  match rt.evaluateJavaScript h buffer sourceFile with
  | (h1, Except.error t) => (h1, Except.error (translateJsError t))
  | (h1, Except.ok ret) =>
    match drainMicrotasks h1 with
    | (h2, Except.error t) => (h2, Except.error t)
    | (h2, Except.ok _) => (h2.withLocal ret, Except.ok (makeLocal h2.world.cells ret).1)

/-! ### A concrete engine state and runtime for the lifecycle -/

/-- The heap of `imageWorld` with two more objects: `4` the global object and
`5` a script function. Cell `4` belongs to a `Local` for the function, cell
`5` to a `Local` holding the number `3`. -/
def tickWorld : World :=
  ⟨imageEngine,
    imageCells ++ [⟨JsValue.object 5, 1⟩, ⟨JsValue.number (JsNumber.val 3), 1⟩],
    imageObjects ++ [JsObject.plain none, ⟨none, true, none, none, none⟩],
    fun _ => ⟨100, 500, 0, ⟨none⟩, none⟩⟩

/-- An engine in normal operation: nothing queued, two registered handles. -/
def tickHost : Host := ⟨tickWorld, false, false, [], [700, 701], some 900, [], [], [], false, []⟩

/-- A runtime whose script schedules the continuation `7` whenever it runs:
evaluation returns `1`, a call returns `undefined`, a construction returns a
new object whose prototype is the `prototype` property of the constructor. -/
def promiseRuntime : ScriptRuntime :=
  ⟨4,
    fun h _ _ =>
      ({ h with microtasks := h.microtasks ++ [⟨7, none⟩] },
        Except.ok (JsValue.number (JsNumber.val 1))),
    fun h _ _ _ =>
      ({ h with microtasks := h.microtasks ++ [⟨7, none⟩] }, Except.ok JsValue.undefined),
    fun h constructor _ =>
      ({ h with
          microtasks := h.microtasks ++ [⟨7, none⟩],
          world := { h.world with
            objects := h.world.objects ++
              [JsObject.plain ((h.world.objects[constructor]?).bind
                (fun o => o.prototypeProperty))] } },
        Except.ok (JsValue.object h.world.objects.length))⟩

/-- The `Local` holding the number `3` in `tickWorld`. -/
def threeLocal : Local := ⟨some 5⟩

/-- A class description of static members only, at address `600`. -/
def mathClass : ClassDefineState := ⟨600, "MathUtil", nullConstructor⟩

/-- The engine state after registering the static-only class `MathUtil`:
`performRegisterNativeClass` emplaces the default-initialised registry entry,
whose `constructor` and `prototype` are empty `Global`s. -/
def staticOnlyHost : Host :=
  { tickHost with world := { tickWorld with engine :=
      ⟨100, 200, [(500, imageRegistry), (600, ⟨Global.empty, Global.empty, fun p => p⟩)]⟩ } }

/-- An engine state with a pending deletion message for the instance `5`, a
message of another engine (tag `101`), a pending tick and two queued jobs. -/
def busyHost : Host :=
  { tickHost with
    tickScheduled_ := true,
    messageQueue_ :=
      [⟨MessageProc.nop, MessageProc.deleteScriptClass, 100, 5⟩,
       ⟨MessageProc.nop, MessageProc.nop, 101, 0⟩,
       ⟨MessageProc.tick, MessageProc.nop, 100, 100⟩],
    microtasks := [⟨7, none⟩, ⟨8, none⟩] }

/-! ## `src/Native.hpp`: setter bindings -/

/-- A typed native setter handed to `bindStaticSet` (`void(T)`) or
`bindInstanceSet` (`void(C*, T)`): its identity, the type `T` of the value it
takes and the native code, which returns or raises a `script::Exception`. -/
structure NativeSetter where
  tag : Nat
  param : Param
  body : List CppVal → Except String Unit

/-- The `try` block of both setter bindings with its `catch` clause:
`typeHolder.emplace(value); arg = typeHolder->toCpp<Type>();`, a conversion
exception going to `handleException(e, nothrow)`. The result is the
`std::optional<Type> arg` as the block leaves it, or what `handleException`
rethrows. -/
def convertSetterArg (p : Param) (value : JsValue) (nothrow : Bool) :
    Except Thrown (Option CppVal) :=
  match TypeHolder.make p value with
  | Except.error e =>
    match handleException e nothrow with
    | Except.error t => Except.error t
    | Except.ok _ => Except.ok none
  | Except.ok typeHolder =>
    match p.toCpp typeHolder with
    | Except.error e =>
      match handleException e nothrow with
      | Except.error t => Except.error t
      | Except.ok _ => Except.ok none
    | Except.ok c => Except.ok (some c)

/-- The statement `std::invoke(s, *std::move(arg))` after the `try` block
(`receiver` is empty for a static setter and the instance pointer for an
instance setter): dereferencing an empty `std::optional` is undefined
behaviour. -/
def invokeSetter (s : NativeSetter) (receiver : List CppVal) : Option CppVal → Run
  | none => ⟨[], Except.error (Thrown.undefinedBehaviour "empty std::optional dereferenced")⟩
  | some c =>
    ⟨[Event.invoked s.tag (receiver ++ [c])],
      match s.body (receiver ++ [c]) with
      | Except.error e => Except.error (Thrown.exception e)
      | Except.ok _ => Except.ok JsValue.undefined⟩

/-- The typed overload of `bindStaticSet`. -/
def bindStaticSet (set : NativeSetter) (nothrow : Bool) : JsValue → Run :=
  fun value =>
    match convertSetterArg set.param value nothrow with
    | Except.error t => ⟨[], Except.error t⟩
    | Except.ok arg => invokeSetter set [] arg

/-- The typed overload of `bindInstanceSet`. -/
def bindInstanceSet (set : NativeSetter) (nothrow : Bool) : Ptr → JsValue → Run :=
  fun thiz value =>
    match convertSetterArg set.param value nothrow with
    | Except.error t => ⟨[], Except.error t⟩
    | Except.ok arg => invokeSetter set [CppVal.pointer thiz] arg

/-- The native setter `void setWidth(int)`, tagged `4`. -/
def setWidth : NativeSetter := ⟨4, numberParam, fun _ => Except.ok ()⟩

/-! ### Host thunks at the level of value cells: returning the callback's result -/

/-- The helper `hermes_interop::moveHermes` as the thunks use it, in `return
hermes_interop::moveHermes(res);`: the returned `jsi::Value` is
move-constructed from the value in the cell of `res`, and the move
constructor of `jsi::Value` leaves its source `undefined`. The result is the
value returned and the cells afterwards. -/
def moveHermes (cells : List Cell) (val : Local) : Except Thrown (JsValue × List Cell) :=
  match val.valuePtr with
  | none => Except.error (Thrown.undefinedBehaviour "null cell pointer dereferenced")
  | some c =>
    match cells[c]? with
    | none => Except.error (Thrown.undefinedBehaviour "null cell pointer dereferenced")
    | some cell =>
      Except.ok (cell.value, cells.modify (fun cell => ⟨JsValue.undefined, cell.useCount⟩) c)

/-- The end of a value-returning host thunk: `return moveHermes(res);`, after
which the local `res` is destroyed. -/
def returnMoved (cells : List Cell) (res : Local) : List Cell × Except Thrown JsValue :=
  match moveHermes cells res with
  | Except.error t => (cells, Except.error t)
  | Except.ok (v, cells1) => (Local.destroy cells1 res, Except.ok v)

/-- A native callback seen with the value cells: it returns a `Local` (or
raises) and may create and share cells. -/
abbrev CellCallback (α : Type) := α → List Cell → List Cell × Except Thrown Local

/-- The part common to the value-returning host thunks once the callback has
been chosen: run it, then `return moveHermes(res);`. -/
def callAndReturn (w : World) (call : List Cell → List Cell × Except Thrown Local) :
    World × Except Thrown JsValue :=
  match call w.cells with
  | (cells1, Except.error t) => ({ w with cells := cells1 }, Except.error t)
  | (cells1, Except.ok res) =>
    ({ w with cells := (returnMoved cells1 res).1 }, (returnMoved cells1 res).2)

/-- The host callback of `Function::newFunction` (`HermesValue.cc`), with the
value cells. -/
def Function.newFunctionCells (callback : CellCallback Arguments) (w : World) (rt : Ptr)
    (thisVal : JsValue) (args : List JsValue) : World × Except Thrown JsValue :=
  if rt ≠ w.engine.runtime_ then (w, Except.error (Thrown.exception "Invalid Runtime"))
  else callAndReturn w (callback ⟨w.engine.self, thisVal, args⟩)

/-- The host callback of `HermesEngine::newStaticFunction`, with the value
cells. -/
def newStaticFunctionCells (callback : CellCallback Arguments) (w : World) (rt : Ptr)
    (thisVal : JsValue) (args : List JsValue) : World × Except Thrown JsValue :=
  if rt ≠ w.engine.runtime_ then (w, Except.error (Thrown.exception "Invalid Runtime"))
  else callAndReturn w (callback ⟨w.engine.self, thisVal, args⟩)

/-- The host callback of `HermesEngine::newStaticGetter`, with the value
cells. -/
def newStaticGetterCells (getter : CellCallback Unit) (w : World) (rt : Ptr)
    (_thisVal : JsValue) (_args : List JsValue) : World × Except Thrown JsValue :=
  if rt ≠ w.engine.runtime_ then (w, Except.error (Thrown.exception "Invalid Runtime"))
  else callAndReturn w (getter ())

/-- The host callback of `HermesEngine::defineInstanceFunction`, with the
value cells. -/
def instanceFunctionCells (callback : Ptr → CellCallback Arguments) (w : World) (rt : Ptr)
    (thisVal : JsValue) (args : List JsValue) : World × Except Thrown JsValue :=
  if rt ≠ w.engine.runtime_ then (w, Except.error (Thrown.exception "Invalid Runtime"))
  else
    match getThisPointer w thisVal with
    | Except.error t => (w, Except.error t)
    | Except.ok thiz => callAndReturn w (callback thiz ⟨w.engine.self, thisVal, args⟩)

/-- The host callback of `HermesEngine::newInstanceGetter`, with the value
cells. -/
def newInstanceGetterCells (getter : CellCallback Ptr) (w : World) (rt : Ptr)
    (thisVal : JsValue) (_args : List JsValue) : World × Except Thrown JsValue :=
  if rt ≠ w.engine.runtime_ then (w, Except.error (Thrown.exception "Invalid Runtime"))
  else
    match getThisPointer w thisVal with
    | Except.error t => (w, Except.error t)
    | Except.ok thiz => callAndReturn w (getter thiz)

/-- A `Global` of the engine `100` sharing cell `2` of `imageWorld`, which
holds object `2`. -/
def keptGlobal : Global := ⟨some 2, 100⟩

/-- A native callback that returns `keptGlobal.get()`. -/
def returnKept {α : Type} : CellCallback α :=
  fun _ cells => ((Global.get cells keptGlobal).2, (Global.get cells keptGlobal).1)

/-! ## `HermesValue.cc`, `HermesLocalReference.cc`: numbers -/

/-- The spacing of the `double` values at the magnitude `a`: `1` below
`2^53`, doubling with every further binary digit (`fuel` bounds the number of
digits looked at). -/
def doubleSpacing : Nat → Nat → Nat
  | 0, _ => 1
  | fuel + 1, a => if a < 2 ^ 53 then 1 else 2 * doubleSpacing fuel (a / 2)

/-- The conversion `static_cast<double>(value)` of a 32- or 64-bit integer, as
the integer the `double` stands for: IEEE-754 binary64, round to nearest, ties
to the even significand. -/
def toDoubleOfInt (value : Int) : Int :=
  let a := value.natAbs
  let q := doubleSpacing 64 a
  let lower := a / q * q
  let rest := a % q
  let up : Bool :=
    if 2 * rest > q then true
    else if 2 * rest < q then false
    else (a / q) % 2 == 1
  let m := if up then lower + q else lower
  if value < 0 then -(m : Int) else (m : Int)

/-- The functions `Number::newNumber(int32_t)` and `Number::newNumber(int64_t)`:
both are `newNumber(static_cast<double>(value))`, a new `Local` holding the
`double`. -/
def Number.newNumber (cells : List Cell) (value : Int) : Local × List Cell :=
  makeLocal cells (JsValue.number (JsNumber.val (toDoubleOfInt value)))

/-- The member `Local<Number>::toDouble`, `val_.valuePtr->asNumber()`, for a
number with an integral value. -/
def Local.toDouble (cells : List Cell) (l : Local) : Except Thrown JsNumber :=
  match deref cells l.valuePtr with
  | none => Except.error (Thrown.undefinedBehaviour "null cell pointer dereferenced")
  | some (JsValue.number n) => Except.ok n
  | some _ => Except.error (Thrown.jsError "Value is not a number")

/-- The conversion `static_cast<intN_t>(double)` to a signed integer type of
`bits` bits: undefined unless the truncated value is in the range of the
type. -/
def castDoubleToInt (bits : Nat) : JsNumber → Except Thrown Int
  | JsNumber.nan => Except.error (Thrown.undefinedBehaviour "double out of the integer range")
  | JsNumber.val z =>
    if -(2 : Int) ^ (bits - 1) ≤ z ∧ z < (2 : Int) ^ (bits - 1) then Except.ok z
    else Except.error (Thrown.undefinedBehaviour "double out of the integer range")

/-- The member `Local<Number>::toInt32`. -/
def Local.toInt32 (cells : List Cell) (l : Local) : Except Thrown Int :=
  match Local.toDouble cells l with
  | Except.error t => Except.error t
  | Except.ok n => castDoubleToInt 32 n

/-- The member `Local<Number>::toInt64`. -/
def Local.toInt64 (cells : List Cell) (l : Local) : Except Thrown Int :=
  match Local.toDouble cells l with
  | Except.error t => Except.error t
  | Except.ok n => castDoubleToInt 64 n

/-! ## `HermesException.cc`: message and stack trace of a script exception -/

/-- The properties script code sees on each object (own or inherited), read
through the runtime's `getProperty` / `hasProperty`; data properties only, so
that reading one raises nothing. -/
abbrev PropertyTable := ObjId → PropertyBag JsValue

/-- The runtime's `hasProperty`. -/
def hasProperty (props : PropertyTable) (o : ObjId) (key : String) : Bool :=
  (PropertyBag.get (props o) key).isSome

/-- The runtime's `getProperty`: `undefined` for a property that is absent. -/
def getProperty (props : PropertyTable) (o : ObjId) (key : String) : JsValue :=
  (PropertyBag.get (props o) key).getD JsValue.undefined

/-- The chain `asString().toString()` on a value read from an object:
`asString` raises the `script::Exception` "can't cast value as String" unless
the value is a string. -/
def asStringToString : JsValue → Except String String
  | JsValue.string s => Except.ok s
  | _ => Except.error "can't cast value as String"

/-- Modelled from the spec: the struct `hermes_backend::ExceptionFields`
(`trait/TraitException.h` is not among the sources), with the four members
`fillMessage`, `Exception::message` and `Exception::stacktrace` use: the
captured exception value, the message text, the stack-trace text and the flag
that the texts have been extracted. -/
structure ExceptionFields where
  exception_ : Global
  message_ : String
  stacktrace_ : String
  hasMessage_ : Bool
  deriving DecidableEq, Repr

/-- A default-initialised `ExceptionFields`. -/
def ExceptionFields.empty : ExceptionFields := ⟨Global.empty, "", "", false⟩

/-- The assignment `exception_ = exp` of a `Local` to the `Global` member:
the member shares the cell of `exp` under the current engine and gives up the
cell it held. -/
def assignGlobal (currentEngine : Ptr) (cells : List Cell) (old : Global) (exp : Local) :
    Global × List Cell :=
  ((Global.ofLocal currentEngine cells exp).1,
    releaseCell (Global.ofLocal currentEngine cells exp).2
      (if old.isEmpty then none else old.valuePtr))

/-- The function `ExceptionFields::fillMessage`. The members are `mutable`;
the result is the fields and the cells afterwards. Only a `script::Exception`
is caught: here that is a failing `asObject` or `asString`. The `Local`s made
for the values read are transient and left out. -/
def ExceptionFields.fillMessage (props : PropertyTable) (currentEngine : Ptr)
    (cells : List Cell) (fields : ExceptionFields) (exception : Local) :
    ExceptionFields × List Cell :=
  if fields.hasMessage_ then (fields, cells)
  else
    let fields1 := { fields with hasMessage_ := true }
    match deref cells exception.valuePtr with
    | some (JsValue.object o) =>
      let stored := assignGlobal currentEngine cells fields1.exception_ exception
      let fields2 := { fields1 with exception_ := stored.1 }
      match asStringToString (getProperty props o "message") with
      | Except.error _ =>
        ({ fields2 with message_ := "[another exception in message()]" }, stored.2)
      | Except.ok message =>
        let fields3 := { fields2 with message_ := message }
        if hasProperty props o "stack" then
          match asStringToString (getProperty props o "stack") with
          | Except.error _ =>
            ({ fields3 with message_ := "[another exception in message()]" }, stored.2)
          | Except.ok stack => ({ fields3 with stacktrace_ := stack }, stored.2)
        else (fields3, stored.2)
    | _ => ({ fields1 with message_ := "[another exception in message()]" }, cells)

/-- Modelled from the spec: the constructor `Exception::Exception(const
Local<Value>& exception)` initialises its fields with `exception_(exception)`,
a constructor of `ExceptionFields` declared in the absent
`trait/TraitException.h`; as "captured as an opaque exception value plus
best-effort extracted message/stack text" it extracts the texts with
`fillMessage`, which `message()` and `stacktrace()` then only read. -/
def Exception.ofValue (props : PropertyTable) (currentEngine : Ptr) (cells : List Cell)
    (exception : Local) : ExceptionFields × List Cell :=
  ExceptionFields.fillMessage props currentEngine cells ExceptionFields.empty exception

/-- The member `Exception::message`. -/
def Exception.message (e : ExceptionFields) : String := e.message_

/-- The member `Exception::stacktrace`. -/
def Exception.stacktrace (e : ExceptionFields) : String := e.stacktrace_

/-- The properties of three thrown objects over the cells of `imageWorld`:
object `3` is an error with message and stack text, object `2` has a message
only, object `1` has a message and the number `42` as `stack`. -/
def errorProperties : PropertyTable := fun o =>
  if o = 3 then
    [("message", JsValue.string "Property 'log' doesn't exist"),
     ("stack", JsValue.string "ReferenceError: Property 'log' doesn't exist\n    at global (:1:1)")]
  else if o = 2 then [("message", JsValue.string "boom")]
  else if o = 1 then
    [("message", JsValue.string "boom"), ("stack", JsValue.number (JsNumber.val 42))]
  else []

/-! ## `HermesLocalReference.cc`: `Local<Array>` -/

/-- The conversion `(int)n` of a `size_t` to the 32-bit `int`: the value
modulo `2^32` in two's complement. -/
def castToInt (n : Nat) : Int :=
  if n % 2 ^ 32 < 2 ^ 31 then ((n % 2 ^ 32 : Nat) : Int) else ((n % 2 ^ 32 : Nat) : Int) - 2 ^ 32

/-- The chain `val_.valuePtr->asObject(runtime).asArray(runtime)`: the array
object and its elements. -/
def asArray (objects : List JsObject) (v : Option JsValue) :
    Except Thrown (ObjId × List JsValue) :=
  match v with
  | none => Except.error (Thrown.undefinedBehaviour "null cell pointer dereferenced")
  | some (JsValue.object a) =>
    match objects[a]? with
    | some o =>
      match o.elements with
      | some xs => Except.ok (a, xs)
      | none => Except.error (Thrown.jsError "Object is not an array")
    | none => Except.error (Thrown.jsError "Object is not an array")
  | some _ => Except.error (Thrown.jsError "Value is not an Object")

/-- Storing the elements of the array object `a`. -/
def setElements (objects : List JsObject) (a : ObjId) (xs : List JsValue) : List JsObject :=
  objects.modify (fun o => ⟨o.proto, o.callable, o.prototypeProperty, some xs, o.nativeState⟩) a

/-- The runtime's `Array::setLength`: the elements are cut off at `n` or
filled up to `n`, a missing element reading as `undefined`. -/
def setLength (xs : List JsValue) (n : Nat) : List JsValue :=
  xs.take n ++ List.replicate (n - xs.length) JsValue.undefined

/-- The runtime's `Array::setValueAtIndex`: it raises for an index that is not
below the size; the value is taken by reference and copied. -/
def setValueAtIndex (xs : List JsValue) (i : Nat) (v : JsValue) :
    Except Thrown (List JsValue) :=
  if i < xs.length then Except.ok (xs.set i v)
  else Except.error (Thrown.jsError "setValueAtIndex: index out of bounds")

/-- The runtime's `Array::getValueAtIndex`. -/
def getValueAtIndex (xs : List JsValue) (i : Nat) : Except Thrown JsValue :=
  match xs[i]? with
  | some v => Except.ok v
  | none => Except.error (Thrown.jsError "getValueAtIndex: index out of bounds")

/-- The member `Local<Array>::size`. -/
def LocalArray.size (cells : List Cell) (objects : List JsObject) (self : Local) :
    Except Thrown Nat :=
  match asArray objects (deref cells self.valuePtr) with
  | Except.error t => Except.error t
  | Except.ok (_, xs) => Except.ok xs.length

/-- The member `Local<Array>::get`, as the value of the `Local` it makes. -/
def LocalArray.get (cells : List Cell) (objects : List JsObject) (self : Local) (index : Nat) :
    Except Thrown JsValue :=
  match asArray objects (deref cells self.valuePtr) with
  | Except.error t => Except.error t
  | Except.ok (_, xs) => getValueAtIndex xs index

/-- The value an `int` takes after `z - 1` or a cast: `z` brought into the
range of `int`, the least `int` minus one wrapping to the greatest. -/
def wrapInt (z : Int) : Int :=
  (z + 2 ^ 31) % 2 ^ 32 - 2 ^ 31

/-- The member `Local<Array>::set`. The test `(int)index > (int)size() - 1`
is made in `int` and only decides whether `setLength(index + 1)` runs before
the store; the subtraction is taken with wrap-around. Sums of `size_t` are
taken modulo `2^64`. -/
def LocalArray.set (cells : List Cell) (objects : List JsObject) (self : Local) (index : Nat)
    (value : Local) : Except Thrown (List JsObject) :=
  match asArray objects (deref cells self.valuePtr) with
  | Except.error t => Except.error t
  | Except.ok (a, xs) =>
    let xs1 :=
      if castToInt index > wrapInt (castToInt xs.length - 1) then
        setLength xs ((index + 1) % 2 ^ 64)
      else xs
    match deref cells value.valuePtr with
    | none => Except.error (Thrown.undefinedBehaviour "null cell pointer dereferenced")
    | some v =>
      match setValueAtIndex xs1 index v with
      | Except.error t => Except.error t
      | Except.ok xs2 => Except.ok (setElements objects a xs2)

/-- The member `Local<Array>::clear`. -/
def LocalArray.clear (cells : List Cell) (objects : List JsObject) (self : Local) :
    Except Thrown (List JsObject) :=
  match asArray objects (deref cells self.valuePtr) with
  | Except.error t => Except.error t
  | Except.ok (a, xs) => Except.ok (setElements objects a (setLength xs 0))

/-- The copy assignment `Global<T>::operator=(const Global&)` for `this !=
&assign`: `val_ = assign.val_` copies the cell pointer and the engine. -/
def Global.copyAssign (cells : List Cell) (this assign : Global) : Global × List Cell :=
  (⟨assign.valuePtr, assign.engine_⟩, releaseCell (retainCell cells assign.valuePtr) this.valuePtr)

/-- The move assignment `Global<T>::operator=(Global&&)` for `this != &move`:
`val_ = std::move(move.val_)` moves the cell pointer, copies the engine and
sets `move.engine_` to `nullptr`. The result is the new state of `this` and of
`move`. -/
def Global.moveAssign (cells : List Cell) (this move : Global) :
    (Global × Global) × List Cell :=
  ((⟨move.valuePtr, move.engine_⟩, ⟨none, 0⟩), releaseCell cells this.valuePtr)

/-- The member `Global<T>::swap`: both members are swapped. The result is the
new state of `this` and of `rhs`. -/
def Global.swap (this rhs : Global) : Global × Global :=
  (⟨rhs.valuePtr, rhs.engine_⟩, ⟨this.valuePtr, this.engine_⟩)

/-- A `Global` object of the program together with a ghost field: the engine
that was current when the handle its content comes from was constructed from
a `Local` (`0` when the content comes from no such handle). -/
structure TrackedGlobal where
  handle : Global
  origin : Ptr
  deriving DecidableEq, Repr

/-- The value cells and the `Global` objects alive, by position. -/
structure HandleStore where
  cells : List Cell
  globals : List TrackedGlobal
  deriving DecidableEq, Repr

/-- One step of a program that works with `Global`s; positions name the
objects operated on. -/
inductive GlobalOp
  /-- The constructor `Global()`. -/
  | construct
  /-- The constructor `Global(const Local&)` under the current engine. -/
  | ofLocal (currentEngine : Ptr) (localReference : Local)
  /-- The constructor `Global(const Global&)`. -/
  | copyConstruct (src : Nat)
  /-- The constructor `Global(Global&&)`. -/
  | moveConstruct (src : Nat)
  /-- The assignment `dst = src`. -/
  | copyAssign (dst src : Nat)
  /-- The assignment `dst = std::move(src)`. -/
  | moveAssign (dst src : Nat)
  /-- The call `a.swap(b)`. -/
  | swap (a b : Nat)
  /-- The call `a.reset()`. -/
  | reset (a : Nat)
  deriving DecidableEq, Repr

/-- The function `hermes_backend::currentEngine` returns the address of an
engine object, which is never null. -/
def GlobalOp.valid : GlobalOp → Prop
  | GlobalOp.ofLocal currentEngine _ => currentEngine ≠ 0
  | _ => True

/-- Running one step. The copy and move constructors start from `val_()` and
assign; an assignment of an object to itself does nothing (`this != &assign`);
a position that names no object leaves the store as it is. -/
def HandleStore.apply (s : HandleStore) : GlobalOp → HandleStore
  | GlobalOp.construct => ⟨s.cells, s.globals ++ [⟨Global.empty, 0⟩]⟩
  | GlobalOp.ofLocal currentEngine localReference =>
    ⟨(Global.ofLocal currentEngine s.cells localReference).2,
      s.globals ++ [⟨(Global.ofLocal currentEngine s.cells localReference).1, currentEngine⟩]⟩
  | GlobalOp.copyConstruct src =>
    match s.globals[src]? with
    | none => s
    | some g =>
      ⟨(Global.copyAssign s.cells Global.empty g.handle).2,
        s.globals ++ [⟨(Global.copyAssign s.cells Global.empty g.handle).1, g.origin⟩]⟩
  | GlobalOp.moveConstruct src =>
    match s.globals[src]? with
    | none => s
    | some g =>
      ⟨(Global.moveAssign s.cells Global.empty g.handle).2,
        s.globals.set src ⟨(Global.moveAssign s.cells Global.empty g.handle).1.2, 0⟩ ++
          [⟨(Global.moveAssign s.cells Global.empty g.handle).1.1, g.origin⟩]⟩
  | GlobalOp.copyAssign dst src =>
    if dst = src then s
    else
      match s.globals[dst]?, s.globals[src]? with
      | some d, some g =>
        ⟨(Global.copyAssign s.cells d.handle g.handle).2,
          s.globals.set dst ⟨(Global.copyAssign s.cells d.handle g.handle).1, g.origin⟩⟩
      | _, _ => s
  | GlobalOp.moveAssign dst src =>
    if dst = src then s
    else
      match s.globals[dst]?, s.globals[src]? with
      | some d, some g =>
        ⟨(Global.moveAssign s.cells d.handle g.handle).2,
          (s.globals.set dst ⟨(Global.moveAssign s.cells d.handle g.handle).1.1, g.origin⟩).set
            src ⟨(Global.moveAssign s.cells d.handle g.handle).1.2, 0⟩⟩
      | _, _ => s
  | GlobalOp.swap a b =>
    match s.globals[a]?, s.globals[b]? with
    | some x, some y =>
      ⟨s.cells,
        (s.globals.set a ⟨(Global.swap x.handle y.handle).1, y.origin⟩).set
          b ⟨(Global.swap x.handle y.handle).2, x.origin⟩⟩
    | _, _ => s
  | GlobalOp.reset a =>
    match s.globals[a]? with
    | none => s
    | some g =>
      ⟨(Global.reset s.cells g.handle).2,
        s.globals.set a
          ⟨(Global.reset s.cells g.handle).1, if g.handle.isEmpty then g.origin else 0⟩⟩

/-- Running a program from the store `s`. -/
def HandleStore.run (s : HandleStore) (ops : List GlobalOp) : HandleStore :=
  ops.foldl HandleStore.apply s

/-- The invariant of a `Global`: when it is not empty its engine is the
engine of its origin; when it is empty it holds no value cell and no
engine. -/
def TrackedGlobal.wellFormed (g : TrackedGlobal) : Prop :=
  (g.handle.isEmpty = false → g.handle.engine_ = g.origin) ∧
  (g.handle.isEmpty = true → g.handle = ⟨none, 0⟩)

/-- A program over the cells of `imageWorld`: a `Global` made from the
`Local` of object `2` under engine `100`, copied, moved from, a default
`Global`, a swap and a reset. -/
def handleProgram : List GlobalOp :=
  [GlobalOp.ofLocal 100 ⟨some 2⟩, GlobalOp.copyConstruct 0, GlobalOp.moveConstruct 0,
   GlobalOp.construct, GlobalOp.swap 1 3, GlobalOp.reset 2]

/-- The constructor `HermesScriptClassState(HermesEngine*, const Local<Value>&
obj)`, used by `ScriptClass::ScriptClass(const Local<Object>& scriptObject)`
with the current engine: its initialiser list is `scriptEngine_(scriptEngine)`
alone, `obj` is not stored, and `weakRef_` stays null; `internalStore_` is a
default `Local`. -/
def HermesScriptClassState.make (cells : List Cell) (scriptEngine : Ptr) (_obj : Local) :
    HermesScriptClassState × List Cell :=
  (⟨scriptEngine, 0, 0, (Local.empty cells).1, none⟩, (Local.empty cells).2)

/-- The function `Object::newObject`: a `Local` for a new plain object. -/
def Object.newObject (w : World) : World × Local :=
  (⟨w.engine, (makeLocal w.cells (JsValue.object (allocObject w.objects (JsObject.plain none)).1)).2,
      (allocObject w.objects (JsObject.plain none)).2, w.scriptClasses⟩,
    (makeLocal w.cells (JsValue.object (allocObject w.objects (JsObject.plain none)).1)).1)

/-- The member `ScriptClass::getScriptObject` of the instance at `sc`: a
`Local` for the object in the cell of `weakRef_`, or for a new object when
`weakRef_` is null. -/
def ScriptClass.getScriptObject (w : World) (sc : Ptr) : World × Except Thrown Local :=
  match (w.scriptClasses sc).weakRef_ with
  | some c =>
    match deref w.cells (some c) with
    | some (JsValue.object o) =>
      (w.withLocal (JsValue.object o), Except.ok (makeLocal w.cells (JsValue.object o)).1)
    | some _ => (w, Except.error (Thrown.jsError "Value is not an Object"))
    | none => (w, Except.error (Thrown.undefinedBehaviour "dangling cell pointer"))
  | none => ((Object.newObject w).1, Except.ok (Object.newObject w).2)

/-- The member `ScriptClass::isScriptObjectNull`. -/
def ScriptClass.isScriptObjectNull (w : World) (sc : Ptr) : Bool :=
  match (w.scriptClasses sc).weakRef_ with
  | some c =>
    match deref w.cells (some c) with
    | some v => v.isNull
    | none => true
  | none => true

/-- The state in which script runs `new Image()`: the native constructor
thunk has built the instance at `5` with `ScriptClass(args.thiz())`, so its
state is the one `HermesScriptClassState.make` gives. -/
def imageThunkWorld : World :=
  ⟨imageEngine, (HermesScriptClassState.make imageCells 100 ⟨some 3⟩).2, imageObjects,
    fun p =>
      if p = 5 then (HermesScriptClassState.make imageCells 100 ⟨some 3⟩).1
      else ⟨0, 0, 0, ⟨none⟩, none⟩⟩

/-- The state after the projected constructor has bound the instance `5`:
the object it returns, `5`, carries the owning attachment. -/
def imageBoundWorld : World :=
  (constructorHook imageClass imageThunkWorld 200 (JsValue.object 3) []).world

/-! ## `HermesEngine-Native.cc`: registering a class -/

/-- Modelled from the spec: the namespace objects that
`internal::getNamespaceObject` resolves (the helper is not among the
sources), next to the engine state: `namespaces` gives, for the "optional
namespace" of a class description (`""` for the global object), the names
bound in it, which is what script sees of the registered classes. -/
structure Realm where
  world : World
  namespaces : PropertyBag (PropertyBag JsValue)

/-- Modelled from the spec: the script helper `makeNativeClass`, which is not
among the sources; called with the host function of the constructor it
yields "the generated constructor function", a new function object. -/
def makeNativeClass (objects : List JsObject) : ObjId × List JsObject :=
  allocObject objects ⟨none, true, none, none, none⟩

/-- The function `HermesEngine::createConstructor`: the host function
(`constructorHook`) is handed to `makeNativeClass` and the result is returned
in a `Local`. -/
def createConstructor (w : World) : World × Local :=
  (⟨w.engine, (makeLocal w.cells (JsValue.object (makeNativeClass w.objects).1)).2,
      (makeNativeClass w.objects).2, w.scriptClasses⟩,
    (makeLocal w.cells (JsValue.object (makeNativeClass w.objects).1)).1)

/-- The statement `object.asObject().set("prototype", prototype)`. -/
def setPrototypeProperty (objects : List JsObject) (object : Option JsValue)
    (prototype : Option JsValue) : List JsObject :=
  match object, prototype with
  | some (JsValue.object c), some (JsValue.object p) =>
    objects.modify (fun o => ⟨o.proto, o.callable, some p, o.elements, o.nativeState⟩) c
  | _, _ => objects

/-- The function `HermesEngine::defineInstance`: the constructor function and
the prototype object are created and stored in `registry`; the result is the
state, the `Local` `object` and the registry data. The `Local`s of the
function body are destroyed at its end; the members installed on the
prototype are not part of the state. -/
def defineInstance (w : World) (registry : ClassRegistryData) :
    World × Local × ClassRegistryData :=
  let made := createConstructor w
  let constructor := Global.ofLocal w.engine.self made.1.cells made.2
  let cells1 := Local.destroy constructor.2 made.2
  let object := Global.getValue cells1 constructor.1
  let w1 : World := ⟨w.engine, object.2, made.1.objects, w.scriptClasses⟩
  let proto := Object.newObject w1
  let objects2 := setPrototypeProperty proto.1.objects
    (deref proto.1.cells object.1.valuePtr) (deref proto.1.cells proto.2.valuePtr)
  let prototype := Global.ofLocal w.engine.self proto.1.cells proto.2
  let cells3 := Local.destroy prototype.2 proto.2
  (⟨w.engine, cells3, objects2, w.scriptClasses⟩, object.1,
    ⟨constructor.1, prototype.1, registry.instanceTypeToScriptClass⟩)

/-- The statement `classRegistry_.emplace(classDefine, registry)` on the
`std::unordered_map`: nothing is inserted when the key is present. -/
def emplaceClass (registry : List (Ptr × ClassRegistryData)) (classDefine : Ptr)
    (data : ClassRegistryData) : List (Ptr × ClassRegistryData) :=
  match findClass registry classDefine with
  | some _ => registry
  | none => registry ++ [(classDefine, data)]

/-- The destructor of the local `ClassRegistryData registry` when the map did
not take a copy of it: both `Global`s give up their cells. When the map took
the copy, the copy shares the cells and the counts stay. -/
def dropRegistryData (cells : List Cell) (inserted : Bool) (data : ClassRegistryData) :
    List Cell :=
  if inserted then cells
  else (Global.reset (Global.reset cells data.constructor).2 data.prototype).2

/-- The function `HermesEngine::performRegisterNativeClass` for the class
description `classDefine` with namespace `nameSpace`; `hasInstanceDefine` is
`classDefine->hasInstanceDefine()`. The local `object` starts as a default
`Local`, whose cell is given up when `object` is assigned. The static members
that `registerStaticDefine` installs on `object` are not part of the state. -/
def performRegisterNativeClass (r : Realm) (classDefine : ClassDefineState) (nameSpace : String)
    (hasInstanceDefine : Bool) (instanceTypeToScriptClass : Ptr → Ptr) : Realm :=
  let object0 := Local.empty r.world.cells
  let w0 : World := ⟨r.world.engine, object0.2, r.world.objects, r.world.scriptClasses⟩
  let registry0 : ClassRegistryData := ⟨Global.empty, Global.empty, instanceTypeToScriptClass⟩
  let defined : World × Local × ClassRegistryData :=
    if hasInstanceDefine then defineInstance w0 registry0
    else ((Object.newObject w0).1, (Object.newObject w0).2, registry0)
  let w1 : World :=
    ⟨defined.1.engine, Local.destroy defined.1.cells object0.1, defined.1.objects,
      defined.1.scriptClasses⟩
  let object := defined.2.1
  let registry := defined.2.2
  let ns := (PropertyBag.get r.namespaces nameSpace).getD []
  let bound := (deref w1.cells object.valuePtr).getD JsValue.undefined
  let namespaces1 := PropertyBag.set r.namespaces nameSpace
    (PropertyBag.set ns classDefine.className bound)
  let inserted := (findClass w1.engine.classRegistry_ classDefine.addr).isNone
  let classRegistry1 := emplaceClass w1.engine.classRegistry_ classDefine.addr registry
  let cells2 := Local.destroy (dropRegistryData w1.cells inserted registry) object
  ⟨⟨⟨w1.engine.self, w1.engine.runtime_, classRegistry1⟩, cells2, w1.objects, w1.scriptClasses⟩,
    namespaces1⟩

/-- The number of registry entries keyed by a class description. -/
def entriesFor (registry : List (Ptr × ClassRegistryData)) (classDefine : Ptr) : Nat :=
  (registry.filter (fun e => e.1 = classDefine)).length

theorem TypeHolder.make_ok_eq {p : Param} {v h : JsValue}
    (hm : TypeHolder.make p v = Except.ok h) : h = v := by
  unfold TypeHolder.make at hm
  split at hm
  · split at hm
    · cases hm; rfl
    · cases hm
  · cases hm; rfl

theorem Arguments.get_of_drop (args : Arguments) (i : Nat) (v : JsValue) (rest : List JsValue)
    (hd : args.argv_.drop i = v :: rest) : args.get i = v := by
  have hlt : i < args.argv_.length := by
    by_contra hge
    rw [List.drop_eq_nil_of_le (Nat.le_of_not_lt hge)] at hd
    cases hd
  have hget : args.argv_[i]? = some v := by
    have h0 := congrArg (fun l => l[0]?) hd
    simpa [List.getElem?_drop] using h0
  unfold Arguments.get Arguments.size
  rw [if_neg (Nat.not_le_of_lt hlt)]
  simp [List.getD, hget]

theorem List.drop_succ_of_drop_cons {α : Type} (l : List α) (i : Nat) (v : α) (rest : List α)
    (hd : l.drop i = v :: rest) : l.drop (i + 1) = rest := by
  have h := congrArg (List.drop 1) hd
  simpa [List.drop_drop, Nat.add_comm] using h

theorem emplaceTypeHolders_spec (args : Arguments) :
    ∀ (ps : List Param) (i : Nat) (vs : List JsValue),
      args.argv_.drop i = vs → vs.length = ps.length →
      (emplaceTypeHolders args ps i = Except.ok vs ∧
          ∀ pv ∈ List.zip ps vs, TypeHolder.make pv.1 pv.2 = Except.ok pv.2) ∨
      (∃ e, emplaceTypeHolders args ps i = Except.error e ∧
          ∃ pv ∈ List.zip ps vs, TypeHolder.make pv.1 pv.2 = Except.error e) := by
  intro ps
  induction ps with
  | nil =>
    intro i vs _ hlen
    cases vs with
    | nil => left; exact ⟨rfl, by simp⟩
    | cons v vs => simp at hlen
  | cons p ps ih =>
    intro i vs hd hlen
    cases vs with
    | nil => simp at hlen
    | cons v vs =>
      have hget := Arguments.get_of_drop args i v vs hd
      have hd' := List.drop_succ_of_drop_cons args.argv_ i v vs hd
      have hlen' : vs.length = ps.length := by simpa using hlen
      cases hm : TypeHolder.make p v with
      | error e =>
        right
        refine ⟨e, ?_, (p, v), by simp, hm⟩
        simp [emplaceTypeHolders, hget, hm]
      | ok h =>
        have hv := TypeHolder.make_ok_eq hm
        subst hv
        rcases ih (i + 1) vs hd' hlen' with ⟨hok, hall⟩ | ⟨e, herr, pv, hmem, hpe⟩
        · left
          refine ⟨by simp [emplaceTypeHolders, hget, hm, hok], ?_⟩
          intro pv hpv
          simp only [List.zip_cons_cons, List.mem_cons] at hpv
          rcases hpv with rfl | hpv
          · exact hm
          · exact hall pv hpv
        · right
          refine ⟨e, by simp [emplaceTypeHolders, hget, hm, herr], pv, ?_, hpe⟩
          simp [hmem]

theorem emplaceCppArgs_spec :
    ∀ (ps : List Param) (vs : List JsValue), vs.length = ps.length →
      (∃ cs, emplaceCppArgs ps vs = Except.ok cs ∧
          ∀ pv ∈ List.zip ps vs, ∃ c, pv.1.toCpp pv.2 = Except.ok c) ∨
      (∃ e, emplaceCppArgs ps vs = Except.error e ∧
          ∃ pv ∈ List.zip ps vs, pv.1.toCpp pv.2 = Except.error e) := by
  intro ps
  induction ps with
  | nil =>
    intro vs hlen
    cases vs with
    | nil => left; exact ⟨[], rfl, by simp⟩
    | cons v vs => simp at hlen
  | cons p ps ih =>
    intro vs hlen
    cases vs with
    | nil => simp at hlen
    | cons v vs =>
      have hlen' : vs.length = ps.length := by simpa using hlen
      cases hc : p.toCpp v with
      | error e =>
        right
        exact ⟨e, by simp [emplaceCppArgs, hc], (p, v), by simp, hc⟩
      | ok c =>
        rcases ih vs hlen' with ⟨cs, hok, hall⟩ | ⟨e, herr, pv, hmem, hpe⟩
        · left
          refine ⟨c :: cs, by simp [emplaceCppArgs, hc, hok], ?_⟩
          intro pv hpv
          simp only [List.zip_cons_cons, List.mem_cons] at hpv
          rcases hpv with rfl | hpv
          · exact ⟨c, hc⟩
          · exact hall pv hpv
        · right
          refine ⟨e, by simp [emplaceCppArgs, hc, herr], pv, ?_, hpe⟩
          simp [hmem]

theorem emplaceCppArgs_of_converts :
    ∀ (ps : List Param) (vs : List JsValue), vs.length = ps.length →
      (List.zip ps vs).all (fun pv => pv.1.converts pv.2) = true →
      emplaceCppArgs ps vs = Except.ok ((List.zip ps vs).map (fun pv =>
        match pv.1.convert pv.2 with
        | Except.ok c => c
        | Except.error _ => CppVal.void)) := by
  intro ps
  induction ps with
  | nil =>
    intro vs hlen _
    cases vs with
    | nil => rfl
    | cons v vs => simp at hlen
  | cons p ps ih =>
    intro vs hlen hall
    cases vs with
    | nil => simp at hlen
    | cons v vs =>
      have hlen' : vs.length = ps.length := by simpa using hlen
      simp only [List.zip_cons_cons, List.all_cons, Bool.and_eq_true] at hall
      obtain ⟨hpv, hrest⟩ := hall
      have hih := ih vs hlen' hrest
      unfold Param.converts at hpv
      cases hcv : p.convert v with
      | error e => simp [hcv] at hpv
      | ok c =>
        have htc : p.toCpp v = Except.ok c := by
          unfold Param.convert at hcv
          cases hm : TypeHolder.make p v with
          | error e => simp [hm] at hcv
          | ok h =>
            have hv := TypeHolder.make_ok_eq hm
            subst hv
            simpa [hm] using hcv
        simp [emplaceCppArgs, htc, hih, hcv]

theorem NativeFunction.conversion_of_match (f : NativeFunction) (args : Arguments)
    (h : f.argumentsMatch args = true) :
    args.size = f.params.length ∧
      emplaceTypeHolders args f.params 0 = Except.ok args.argv_ ∧
      emplaceCppArgs f.params args.argv_ = Except.ok (f.convertedArgs args) := by
  unfold NativeFunction.argumentsMatch at h
  simp only [Bool.and_eq_true, decide_eq_true_eq] at h
  obtain ⟨hsize, hall⟩ := h
  have hlen : args.argv_.length = f.params.length := hsize
  refine ⟨hsize, ?_, emplaceCppArgs_of_converts f.params args.argv_ hlen hall⟩
  rcases emplaceTypeHolders_spec args f.params 0 args.argv_ (by simp) hlen with
    ⟨hok, _⟩ | ⟨e, _, pv, hmem, hpe⟩
  · exact hok
  · have hc := List.all_eq_true.mp hall pv hmem
    simp [Param.converts, Param.convert, hpe] at hc

theorem NativeFunction.conversion_of_mismatch (f : NativeFunction) (args : Arguments)
    (hsize : args.size = f.params.length) (h : f.argumentsMatch args = false) :
    ∃ e, (emplaceTypeHolders args f.params 0 = Except.error e ∨
        (emplaceTypeHolders args f.params 0 = Except.ok args.argv_ ∧
          emplaceCppArgs f.params args.argv_ = Except.error e)) ∧
      ∃ pv ∈ List.zip f.params args.argv_, pv.1.convert pv.2 = Except.error e := by
  have hlen : args.argv_.length = f.params.length := hsize
  rcases emplaceTypeHolders_spec args f.params 0 args.argv_ (by simp) hlen with
    ⟨hok, hmk⟩ | ⟨e, herr, pv, hmem, hpe⟩
  · rcases emplaceCppArgs_spec f.params args.argv_ hlen with
      ⟨cs, _, hall⟩ | ⟨e, herr, pv, hmem, hpe⟩
    · exfalso
      have : f.argumentsMatch args = true := by
        unfold NativeFunction.argumentsMatch
        simp only [Bool.and_eq_true, decide_eq_true_eq]
        refine ⟨hsize, List.all_eq_true.mpr ?_⟩
        intro pv hmem
        obtain ⟨c, hc⟩ := hall pv hmem
        simp [Param.converts, Param.convert, hmk pv hmem, hc]
      rw [this] at h
      cases h
    · refine ⟨e, Or.inr ⟨hok, herr⟩, pv, hmem, ?_⟩
      simp [Param.convert, hmk pv hmem, hpe]
  · refine ⟨e, Or.inl herr, pv, hmem, ?_⟩
    simp [Param.convert, hpe]

/-! ### Marshalling: one bound thunk -/

theorem ConvertingFuncCallHelper.applyAndReturn_throwing (f : NativeFunction)
    (cppArgs : List CppVal) :
    ConvertingFuncCallHelper.applyAndReturn f cppArgs false =
      ⟨[Event.invoked f.tag cppArgs], f.result cppArgs⟩ := by
  unfold ConvertingFuncCallHelper.applyAndReturn NativeFunction.result
  cases f.body cppArgs with
  | error e => rfl
  | ok ret =>
    by_cases hv : f.returnsVoid = true
    · simp [hv]
    · simp only [hv, Bool.false_eq_true, if_false, ConvertCallHelperUtils.convertAndReturn]
      cases f.toScript ret with
      | error e => simp [handleException]
      | ok v => rfl

theorem ConvertingFuncCallHelper.callWith_match (receiver : List CppVal) (f : NativeFunction)
    (args : Arguments) (nothrow throwForOverload : Bool)
    (h : f.argumentsMatch args = true) :
    ConvertingFuncCallHelper.callWith receiver f args nothrow throwForOverload =
      ConvertingFuncCallHelper.applyAndReturn f (receiver ++ f.convertedArgs args) nothrow := by
  obtain ⟨hsize, hhold, hcpp⟩ := f.conversion_of_match args h
  simp [ConvertingFuncCallHelper.callWith, ConvertCallHelperUtils.checkArgs, hsize, hhold, hcpp]

theorem ConvertingFuncCallHelper.callWith_mismatch (f : NativeFunction) (args : Arguments)
    (h : f.argumentsMatch args = false) :
    ∃ e, (∀ (receiver : List CppVal) (nothrow throwForOverload : Bool),
        ConvertingFuncCallHelper.callWith receiver f args nothrow throwForOverload =
          ⟨[], ConvertCallHelperUtils.handleParamConvertFailure e nothrow throwForOverload⟩) ∧
      ((args.size ≠ f.params.length ∧
          e = "Argument count mismatch, expect:" ++ toString f.params.length ++
            " got:" ++ toString args.size) ∨
        (args.size = f.params.length ∧
          ∃ pv ∈ List.zip f.params args.argv_, pv.1.convert pv.2 = Except.error e)) := by
  by_cases hsize : args.size = f.params.length
  · obtain ⟨e, hpipe, hsrc⟩ := f.conversion_of_mismatch args hsize h
    refine ⟨e, ?_, Or.inr ⟨hsize, hsrc⟩⟩
    intro receiver nothrow throwForOverload
    rcases hpipe with herr | ⟨hok, herr⟩
    · simp [ConvertingFuncCallHelper.callWith, ConvertCallHelperUtils.checkArgs, hsize, herr]
    · simp [ConvertingFuncCallHelper.callWith, ConvertCallHelperUtils.checkArgs, hsize, hok,
        herr]
  · refine ⟨_, ?_, Or.inl ⟨hsize, rfl⟩⟩
    intro receiver nothrow throwForOverload
    cases nothrow with
    | true =>
      simp [ConvertingFuncCallHelper.callWith, ConvertCallHelperUtils.checkArgs, hsize,
        ConvertCallHelperUtils.handleParamConvertFailure, handleException]
    | false =>
      simp [ConvertingFuncCallHelper.callWith, ConvertCallHelperUtils.checkArgs, hsize]

theorem NativeFunction.result_ne_signal (f : NativeFunction) (cppArgs : List CppVal) :
    f.result cppArgs ≠ Except.error Thrown.overloadInvalidArguments := by
  unfold NativeFunction.result
  cases f.body cppArgs with
  | error e => simp
  | ok ret =>
    by_cases hv : f.returnsVoid = true
    · simp [hv]
    · simp only [hv, Bool.false_eq_true, if_false]
      cases f.toScript ret with
      | error e => simp
      | ok v => simp

/-! ### Marshalling: the overload loop -/

theorem overloadLoop_skip (count i : Nat) (cb : FunctionCallback) (rest : List FunctionCallback)
    (args : Arguments) (hcb : cb args = ⟨[], Except.error Thrown.overloadInvalidArguments⟩)
    (hi : i ≠ count - 1) :
    overloadLoop count i (cb :: rest) args =
      ⟨Event.tried i :: (overloadLoop count (i + 1) rest args).trace,
        (overloadLoop count (i + 1) rest args).outcome⟩ := by
  simp [overloadLoop, hcb, hi]

theorem overloadLoop_take (count i : Nat) (cb : FunctionCallback) (rest : List FunctionCallback)
    (args : Arguments) (hcb : (cb args).outcome ≠ Except.error Thrown.overloadInvalidArguments) :
    overloadLoop count i (cb :: rest) args = ⟨Event.tried i :: (cb args).trace, (cb args).outcome⟩ := by
  cases h : (cb args).outcome with
  | ok v => simp [overloadLoop, h]
  | error t =>
    cases t <;> first | exact absurd h hcb | simp [overloadLoop, h]

theorem overloadLoop_first_match (count : Nat) (args : Arguments) (cb : FunctionCallback)
    (rest : List FunctionCallback)
    (hcb : (cb args).outcome ≠ Except.error Thrown.overloadInvalidArguments) :
    ∀ (before : List FunctionCallback) (i : Nat),
      (∀ b ∈ before, b args = ⟨[], Except.error Thrown.overloadInvalidArguments⟩) →
      i + before.length + 1 ≤ count →
      overloadLoop count i (before ++ cb :: rest) args =
        ⟨(List.range' i (before.length + 1)).map Event.tried ++ (cb args).trace,
          (cb args).outcome⟩ := by
  intro before
  induction before with
  | nil =>
    intro i _ _
    simp [overloadLoop_take count i cb rest args hcb, List.range']
  | cons b before ih =>
    intro i hall hle
    have hb : b args = ⟨[], Except.error Thrown.overloadInvalidArguments⟩ :=
      hall b (by simp)
    have hi : i ≠ count - 1 := by
      simp only [List.length_cons] at hle
      omega
    have hrest := ih (i + 1) (fun x hx => hall x (by simp [hx]))
      (by simp only [List.length_cons] at hle; omega)
    rw [List.cons_append, overloadLoop_skip count i b _ args hb hi, hrest]
    simp [List.range'_succ]

theorem overloadLoop_never_signal (count : Nat) (args : Arguments) :
    ∀ (cbs : List FunctionCallback) (i : Nat),
      (overloadLoop count i cbs args).outcome ≠ Except.error Thrown.overloadInvalidArguments := by
  intro cbs
  induction cbs with
  | nil => intro i; simp [overloadLoop]
  | cons cb rest ih =>
    intro i
    by_cases hcb : (cb args).outcome = Except.error Thrown.overloadInvalidArguments
    · by_cases hi : i = count - 1
      · simp [overloadLoop, hcb, hi]
      · simp only [overloadLoop, hcb, hi, if_false]
        exact ih (i + 1)
    · rw [overloadLoop_take count i cb rest args hcb]
      exact hcb

theorem overloadLoop_all_mismatch (count : Nat) (args : Arguments) :
    ∀ (cbs : List FunctionCallback) (i : Nat), cbs ≠ [] → i + cbs.length = count →
      (∀ cb ∈ cbs, (cb args).outcome = Except.error Thrown.overloadInvalidArguments) →
      (overloadLoop count i cbs args).outcome =
        Except.error (Thrown.exception "no valid overloaded function chosen") := by
  intro cbs
  induction cbs with
  | nil => intro i hne; exact absurd rfl hne
  | cons cb rest ih =>
    intro i _ hlen hall
    have hcb := hall cb (by simp)
    by_cases hi : i = count - 1
    · simp [overloadLoop, hcb, hi]
    · have hrest : rest ≠ [] := by
        intro hnil
        subst hnil
        simp only [List.length_cons, List.length_nil] at hlen
        omega
      simp only [overloadLoop, hcb, hi, if_false]
      exact ih (i + 1) hrest (by simp only [List.length_cons] at hlen; omega)
        (fun x hx => hall x (by simp [hx]))

/-! ### Marshalling: the claims -/

/-- C4: in an overload set whose first candidate with matching arguments is
`f` (every candidate before it is a typed function whose arguments do not
match), the adapted static and instance functions try the candidates
`0 .. k` in order and nothing after, invoke the native function of `f` once
(on the converted arguments) and no other native function, and end with the
result of `f`. -/
theorem adaptOverLoadedFunction_first_match
    (before : List NativeFunction) (f : NativeFunction)
    (after : List StaticCallable) (afterInstance : List InstanceCallable)
    (thiz : Ptr) (args : Arguments)
    (hbefore : ∀ g ∈ before, g.argumentsMatch args = false)
    (hf : f.argumentsMatch args = true) :
    adaptOverLoadedFunction
        (before.map StaticCallable.typed ++ StaticCallable.typed f :: after) args =
      ⟨(List.range (before.length + 1)).map Event.tried ++
          [Event.invoked f.tag (f.convertedArgs args)],
        f.result (f.convertedArgs args)⟩ ∧
    adaptOverloadedInstanceFunction
        (before.map InstanceCallable.typed ++ InstanceCallable.typed f :: afterInstance)
        thiz args =
      ⟨(List.range (before.length + 1)).map Event.tried ++
          [Event.invoked f.tag (CppVal.pointer thiz :: f.convertedArgs args)],
        f.result (CppVal.pointer thiz :: f.convertedArgs args)⟩ := by
  constructor
  · have hcb : bindStaticFunc (StaticCallable.typed f) false true args =
        ⟨[Event.invoked f.tag (f.convertedArgs args)], f.result (f.convertedArgs args)⟩ := by
      simp [bindStaticFunc, ConvertingFuncCallHelper.call,
        ConvertingFuncCallHelper.callWith_match [] f args false true hf,
        ConvertingFuncCallHelper.applyAndReturn_throwing]
    have hne : (bindStaticFunc (StaticCallable.typed f) false true args).outcome ≠
        Except.error Thrown.overloadInvalidArguments := by
      rw [hcb]; exact f.result_ne_signal _
    have hloop := overloadLoop_first_match
      (before.map StaticCallable.typed ++ StaticCallable.typed f :: after).length args
      (bindStaticFunc (StaticCallable.typed f) false true)
      (after.map (fun c => bindStaticFunc c false true)) hne
      (before.map (fun g => bindStaticFunc (StaticCallable.typed g) false true)) 0
      (by
        intro b hb
        simp only [List.mem_map] at hb
        obtain ⟨g, hg, rfl⟩ := hb
        obtain ⟨e, he, _⟩ := ConvertingFuncCallHelper.callWith_mismatch g args (hbefore g hg)
        simpa [bindStaticFunc, ConvertingFuncCallHelper.call,
          ConvertCallHelperUtils.handleParamConvertFailure] using he [] false true)
      (by simp)
    simp only [adaptOverLoadedFunction, List.map_append, List.map_map, List.map_cons]
    simp only [List.length_map] at hloop
    rw [List.range_eq_range']
    simpa [hcb, Function.comp_def] using hloop
  · have hcb : bindInstanceFunc (InstanceCallable.typed f) false true thiz args =
        ⟨[Event.invoked f.tag (CppVal.pointer thiz :: f.convertedArgs args)],
          f.result (CppVal.pointer thiz :: f.convertedArgs args)⟩ := by
      simp [bindInstanceFunc, ConvertingFuncCallHelper.callInstanceFunc,
        ConvertingFuncCallHelper.callWith_match [CppVal.pointer thiz] f args false true hf,
        ConvertingFuncCallHelper.applyAndReturn_throwing]
    have hne : (bindInstanceFunc (InstanceCallable.typed f) false true thiz args).outcome ≠
        Except.error Thrown.overloadInvalidArguments := by
      rw [hcb]; exact f.result_ne_signal _
    have hloop := overloadLoop_first_match
      (before.map InstanceCallable.typed ++ InstanceCallable.typed f :: afterInstance).length
      args (bindInstanceFunc (InstanceCallable.typed f) false true thiz)
      (afterInstance.map (fun c => bindInstanceFunc c false true thiz)) hne
      (before.map (fun g => bindInstanceFunc (InstanceCallable.typed g) false true thiz)) 0
      (by
        intro b hb
        simp only [List.mem_map] at hb
        obtain ⟨g, hg, rfl⟩ := hb
        obtain ⟨e, he, _⟩ := ConvertingFuncCallHelper.callWith_mismatch g args (hbefore g hg)
        simpa [bindInstanceFunc, ConvertingFuncCallHelper.callInstanceFunc,
          ConvertCallHelperUtils.handleParamConvertFailure]
          using he [CppVal.pointer thiz] false true)
      (by simp)
    simp only [adaptOverloadedInstanceFunction, List.map_append, List.map_map, List.map_cons]
    simp only [List.length_map] at hloop
    rw [List.range_eq_range']
    simpa [hcb, Function.comp_def] using hloop

/-- C4 at the spec's example: for the candidates `[f(number), f(string)]`
called with one string, candidate `0` is tried and skipped, `f(string)` runs
on `"a"` and `f(number)` never runs. -/
theorem adaptOverLoadedFunction_first_match_witness :
    (∀ g ∈ [fNumber], g.argumentsMatch oneStringCall = false) ∧
    fString.argumentsMatch oneStringCall = true ∧
    adaptOverLoadedFunction [StaticCallable.typed fNumber, StaticCallable.typed fString]
        oneStringCall =
      ⟨[Event.tried 0, Event.tried 1, Event.invoked 2 [CppVal.text "a"]],
        Except.ok (JsValue.string "a")⟩ ∧
    adaptOverloadedInstanceFunction
        [InstanceCallable.typed fNumber, InstanceCallable.typed fString] 7 oneStringCall =
      ⟨[Event.tried 0, Event.tried 1, Event.invoked 2 [CppVal.pointer 7, CppVal.text "a"]],
        Except.ok (JsValue.string "a")⟩ :=
  have h1 : ∀ g ∈ [fNumber], g.argumentsMatch oneStringCall = false := by
    intro g hg
    simp only [List.mem_singleton] at hg
    subst hg
    rfl
  have h2 : fString.argumentsMatch oneStringCall = true := rfl
  ⟨h1, h2, adaptOverLoadedFunction_first_match [fNumber] fString [] [] 7 oneStringCall h1 h2⟩

/-- C5: the overload loop never lets `OverloadInvalidArguments` out, and turns
"every candidate signalled a mismatch" into the exception "no valid overloaded
function chosen"; a typed candidate signals exactly when its arguments do not
match. Static and instance variants. -/
theorem adaptOverLoaded_all_mismatch_and_no_escape
    (functions : List StaticCallable) (instanceFunctions : List InstanceCallable)
    (thiz : Ptr) (args : Arguments) :
    (functions ≠ [] →
      (∀ c ∈ functions, (bindStaticFunc c false true args).outcome =
        Except.error Thrown.overloadInvalidArguments) →
      (adaptOverLoadedFunction functions args).outcome =
        Except.error (Thrown.exception "no valid overloaded function chosen")) ∧
    (instanceFunctions ≠ [] →
      (∀ c ∈ instanceFunctions, (bindInstanceFunc c false true thiz args).outcome =
        Except.error Thrown.overloadInvalidArguments) →
      (adaptOverloadedInstanceFunction instanceFunctions thiz args).outcome =
        Except.error (Thrown.exception "no valid overloaded function chosen")) ∧
    (adaptOverLoadedFunction functions args).outcome ≠
      Except.error Thrown.overloadInvalidArguments ∧
    (adaptOverloadedInstanceFunction instanceFunctions thiz args).outcome ≠
      Except.error Thrown.overloadInvalidArguments ∧
    (∀ f : NativeFunction,
      ((bindStaticFunc (StaticCallable.typed f) false true args).outcome =
          Except.error Thrown.overloadInvalidArguments ↔ f.argumentsMatch args = false) ∧
      ((bindInstanceFunc (InstanceCallable.typed f) false true thiz args).outcome =
          Except.error Thrown.overloadInvalidArguments ↔ f.argumentsMatch args = false)) := by
  refine ⟨?_, ?_, ?_, ?_, ?_⟩
  · intro hne hall
    unfold adaptOverLoadedFunction
    apply overloadLoop_all_mismatch
    · simpa using hne
    · simp
    · intro cb hcb
      simp only [List.mem_map] at hcb
      obtain ⟨c, hc, rfl⟩ := hcb
      exact hall c hc
  · intro hne hall
    unfold adaptOverloadedInstanceFunction
    apply overloadLoop_all_mismatch
    · simpa using hne
    · simp
    · intro cb hcb
      simp only [List.mem_map] at hcb
      obtain ⟨cb', hcb', rfl⟩ := hcb
      obtain ⟨c, hc, rfl⟩ := hcb'
      exact hall c hc
  · exact overloadLoop_never_signal _ _ _ _
  · exact overloadLoop_never_signal _ _ _ _
  · intro f
    have key : ∀ receiver : List CppVal,
        (ConvertingFuncCallHelper.callWith receiver f args false true).outcome =
          Except.error Thrown.overloadInvalidArguments ↔ f.argumentsMatch args = false := by
      intro receiver
      cases hm : f.argumentsMatch args with
      | true =>
        rw [ConvertingFuncCallHelper.callWith_match receiver f args false true hm,
          ConvertingFuncCallHelper.applyAndReturn_throwing]
        simpa using f.result_ne_signal _
      | false =>
        obtain ⟨e, he, _⟩ := ConvertingFuncCallHelper.callWith_mismatch f args hm
        simp [he receiver false true, ConvertCallHelperUtils.handleParamConvertFailure]
    exact ⟨key [], key [CppVal.pointer thiz]⟩

/-- C5 at a concrete input: `[f(number), f(string)]` called with `true`. -/
theorem adaptOverLoaded_all_mismatch_witness :
    (adaptOverLoadedFunction [StaticCallable.typed fNumber, StaticCallable.typed fString]
        oneBoolCall).outcome =
      Except.error (Thrown.exception "no valid overloaded function chosen") ∧
    (adaptOverloadedInstanceFunction
        [InstanceCallable.typed fNumber, InstanceCallable.typed fString] 7 oneBoolCall).outcome =
      Except.error (Thrown.exception "no valid overloaded function chosen") :=
  have h := adaptOverLoaded_all_mismatch_and_no_escape
    [StaticCallable.typed fNumber, StaticCallable.typed fString]
    [InstanceCallable.typed fNumber, InstanceCallable.typed fString] 7 oneBoolCall
  ⟨h.1 (by simp) (by
      intro c hc
      simp only [List.mem_cons, List.mem_singleton, List.not_mem_nil, or_false] at hc
      rcases hc with rfl | rfl <;> rfl),
    h.2.1 (by simp) (by
      intro c hc
      simp only [List.mem_cons, List.mem_singleton, List.not_mem_nil, or_false] at hc
      rcases hc with rfl | rfl <;> rfl)⟩

/-- C6: a typed native function of arity `N`, bound with `nothrow = false`
outside an overload set, called with `M ≠ N` arguments raises the exception
"Argument count mismatch, expect:N got:M" without invoking the native
function (static and instance binding); with `M = N` the count check passes. -/
theorem checkArgs_count_mismatch (f : NativeFunction) (thiz : Ptr) (args : Arguments) :
    (args.size ≠ f.params.length →
      bindStaticFunc (StaticCallable.typed f) false false args =
        ⟨[], Except.error (Thrown.exception
          ("Argument count mismatch, expect:" ++ toString f.params.length ++
            " got:" ++ toString args.size))⟩ ∧
      bindInstanceFunc (InstanceCallable.typed f) false false thiz args =
        ⟨[], Except.error (Thrown.exception
          ("Argument count mismatch, expect:" ++ toString f.params.length ++
            " got:" ++ toString args.size))⟩) ∧
    (args.size = f.params.length →
      ConvertCallHelperUtils.checkArgs args f.params.length false = Except.ok false) := by
  constructor
  · intro hsize
    simp [bindStaticFunc, bindInstanceFunc, ConvertingFuncCallHelper.call,
      ConvertingFuncCallHelper.callInstanceFunc, ConvertingFuncCallHelper.callWith,
      ConvertCallHelperUtils.checkArgs, hsize,
      ConvertCallHelperUtils.handleParamConvertFailure, handleException]
  · intro hsize
    simp [ConvertCallHelperUtils.checkArgs, hsize]

/-- C6 at the spec's example: arity 2 called with 1 argument gives
"Argument count mismatch, expect:2 got:1". -/
theorem checkArgs_count_mismatch_witness :
    oneStringCall.size ≠ gTwoNumbers.params.length ∧
    bindStaticFunc (StaticCallable.typed gTwoNumbers) false false oneStringCall =
      ⟨[], Except.error (Thrown.exception "Argument count mismatch, expect:2 got:1")⟩ :=
  have h : oneStringCall.size ≠ gTwoNumbers.params.length := by decide
  ⟨h, ((checkArgs_count_mismatch gTwoNumbers 7 oneStringCall).1 h).1⟩

/-- C7: when the argument count differs from the arity or some argument does
not convert, a binding made with `nothrow = true` returns an empty value,
raises nothing and does not invoke the native function; the same binding with
`nothrow = false` outside an overload set raises the count-mismatch exception
or the exception of an argument's conversion, again without invoking the
native function. Static and instance bindings. -/
theorem nothrow_binding_returns_empty (f : NativeFunction) (thiz : Ptr) (args : Arguments)
    (throwForOverload : Bool)
    (h : args.size ≠ f.params.length ∨
      ∃ pv ∈ List.zip f.params args.argv_, pv.1.converts pv.2 = false) :
    bindStaticFunc (StaticCallable.typed f) true throwForOverload args =
      ⟨[], Except.ok JsValue.undefined⟩ ∧
    bindInstanceFunc (InstanceCallable.typed f) true throwForOverload thiz args =
      ⟨[], Except.ok JsValue.undefined⟩ ∧
    ∃ e, bindStaticFunc (StaticCallable.typed f) false false args =
        ⟨[], Except.error (Thrown.exception e)⟩ ∧
      bindInstanceFunc (InstanceCallable.typed f) false false thiz args =
        ⟨[], Except.error (Thrown.exception e)⟩ ∧
      ((args.size ≠ f.params.length ∧
          e = "Argument count mismatch, expect:" ++ toString f.params.length ++
            " got:" ++ toString args.size) ∨
        (args.size = f.params.length ∧
          ∃ pv ∈ List.zip f.params args.argv_, pv.1.convert pv.2 = Except.error e)) := by
  have hm : f.argumentsMatch args = false := by
    unfold NativeFunction.argumentsMatch
    rcases h with hsize | ⟨pv, hmem, hpv⟩
    · simp [hsize]
    · have : (List.zip f.params args.argv_).all (fun pv => pv.1.converts pv.2) = false := by
        rw [List.all_eq_false]
        exact ⟨pv, hmem, by simp [hpv]⟩
      simp [this]
  obtain ⟨e, he, hsrc⟩ := ConvertingFuncCallHelper.callWith_mismatch f args hm
  refine ⟨?_, ?_, e, ?_, ?_, hsrc⟩
  · simp [bindStaticFunc, ConvertingFuncCallHelper.call, he,
      ConvertCallHelperUtils.handleParamConvertFailure, handleException]
  · simp [bindInstanceFunc, ConvertingFuncCallHelper.callInstanceFunc, he,
      ConvertCallHelperUtils.handleParamConvertFailure, handleException]
  · simp [bindStaticFunc, ConvertingFuncCallHelper.call, he,
      ConvertCallHelperUtils.handleParamConvertFailure, handleException]
  · simp [bindInstanceFunc, ConvertingFuncCallHelper.callInstanceFunc, he,
      ConvertCallHelperUtils.handleParamConvertFailure, handleException]

/-- C7 at a concrete input: `f(number)` bound no-throw and called with `"a"`. -/
theorem nothrow_binding_returns_empty_witness :
    (∃ pv ∈ List.zip fNumber.params oneStringCall.argv_, pv.1.converts pv.2 = false) ∧
    bindStaticFunc (StaticCallable.typed fNumber) true false oneStringCall =
      ⟨[], Except.ok JsValue.undefined⟩ :=
  have h : ∃ pv ∈ List.zip fNumber.params oneStringCall.argv_, pv.1.converts pv.2 = false :=
    ⟨(numberParam, JsValue.string "a"), by simp [fNumber, oneStringCall], rfl⟩
  ⟨h, (nothrow_binding_returns_empty fNumber 7 oneStringCall false (Or.inr h)).1⟩

/-! ### Handles -/

theorem deref_allocCell (cells : List Cell) (v : JsValue) :
    deref (allocCell cells v).2 (some (allocCell cells v).1) = some v := by
  simp [deref, allocCell]

theorem deref_allocCell_old (cells : List Cell) (v : JsValue) (p : Option CellId)
    (x : JsValue) (h : deref cells p = some x) : deref (allocCell cells v).2 p = some x := by
  cases p with
  | none => simp [deref] at h
  | some c =>
    simp only [deref, Option.map_eq_some'] at h
    obtain ⟨cell, hcell, hx⟩ := h
    have hlt : c < cells.length := by
      by_contra hge
      rw [List.getElem?_eq_none (Nat.le_of_not_lt hge)] at hcell
      cases hcell
    simp [deref, allocCell, List.getElem?_append_left hlt, hcell, hx]

theorem deref_releaseCell (cells : List Cell) (p q : Option CellId) :
    deref (releaseCell cells p) q = deref cells q := by
  cases p with
  | none => rfl
  | some c =>
    cases q with
    | none => rfl
    | some d =>
      simp only [deref, releaseCell, List.getElem?_modify]
      cases cells[d]? with
      | none => rfl
      | some cell => by_cases hcd : c = d <;> simp [hcd]

theorem deref_retainCell (cells : List Cell) (p q : Option CellId) :
    deref (retainCell cells p) q = deref cells q := by
  cases p with
  | none => rfl
  | some c =>
    cases q with
    | none => rfl
    | some d =>
      simp only [deref, retainCell, List.getElem?_modify]
      cases cells[d]? with
      | none => rfl
      | some cell => by_cases hcd : c = d <;> simp [hcd]

theorem Local.empty_isNull (cells : List Cell) :
    (Local.empty cells).1.isNull (Local.empty cells).2 = true := by
  simp [Local.isNull, Local.empty, isType, deref_allocCell, JsValue.isUndefined]

/-- C8 as stated fails: `getValue()` is a resolving operation, and on an empty
`Global` and on an empty `Weak` it returns a null `Local` rather than raising. -/
theorem empty_handle_getValue_counterexample :
    Global.empty.isEmpty = true ∧ Weak.empty.isEmpty = true ∧
    Global.getValue [] Global.empty = (⟨some 0⟩, [⟨JsValue.undefined, 1⟩]) ∧
    Weak.getValue [] Weak.empty = (⟨some 0⟩, [⟨JsValue.undefined, 1⟩]) ∧
    Local.isNull [⟨JsValue.undefined, 1⟩] ⟨some 0⟩ = true := by
  decide

/-- C8, amended: `get()` on an empty `Global` raises "get on empty Global" and
`get()` on an empty `Weak` raises "get on null Weak", while `getValue()` on
an empty `Global` or `Weak` returns an empty (null) `Local` without raising. -/
theorem empty_handle_get_raises (cells : List Cell) (g : Global) (w : Weak)
    (hg : g.isEmpty = true) (hw : w.isEmpty = true) :
    Global.get cells g = (Except.error (Thrown.exception "get on empty Global"), cells) ∧
    (Weak.get cells w).1 = Except.error (Thrown.exception "get on null Weak") ∧
    Global.getValue cells g = Local.empty cells ∧
    Weak.getValue cells w = Local.empty cells ∧
    (Local.empty cells).1.isNull (Local.empty cells).2 = true := by
  refine ⟨?_, ?_, ?_, ?_, Local.empty_isNull cells⟩
  · simp [Global.get, hg]
  · have hv : Weak.getValue cells w = Local.empty cells := by simp [Weak.getValue, hw]
    simp [Weak.get, hv, Local.empty_isNull]
  · simp [Global.getValue, hg]
  · simp [Weak.getValue, hw]

/-- C8, amended, at the default-constructed handles. -/
theorem empty_handle_get_raises_witness :
    Global.empty.isEmpty = true ∧ Weak.empty.isEmpty = true ∧
    Global.get [] Global.empty =
      (Except.error (Thrown.exception "get on empty Global"), []) ∧
    (Weak.get [] Weak.empty).1 = Except.error (Thrown.exception "get on null Weak") :=
  have hg : Global.empty.isEmpty = true := rfl
  have hw : Weak.empty.isEmpty = true := rfl
  have h := empty_handle_get_raises [] Global.empty Weak.empty hg hw
  ⟨hg, hw, h.1, h.2.1⟩

/-- C10 as stated fails: a `Local` holding `null` and a `Local` holding
`undefined` compare equal, although `null === undefined` is false. -/
theorem local_eq_null_undefined_counterexample :
    Local.eq nullAndUndefinedCells ⟨some 0⟩ ⟨some 1⟩ = Except.ok true ∧
    deref nullAndUndefinedCells (some 0) = some JsValue.null ∧
    deref nullAndUndefinedCells (some 1) = some JsValue.undefined ∧
    strictEquals JsValue.null JsValue.undefined = false :=
  ⟨rfl, rfl, rfl, rfl⟩

/-- C10, amended: for `Local`s whose cells hold the values `x` and `y`,
`a == b` is true exactly when both values are null-or-undefined or `x` and `y`
are strictly equal; the answer depends on the two values only, not on the
cells or handles holding them. -/
theorem local_eq_iff_nullish_or_strictEquals (cells : List Cell) (a b : Local) (x y : JsValue)
    (ha : deref cells a.valuePtr = some x) (hb : deref cells b.valuePtr = some y) :
    Local.eq cells a b =
      Except.ok (((x.isNull || x.isUndefined) && (y.isNull || y.isUndefined)) ||
        strictEquals x y) := by
  have hap : a.valuePtr ≠ none := by
    intro h; rw [h] at ha; simp [deref] at ha
  have hbp : b.valuePtr ≠ none := by
    intro h; rw [h] at hb; simp [deref] at hb
  have hna : a.isNull cells = (x.isNull || x.isUndefined) := by
    simp [Local.isNull, hap, isType, ha]
  have hnb : b.isNull cells = (y.isNull || y.isUndefined) := by
    simp [Local.isNull, hbp, isType, hb]
  unfold Local.eq
  rw [hna, hnb, ha, hb]
  cases x <;> cases y <;> simp [JsValue.isNull, JsValue.isUndefined, strictEquals]

/-- C10, amended, at two `Local`s holding the same string in different cells. -/
theorem local_eq_iff_nullish_or_strictEquals_witness :
    deref [⟨JsValue.string "a", 1⟩, ⟨JsValue.string "a", 1⟩] (some 0) =
      some (JsValue.string "a") ∧
    deref [⟨JsValue.string "a", 1⟩, ⟨JsValue.string "a", 1⟩] (some 1) =
      some (JsValue.string "a") ∧
    Local.eq [⟨JsValue.string "a", 1⟩, ⟨JsValue.string "a", 1⟩] ⟨some 0⟩ ⟨some 1⟩ =
      Except.ok true :=
  ⟨rfl, rfl,
    local_eq_iff_nullish_or_strictEquals [⟨JsValue.string "a", 1⟩, ⟨JsValue.string "a", 1⟩]
      ⟨some 0⟩ ⟨some 1⟩ (JsValue.string "a") (JsValue.string "a") rfl rfl⟩

/-- C9 as stated fails: a `Weak` follows the value cell it was made from, not
the referent. Here a `Global` to the same script object `7` exists (made from
a second `Local`), yet once the first `Local` is gone the `Weak` made from it
resolves to an empty value. -/
theorem weak_other_cell_counterexample :
    deref twoLocalsCells firstLocal.valuePtr = some (JsValue.object 7) ∧
    globalOfSecond.isEmpty = false ∧
    deref cellsAfterLocalsDie globalOfSecond.valuePtr = some (JsValue.object 7) ∧
    Weak.getValue cellsAfterLocalsDie weakOfFirst = Local.empty cellsAfterLocalsDie ∧
    (Local.empty cellsAfterLocalsDie).1.isNull (Local.empty cellsAfterLocalsDie).2 = true := by
  decide

theorem Weak.getValue_of_owned (e : Ptr) (he : e ≠ 0) (cells : List Cell) (c : CellId)
    (v : JsValue) (n : Nat) (hc : cells[c]? = some ⟨v, n + 1⟩) :
    Weak.getValue cells ⟨some c, e⟩ = makeLocal cells v := by
  simp [Weak.getValue, Weak.isEmpty, he, lockCell, hc, deref]

theorem Weak.getValue_of_unowned (e : Ptr) (cells : List Cell) (c : CellId)
    (v : JsValue) (hc : cells[c]? = some ⟨v, 0⟩) :
    Weak.getValue cells ⟨some c, e⟩ = Local.empty cells := by
  by_cases he : e = 0
  · simp [Weak.getValue, Weak.isEmpty, he]
  · simp [Weak.getValue, Weak.isEmpty, he, lockCell, hc, deref]

/-- C9, amended: a `Weak` made from a `Local` (or from a non-empty `Global`,
whose cell it then shares) resolves to the value of that cell for as long as
the cell has an owner, in particular while a `Global` made from the same
`Local` exists after the `Local` is gone; once the cell has no owner left it
resolves to an empty (null) value; an empty `Weak` always resolves to an
empty value. -/
theorem weak_getValue_follows_cell (currentEngine : Ptr) (l : Local) (c : CellId)
    (v : JsValue) (cells : List Cell) (hengine : currentEngine ≠ 0)
    (hl : l.valuePtr = some c) :
    (∀ n, cells[c]? = some ⟨v, n + 1⟩ →
      Weak.getValue cells (Weak.ofLocal currentEngine l) = makeLocal cells v) ∧
    (cells[c]? = some ⟨v, 0⟩ →
      Weak.getValue cells (Weak.ofLocal currentEngine l) = Local.empty cells) ∧
    (cells[c]? = some ⟨v, 1⟩ →
      Weak.getValue (Local.destroy (Global.ofLocal currentEngine cells l).2 l)
          (Weak.ofLocal currentEngine l) =
        makeLocal (Local.destroy (Global.ofLocal currentEngine cells l).2 l) v ∧
      Weak.getValue
          (Global.reset (Local.destroy (Global.ofLocal currentEngine cells l).2 l)
            (Global.ofLocal currentEngine cells l).1).2
          (Weak.ofLocal currentEngine l) =
        Local.empty
          (Global.reset (Local.destroy (Global.ofLocal currentEngine cells l).2 l)
            (Global.ofLocal currentEngine cells l).1).2) ∧
    (∀ g : Global, g.isEmpty = false →
      (Weak.ofGlobal currentEngine cells g).1 = Weak.ofLocal currentEngine ⟨g.valuePtr⟩) ∧
    (∀ w : Weak, w.isEmpty = true → Weak.getValue cells w = Local.empty cells) ∧
    deref (makeLocal cells v).2 (makeLocal cells v).1.valuePtr = some v ∧
    (Local.empty cells).1.isNull (Local.empty cells).2 = true := by
  refine ⟨?_, ?_, ?_, ?_, ?_, deref_allocCell cells v, Local.empty_isNull cells⟩
  · intro n hc
    simpa [Weak.ofLocal, hl] using Weak.getValue_of_owned currentEngine hengine cells c v n hc
  · intro hc
    simpa [Weak.ofLocal, hl] using Weak.getValue_of_unowned currentEngine cells c v hc
  · intro hc
    have h2 : (Local.destroy (Global.ofLocal currentEngine cells l).2 l)[c]? =
        some ⟨v, 0 + 1⟩ := by
      simp [Local.destroy, Global.ofLocal, hl, retainCell, releaseCell, hc]
    have hne : (currentEngine == 0) = false := by simpa using hengine
    have h3 : (Global.reset (Local.destroy (Global.ofLocal currentEngine cells l).2 l)
        (Global.ofLocal currentEngine cells l).1).2[c]? = some ⟨v, 0⟩ := by
      have h2' : (Local.destroy (retainCell cells (some c)) l)[c]? = some ⟨v, 0 + 1⟩ := by
        simpa [Global.ofLocal, hl] using h2
      simp only [Global.reset, Global.isEmpty, Global.ofLocal, hne, hl]
      simp only [Bool.false_eq_true, if_false, releaseCell, List.getElem?_modify_eq]
      rw [h2']
      rfl
    constructor
    · simpa [Weak.ofLocal, hl] using Weak.getValue_of_owned currentEngine hengine _ c v 0 h2
    · simpa [Weak.ofLocal, hl] using Weak.getValue_of_unowned currentEngine _ c v h3
  · intro g hg
    simp [Weak.ofGlobal, Global.getValue, hg]
  · intro w hw
    simp [Weak.getValue, hw]

/-- C9, amended, at a `Local` that solely owns cell `0` holding object `7`. -/
theorem weak_getValue_follows_cell_witness :
    (1 : Ptr) ≠ 0 ∧ firstLocal.valuePtr = some 0 ∧
    Weak.getValue [⟨JsValue.object 7, 1⟩] (Weak.ofLocal 1 firstLocal) =
      makeLocal [⟨JsValue.object 7, 1⟩] (JsValue.object 7) ∧
    Weak.getValue [⟨JsValue.object 7, 0⟩] (Weak.ofLocal 1 firstLocal) =
      Local.empty [⟨JsValue.object 7, 0⟩] :=
  have he : (1 : Ptr) ≠ 0 := by decide
  have hl : firstLocal.valuePtr = some 0 := rfl
  ⟨he, hl,
    (weak_getValue_follows_cell 1 firstLocal 0 (JsValue.object 7) [⟨JsValue.object 7, 1⟩]
      he hl).1 0 rfl,
    (weak_getValue_follows_cell 1 firstLocal 0 (JsValue.object 7) [⟨JsValue.object 7, 0⟩]
      he hl).2.1 rfl⟩

/-! ### Class projection -/

theorem getElem?_lt_length_of_eq_some {α : Type} {l : List α} {i : Nat} {a : α}
    (h : l[i]? = some a) : i < l.length := by
  by_contra hge
  rw [List.getElem?_eq_none (Nat.le_of_not_lt hge)] at h
  cases h

theorem created_objects_old (objects : List JsObject) (a b : JsObject) (st : NativeState)
    (i : Nat) (hi : i < objects.length) :
    (setNativeState (allocObject (allocObject objects a).2 b).2
      (allocObject (allocObject objects a).2 b).1 st)[i]? = objects[i]? := by
  have hne : objects.length + 1 ≠ i := by omega
  simp only [setNativeState, allocObject, List.length_append, List.length_singleton]
  rw [List.getElem?_modify_ne _ _ hne, List.append_assoc, List.getElem?_append_left hi]

theorem created_objects_array (objects : List JsObject) (a b : JsObject) (st : NativeState) :
    (setNativeState (allocObject (allocObject objects a).2 b).2
      (allocObject (allocObject objects a).2 b).1 st)[objects.length]? = some a := by
  have hne : objects.length + 1 ≠ objects.length := by omega
  simp only [setNativeState, allocObject, List.length_append, List.length_singleton]
  rw [List.getElem?_modify_ne _ _ hne,
    List.getElem?_append_left (by simp : objects.length < (objects ++ [a]).length)]
  exact List.getElem?_concat_length objects a

theorem created_objects_new (objects : List JsObject) (a b : JsObject) (st : NativeState) :
    getNativeState (setNativeState (allocObject (allocObject objects a).2 b).2
      (allocObject (allocObject objects a).2 b).1 st)
      (allocObject (allocObject objects a).2 b).1 = some st := by
  simp only [getNativeState, setNativeState, allocObject, List.length_append,
    List.length_singleton, List.getElem?_modify_eq]
  have : (objects ++ [a] ++ [b])[objects.length + 1]? = some b := by
    have h := List.getElem?_concat_length (objects ++ [a]) b
    simpa using h
  rw [this]
  rfl

theorem bindState_deref (w : World) (classDefine scriptClass thiz : Ptr) (q : Option CellId)
    (x : JsValue) (h : deref w.cells q = some x) :
    deref (bindState w classDefine scriptClass thiz).cells q = some x := by
  simp only [bindState, deref_releaseCell]
  exact deref_allocCell_old w.cells _ q x h

theorem bindState_store (w : World) (classDefine scriptClass thiz : Ptr) :
    deref (bindState w classDefine scriptClass thiz).cells (some w.cells.length) =
      some (JsValue.object w.objects.length) := by
  simp only [bindState, deref_releaseCell]
  exact deref_allocCell w.cells _

theorem constructorHook_eq (classDefine : ClassDefineState) (w : World) (thisValue : JsValue)
    (arguments : List JsValue) (registry : ClassRegistryData) (p : Ptr)
    (protoCell : CellId) (protoObj : ObjId)
    (hreg : findClass w.engine.classRegistry_ classDefine.addr = some registry)
    (hprotoP : registry.prototype.valuePtr = some protoCell)
    (hprotoV : deref w.cells (some protoCell) = some (JsValue.object protoObj))
    (hadopt : adoptedInstance w.objects arguments = Except.ok 0)
    (hthunk : classDefine.constructor ⟨w.engine.self, thisValue, arguments⟩ = Except.ok p)
    (hp : p ≠ 0) :
    constructorHook classDefine w w.engine.runtime_ thisValue arguments =
      ⟨⟨w.engine,
          (bindState w classDefine.addr (registry.instanceTypeToScriptClass p) p).cells,
          setNativeState
            (allocObject (allocObject w.objects JsObject.emptyArray).2
              (JsObject.plain (some protoObj))).2
            (allocObject (allocObject w.objects JsObject.emptyArray).2
              (JsObject.plain (some protoObj))).1
            (NativeState.shared (registry.instanceTypeToScriptClass p)),
          (bindState w classDefine.addr (registry.instanceTypeToScriptClass p) p).scriptClasses⟩,
        Except.ok (JsValue.object (w.objects.length + 1))⟩ := by
  have hv := bindState_deref w classDefine.addr (registry.instanceTypeToScriptClass p) p
    (some protoCell) (JsValue.object protoObj) hprotoV
  unfold constructorHook
  simp only [ne_eq, not_true_eq_false, if_false, hreg, hadopt, nativeInstance, hthunk, hp,
    if_true, hprotoP, hv, objectCreate]
  simp [bindState, allocObject]

/-- C1 as stated fails: for `Image` registered with instance members, the
argument list `[object 2]` makes the native constructor thunk return the
non-null pointer `5`, yet the projected constructor adopts the instance `9`
of the argument's non-owning attachment: the object it returns yields `9`. -/
theorem constructorHook_adoption_counterexample :
    imageClass.constructor ⟨100, JsValue.undefined, [JsValue.object 2]⟩ = Except.ok 5 ∧
    (constructorHook imageClass imageWorld 200 JsValue.undefined [JsValue.object 2]).outcome =
      Except.ok (JsValue.object 5) ∧
    performGetNativeInstance
        ((constructorHook imageClass imageWorld 200 JsValue.undefined
          [JsValue.object 2]).world.withLocal (JsValue.object 5))
        ⟨some 5⟩ 500 = Except.ok 9 :=
  ⟨rfl, rfl, rfl⟩

/-- C1, amended: for a class registered with instance members (the registry
holds a non-empty handle to a constructor function that has a prototype
object, and a handle to a prototype object), a call on the owning runtime in
which no instance is adopted from the arguments and the native constructor
thunk returns `p ≠ 0` returns a new object `o`; every `Local` for `o` then
satisfies `performIsInstanceOf = true` and `performGetNativeInstance = p`;
`o` carries the owning attachment of the `ScriptClass` of `p`, whose state
records the engine, the description, `p`, and a fresh store: a new cell for a
new, empty array. -/
theorem constructorHook_binds_instance
    (classDefine : ClassDefineState) (w : World) (thisValue : JsValue)
    (arguments : List JsValue) (registry : ClassRegistryData) (p : Ptr)
    (ctorObj : ObjId) (ctorFn : JsObject) (ctorProto : ObjId)
    (protoCell : CellId) (protoObj : ObjId)
    (hreg : findClass w.engine.classRegistry_ classDefine.addr = some registry)
    (hctorE : registry.constructor.isEmpty = false)
    (hctorV : deref w.cells registry.constructor.valuePtr = some (JsValue.object ctorObj))
    (hctorO : w.objects[ctorObj]? = some ctorFn)
    (hcallable : ctorFn.callable = true)
    (hctorP : ctorFn.prototypeProperty = some ctorProto)
    (hprotoP : registry.prototype.valuePtr = some protoCell)
    (hprotoV : deref w.cells (some protoCell) = some (JsValue.object protoObj))
    (hadopt : adoptedInstance w.objects arguments = Except.ok 0)
    (hthunk : classDefine.constructor ⟨w.engine.self, thisValue, arguments⟩ = Except.ok p)
    (hp : p ≠ 0) :
    ∃ (w' : World) (o : ObjId),
      constructorHook classDefine w w.engine.runtime_ thisValue arguments =
        ⟨w', Except.ok (JsValue.object o)⟩ ∧
      w.objects.length < o ∧
      (∀ l : Local, deref w'.cells l.valuePtr = some (JsValue.object o) →
        performIsInstanceOf w' l classDefine.addr = Except.ok true ∧
        performGetNativeInstance w' l classDefine.addr = Except.ok p) ∧
      getNativeState w'.objects o =
        some (NativeState.shared (registry.instanceTypeToScriptClass p)) ∧
      (w'.scriptClasses (registry.instanceTypeToScriptClass p)).scriptEngine_ =
        w.engine.self ∧
      (w'.scriptClasses (registry.instanceTypeToScriptClass p)).classDefine =
        classDefine.addr ∧
      (w'.scriptClasses (registry.instanceTypeToScriptClass p)).polymorphicPointer = p ∧
      (w'.scriptClasses (registry.instanceTypeToScriptClass p)).internalStore_ =
        ⟨some w.cells.length⟩ ∧
      deref w'.cells (some w.cells.length) = some (JsValue.object w.objects.length) ∧
      w'.objects[w.objects.length]? = some JsObject.emptyArray := by
  have hhook := constructorHook_eq classDefine w thisValue arguments registry p protoCell
    protoObj hreg hprotoP hprotoV hadopt hthunk hp
  refine ⟨_, _, hhook, Nat.lt_succ_self _, ?_, ?_, ?_, ?_, ?_, ?_, ?_, ?_⟩
  · intro l hl
    have hctorLt : ctorObj < w.objects.length := getElem?_lt_length_of_eq_some hctorO
    have hobj : l.isObject (bindState w classDefine.addr
        (registry.instanceTypeToScriptClass p) p).cells = true := by
      simp [Local.isObject, isType, hl, JsValue.isObject]
    have hctorV' := bindState_deref w classDefine.addr (registry.instanceTypeToScriptClass p) p
      registry.constructor.valuePtr (JsValue.object ctorObj) hctorV
    have hfn := created_objects_old w.objects JsObject.emptyArray
      (JsObject.plain (some protoObj))
      (NativeState.shared (registry.instanceTypeToScriptClass p)) ctorObj hctorLt
    rw [hctorO] at hfn
    have hlen : (allocObject (allocObject w.objects JsObject.emptyArray).2
        (JsObject.plain (some protoObj))).1 = w.objects.length + 1 := by
      simp [allocObject]
    have hns : getNativeState
        (setNativeState
          (allocObject (allocObject w.objects JsObject.emptyArray).2
            (JsObject.plain (some protoObj))).2
          (allocObject (allocObject w.objects JsObject.emptyArray).2
            (JsObject.plain (some protoObj))).1
          (NativeState.shared (registry.instanceTypeToScriptClass p)))
        (w.objects.length + 1) =
        some (NativeState.shared (registry.instanceTypeToScriptClass p)) := by
      rw [← hlen]
      exact created_objects_new w.objects JsObject.emptyArray
        (JsObject.plain (some protoObj))
        (NativeState.shared (registry.instanceTypeToScriptClass p))
    have hcd : ((bindState w classDefine.addr (registry.instanceTypeToScriptClass p)
        p).scriptClasses (registry.instanceTypeToScriptClass p)).classDefine =
        classDefine.addr := by
      simp [bindState]
    have hpp : ((bindState w classDefine.addr (registry.instanceTypeToScriptClass p)
        p).scriptClasses (registry.instanceTypeToScriptClass p)).polymorphicPointer = p := by
      simp [bindState]
    have hinst : performIsInstanceOf
        ⟨w.engine,
          (bindState w classDefine.addr (registry.instanceTypeToScriptClass p) p).cells,
          setNativeState
            (allocObject (allocObject w.objects JsObject.emptyArray).2
              (JsObject.plain (some protoObj))).2
            (allocObject (allocObject w.objects JsObject.emptyArray).2
              (JsObject.plain (some protoObj))).1
            (NativeState.shared (registry.instanceTypeToScriptClass p)),
          (bindState w classDefine.addr (registry.instanceTypeToScriptClass p)
            p).scriptClasses⟩ l classDefine.addr = Except.ok true := by
      unfold performIsInstanceOf
      simp only [hobj, Bool.not_true, Bool.false_eq_true, if_false, hreg, hctorE, hl,
        hctorV', asFunction, hfn, hcallable, if_true, instanceOf, hctorP]
      split
      · rename_i heq; cases heq
      · rfl
      · simp only [hns, hcd, decide_True]
    refine ⟨hinst, ?_⟩
    unfold performGetNativeInstance
    simp only [hobj, if_true, hinst, hl, hns, hpp]
  · have hns := created_objects_new w.objects JsObject.emptyArray
      (JsObject.plain (some protoObj))
      (NativeState.shared (registry.instanceTypeToScriptClass p))
    simpa [allocObject] using hns
  · simp [bindState]
  · simp [bindState]
  · simp [bindState]
  · simp [bindState, makeLocal, allocCell]
  · exact bindState_store w classDefine.addr (registry.instanceTypeToScriptClass p) p
  · exact created_objects_array w.objects JsObject.emptyArray (JsObject.plain (some protoObj))
      (NativeState.shared (registry.instanceTypeToScriptClass p))

/-- C1, amended, at `new Image()` on the concrete engine: the thunk returns
`5`, nothing is adopted, and the state of the instance at `5` records `5`. -/
theorem constructorHook_binds_instance_witness :
    adoptedInstance imageWorld.objects [] = Except.ok 0 ∧
    imageClass.constructor ⟨imageWorld.engine.self, JsValue.undefined, []⟩ = Except.ok 5 ∧
    ∃ (w' : World) (o : ObjId),
      constructorHook imageClass imageWorld imageWorld.engine.runtime_ JsValue.undefined [] =
        ⟨w', Except.ok (JsValue.object o)⟩ ∧
      getNativeState w'.objects o = some (NativeState.shared 5) ∧
      (w'.scriptClasses 5).polymorphicPointer = 5 :=
  have hadopt : adoptedInstance imageWorld.objects [] = Except.ok 0 := rfl
  have hthunk : imageClass.constructor ⟨imageWorld.engine.self, JsValue.undefined, []⟩ =
      Except.ok 5 := rfl
  have h := constructorHook_binds_instance imageClass imageWorld JsValue.undefined []
    imageRegistry 5 0 ⟨none, true, some 1, none, none⟩ 1 1 1 rfl rfl rfl rfl rfl rfl rfl rfl
    hadopt hthunk (by decide)
  ⟨hadopt, hthunk,
    h.elim fun w' h' => h'.elim fun o ho => ⟨w', o, ho.1, ho.2.2.2.1, ho.2.2.2.2.2.2.1⟩⟩

/-- C2 at its failing input: object `3`, made by script with
`Object.create(Image.prototype)`, is an instance of `Image` through its
prototype chain and carries no native state; `performGetNativeInstance` then
dereferences the null native state instead of returning a pointer. -/
theorem performGetNativeInstance_without_state :
    performIsInstanceOf imageWorld ⟨some 3⟩ 500 = Except.ok true ∧
    getNativeState imageWorld.objects 3 = none ∧
    performGetNativeInstance imageWorld ⟨some 3⟩ 500 =
      Except.error (Thrown.undefinedBehaviour "getNativeState of an object without native state, dereferenced") :=
  ⟨rfl, rfl, rfl⟩

/-- C3 at its failing input: object `2` carries a non-owning attachment and is
not an instance through its prototype chain; `performIsInstanceOf` reads the
recorded description through a `static_cast` to `SharedScriptClassHolder`
with no type test, which is undefined for this payload. -/
theorem performIsInstanceOf_unchecked_cast :
    getNativeState imageWorld.objects 2 = some (NativeState.nonOwning 9) ∧
    instanceOf imageWorld.objects 2 0 = Except.ok false ∧
    performIsInstanceOf imageWorld ⟨some 2⟩ 500 =
      Except.error (Thrown.undefinedBehaviour
        "static_cast to SharedScriptClassHolder of another NativeState") :=
  ⟨rfl, rfl, rfl⟩

/-! ### The constructor hook: which native calls it makes -/

theorem nativeInstanceTraced_snd (classDefine : ClassDefineState) (scriptArgs : Arguments)
    (adopted : Ptr) :
    (nativeInstanceTraced classDefine scriptArgs adopted).2 =
      nativeInstance classDefine scriptArgs adopted := by
  unfold nativeInstanceTraced nativeInstance
  by_cases h : adopted = 0 <;> simp [h]

theorem constructorHookTraced_snd (classDefine : ClassDefineState) (w : World) (runtime : Ptr)
    (thisValue : JsValue) (arguments : List JsValue) :
    (constructorHookTraced classDefine w runtime thisValue arguments).2 =
      constructorHook classDefine w runtime thisValue arguments := by
  unfold constructorHookTraced constructorHook
  by_cases hrt : runtime = w.engine.runtime_
  · simp only [hrt, ne_eq, not_true_eq_false, if_false]
    cases hreg : findClass w.engine.classRegistry_ classDefine.addr with
    | none => rfl
    | some registry =>
      simp only []
      cases hadopt : adoptedInstance w.objects arguments with
      | error t => rfl
      | ok adopted =>
        simp only []
        have hsnd := nativeInstanceTraced_snd classDefine ⟨w.engine.self, thisValue, arguments⟩
          adopted
        cases htr : nativeInstanceTraced classDefine ⟨w.engine.self, thisValue, arguments⟩
          adopted with
        | mk trace res =>
          rw [htr] at hsnd
          simp only [] at hsnd
          rw [← hsnd]
          cases res with
          | error t => rfl
          | ok thiz => rfl
  · simp [hrt]

theorem constructorHookTraced_of_adopted (classDefine : ClassDefineState) (w : World)
    (thisValue : JsValue) (arguments : List JsValue) (registry : ClassRegistryData)
    (adopted : Ptr)
    (hreg : findClass w.engine.classRegistry_ classDefine.addr = some registry)
    (hadopt : adoptedInstance w.objects arguments = Except.ok adopted) :
    constructorHookTraced classDefine w w.engine.runtime_ thisValue arguments =
      match nativeInstanceTraced classDefine ⟨w.engine.self, thisValue, arguments⟩ adopted with
      | (trace, Except.error t) => (trace, ⟨w, Except.error t⟩)
      | (trace, Except.ok thiz) =>
        (trace ++ [Event.toScriptClass thiz],
          attachInstance w classDefine.addr registry thisValue thiz) := by
  unfold constructorHookTraced
  simp only [ne_eq, not_true_eq_false, if_false, hreg, hadopt]

/-- C15: when no instance is adopted from the arguments and the native
constructor thunk returns null, the projected constructor (called on the
engine's runtime for a registered class) raises "can't create class " followed
by the class name; the only native call made is the thunk itself
(`instanceTypeToScriptClass` is not called), and the state is left exactly as
it was: no field of any instance state is written and no native state is
attached. A class declared with `constructor(nullptr)` is the case where the
thunk always returns null. -/
theorem constructorHook_null_instance (classDefine : ClassDefineState) (w : World)
    (thisValue : JsValue) (arguments : List JsValue) (registry : ClassRegistryData)
    (hreg : findClass w.engine.classRegistry_ classDefine.addr = some registry)
    (hadopt : adoptedInstance w.objects arguments = Except.ok 0)
    (hthunk : classDefine.constructor ⟨w.engine.self, thisValue, arguments⟩ = Except.ok 0) :
    constructorHookTraced classDefine w w.engine.runtime_ thisValue arguments =
      ([Event.callback classDefine.className thisValue arguments],
        ⟨w, Except.error (Thrown.exception ("can't create class " ++ classDefine.className))⟩) ∧
    constructorHook classDefine w w.engine.runtime_ thisValue arguments =
      ⟨w, Except.error (Thrown.exception ("can't create class " ++ classDefine.className))⟩ := by
  have h : constructorHookTraced classDefine w w.engine.runtime_ thisValue arguments =
      ([Event.callback classDefine.className thisValue arguments],
        ⟨w, Except.error
          (Thrown.exception ("can't create class " ++ classDefine.className))⟩) := by
    rw [constructorHookTraced_of_adopted classDefine w thisValue arguments registry 0 hreg hadopt]
    simp [nativeInstanceTraced, hthunk]
  refine ⟨h, ?_⟩
  rw [← constructorHookTraced_snd, h]

/-- C15 at `new Image()` for `Image` declared with `constructor(nullptr)`. -/
theorem constructorHook_null_instance_witness :
    adoptedInstance imageWorld.objects [] = Except.ok 0 ∧
    sealedImageClass.constructor ⟨imageWorld.engine.self, JsValue.undefined, []⟩ =
      Except.ok 0 ∧
    constructorHook sealedImageClass imageWorld imageWorld.engine.runtime_ JsValue.undefined [] =
      ⟨imageWorld, Except.error (Thrown.exception "can't create class Image")⟩ :=
  have hadopt : adoptedInstance imageWorld.objects [] = Except.ok 0 := rfl
  have hthunk : sealedImageClass.constructor
      ⟨imageWorld.engine.self, JsValue.undefined, []⟩ = Except.ok 0 := rfl
  ⟨hadopt, hthunk,
    (constructorHook_null_instance sealedImageClass imageWorld JsValue.undefined []
      imageRegistry rfl hadopt hthunk).2⟩

theorem holdersNonNull_iff (objects : List JsObject) :
    holdersNonNull objects = true ↔
      ∀ o, getNativeState objects o ≠ some (NativeState.nonOwning 0) := by
  constructor
  · intro h o hget
    unfold getNativeState at hget
    cases hx : objects[o]? with
    | none => simp [hx] at hget
    | some x =>
      simp only [hx] at hget
      have hmem : x ∈ objects := List.getElem?_mem hx
      have := (List.all_eq_true.mp h) x hmem
      simp [hget] at this
  · intro h
    apply List.all_eq_true.mpr
    intro x hx
    obtain ⟨i, hi⟩ := List.mem_iff_getElem?.mp hx
    have := h i
    simp only [getNativeState, hi] at this
    simpa using this

theorem getNativeState_setNativeState (objects : List JsObject) (obj o : ObjId)
    (state : NativeState) :
    getNativeState (setNativeState objects obj state) o =
      if obj = o then (objects[o]?).map (fun _ => state) else getNativeState objects o := by
  unfold getNativeState setNativeState
  rw [List.getElem?_modify]
  by_cases h : obj = o
  · subst h
    cases objects[obj]? <;> simp
  · cases objects[o]? <;> simp [h]

theorem getNativeState_allocObject (objects : List JsObject) (x : JsObject) (o : Nat) :
    getNativeState (allocObject objects x).2 o =
      if o = objects.length then x.nativeState else getNativeState objects o := by
  unfold getNativeState allocObject
  by_cases h : o = objects.length
  · subst h
    simp
  · by_cases hlt : o < objects.length
    · simp [h, List.getElem?_append_left hlt]
    · have hgt : objects.length < o := by omega
      have h1 : (objects ++ [x])[o]? = none :=
        List.getElem?_eq_none (by rw [List.length_append, List.length_singleton]; omega)
      have h2 : objects[o]? = none := List.getElem?_eq_none (by omega)
      simp [h, h1, h2]

/-- The construction of a non-owning holder with the address of a live
`ScriptClass` keeps the invariant. -/
theorem holdersNonNull_newNonOwningHolder (objects : List JsObject) (this : Ptr)
    (hthis : this ≠ 0) (h : holdersNonNull objects = true) :
    holdersNonNull (newNonOwningHolder objects this).2 = true ∧
    getNativeState (newNonOwningHolder objects this).2 (newNonOwningHolder objects this).1 =
      some (NativeState.nonOwning this) := by
  have hget := (holdersNonNull_iff objects).mp h
  refine ⟨(holdersNonNull_iff _).mpr ?_, ?_⟩
  · intro o
    simp only [newNonOwningHolder, getNativeState_setNativeState]
    split
    · cases (allocObject objects (JsObject.plain none)).2[o]? with
      | none => simp
      | some x => simpa using fun h0 => hthis h0
    · rw [getNativeState_allocObject]
      split
      · simp [JsObject.plain]
      · exact hget o
  · simp [newNonOwningHolder, getNativeState_setNativeState, allocObject]

theorem holdersNonNull_objectCreate (objs : List JsObject) (proto : JsValue)
    (created : ObjId × List JsObject)
    (hobjs : ∀ o, getNativeState objs o ≠ some (NativeState.nonOwning 0))
    (hcreated : objectCreate objs proto = Except.ok created) :
    ∀ o, getNativeState created.2 o ≠ some (NativeState.nonOwning 0) := by
  intro o
  unfold objectCreate at hcreated
  split at hcreated
  · cases hcreated
    rw [getNativeState_allocObject]
    split
    · simp [JsObject.plain]
    · exact hobjs o
  · cases hcreated
    rw [getNativeState_allocObject]
    split
    · simp [JsObject.plain]
    · exact hobjs o
  · cases hcreated

/-- The constructor hook keeps the invariant: the attachments it makes are
owning ones. -/
theorem holdersNonNull_constructorHook (classDefine : ClassDefineState) (w : World)
    (runtime : Ptr) (thisValue : JsValue) (arguments : List JsValue)
    (h : holdersNonNull w.objects = true) :
    holdersNonNull (constructorHook classDefine w runtime thisValue arguments).world.objects =
      true := by
  have hget := (holdersNonNull_iff w.objects).mp h
  have hbind : ∀ cd sc thiz o,
      getNativeState (bindState w cd sc thiz).objects o ≠ some (NativeState.nonOwning 0) := by
    intro cd sc thiz o
    simp only [bindState, getNativeState_allocObject]
    split
    · simp [JsObject.emptyArray]
    · exact hget o
  have hset : ∀ (objs : List JsObject) (t : ObjId) (sc : Ptr),
      (∀ o, getNativeState objs o ≠ some (NativeState.nonOwning 0)) →
      ∀ o, getNativeState (setNativeState objs t (NativeState.shared sc)) o ≠
        some (NativeState.nonOwning 0) := by
    intro objs t sc hobjs o
    rw [getNativeState_setNativeState]
    split
    · cases objs[o]? <;> simp
    · exact hobjs o
  unfold constructorHook
  dsimp only
  repeat' split
  all_goals
    first
    | exact h
    | exact (holdersNonNull_iff _).mpr (hbind _ _ _)
    | exact (holdersNonNull_iff _).mpr (hset _ _ _ (hbind _ _ _))
    | exact (holdersNonNull_iff _).mpr
        (hset _ _ _ (holdersNonNull_objectCreate _ _ _ (hbind _ _ _) (by assumption)))

/-- C16: on the engine's runtime, for a registered class and a heap in which
every non-owning attachment holds the address it was constructed with, the
projected constructor called with exactly one argument that is an object
carrying a non-owning attachment binds that attachment's pointer `sc` and
does not invoke the native constructor thunk; called with exactly one object
argument carrying a native state of any other class it raises "NativeState is
of incorrect type", invokes nothing and leaves the state as it was; in
every other case (no single object argument that carries a native state) it
invokes the thunk exactly once, first, with the `this` value and arguments of
the call, and goes on with the pointer the thunk returns. -/
theorem constructorHook_determines_instance (classDefine : ClassDefineState) (w : World)
    (thisValue : JsValue) (arguments : List JsValue) (registry : ClassRegistryData)
    (hreg : findClass w.engine.classRegistry_ classDefine.addr = some registry)
    (hholders : holdersNonNull w.objects = true) :
    (∀ o sc, arguments = [JsValue.object o] →
      getNativeState w.objects o = some (NativeState.nonOwning sc) →
      constructorHookTraced classDefine w w.engine.runtime_ thisValue arguments =
        ([Event.toScriptClass sc],
          attachInstance w classDefine.addr registry thisValue sc)) ∧
    (∀ o st, arguments = [JsValue.object o] → getNativeState w.objects o = some st →
      (∀ sc, st ≠ NativeState.nonOwning sc) →
      constructorHookTraced classDefine w w.engine.runtime_ thisValue arguments =
        ([], ⟨w, Except.error (Thrown.exception "NativeState is of incorrect type")⟩)) ∧
    ((∀ o, arguments = [JsValue.object o] → getNativeState w.objects o = none) →
      constructorHookTraced classDefine w w.engine.runtime_ thisValue arguments =
        match classDefine.constructor ⟨w.engine.self, thisValue, arguments⟩ with
        | Except.error t =>
          ([Event.callback classDefine.className thisValue arguments], ⟨w, Except.error t⟩)
        | Except.ok thiz =>
          if thiz = 0 then
            ([Event.callback classDefine.className thisValue arguments],
              ⟨w, Except.error
                (Thrown.exception ("can't create class " ++ classDefine.className))⟩)
          else
            ([Event.callback classDefine.className thisValue arguments,
                Event.toScriptClass thiz],
              attachInstance w classDefine.addr registry thisValue thiz)) := by
  refine ⟨?_, ?_, ?_⟩
  · intro o sc hargs hstate
    have hsc : sc ≠ 0 := by
      intro h0
      rw [h0] at hstate
      exact (holdersNonNull_iff w.objects).mp hholders o hstate
    have hadopt : adoptedInstance w.objects arguments = Except.ok sc := by
      simp [adoptedInstance, hargs, hstate]
    rw [constructorHookTraced_of_adopted classDefine w thisValue arguments registry sc hreg
      hadopt]
    simp [nativeInstanceTraced, hsc]
  · intro o st hargs hstate hshape
    have hadopt : adoptedInstance w.objects arguments =
        Except.error (Thrown.exception "NativeState is of incorrect type") := by
      cases st with
      | shared sc => simp [adoptedInstance, hargs, hstate]
      | nonOwning sc => exact absurd rfl (hshape sc)
      | foreign tag => simp [adoptedInstance, hargs, hstate]
    unfold constructorHookTraced
    simp only [ne_eq, not_true_eq_false, if_false, hreg, hadopt]
  · intro hnone
    have hadopt : adoptedInstance w.objects arguments = Except.ok 0 := by
      unfold adoptedInstance
      split
      · rename_i o
        rw [hnone o rfl]
      · rfl
    rw [constructorHookTraced_of_adopted classDefine w thisValue arguments registry 0 hreg
      hadopt]
    simp only [nativeInstanceTraced, if_true]
    cases classDefine.constructor ⟨w.engine.self, thisValue, arguments⟩ with
    | error t => rfl
    | ok thiz =>
      by_cases hz : thiz = 0
      · simp [hz]
      · simp [hz]

/-- C16 on the concrete engine: adopting the instance `9` of object `2`
without a call of the thunk, and `new Image()` invoking the thunk. -/
theorem constructorHook_determines_instance_witness :
    (findClass imageWorld.engine.classRegistry_ imageClass.addr = some imageRegistry ∧
      holdersNonNull imageWorld.objects = true ∧
      getNativeState imageWorld.objects 2 = some (NativeState.nonOwning 9)) ∧
    (constructorHookTraced imageClass imageWorld imageWorld.engine.runtime_ JsValue.undefined
        [JsValue.object 2]).1 = [Event.toScriptClass 9] ∧
    (constructorHookTraced imageClass imageWorld imageWorld.engine.runtime_ JsValue.undefined
        []).1 = [Event.callback "Image" JsValue.undefined [], Event.toScriptClass 5] :=
  have h := constructorHook_determines_instance imageClass imageWorld JsValue.undefined
    [JsValue.object 2] imageRegistry rfl rfl
  have h' := constructorHook_determines_instance imageClass imageWorld JsValue.undefined
    [] imageRegistry rfl rfl
  ⟨⟨rfl, rfl, rfl⟩, congrArg Prod.fst (h.1 2 9 rfl rfl),
    congrArg Prod.fst (h'.2.2 (fun o ho => by cases ho))⟩

/-! ### Host thunks: runtime check and `this` pointer -/

/-- C18: every projected host thunk (the class constructor, instance
function, instance getter and setter, static function, static getter and
setter, and the thunk of `Function::newFunction`) called on a runtime other
than the runtime of its engine raises "Invalid Runtime" and invokes no native
callback; the constructor also leaves the state as it was. -/
theorem host_thunks_check_runtime (w : World) (rt : Ptr) (thisVal : JsValue)
    (args : List JsValue) (hrt : rt ≠ w.engine.runtime_) :
    (∀ classDefine : ClassDefineState,
      constructorHookTraced classDefine w rt thisVal args =
        ([], ⟨w, Except.error (Thrown.exception "Invalid Runtime")⟩) ∧
      constructorHook classDefine w rt thisVal args =
        ⟨w, Except.error (Thrown.exception "Invalid Runtime")⟩) ∧
    (∀ f : InstanceFunctionDefine,
      instanceFunctionThunk f w rt thisVal args =
        ⟨[], Except.error (Thrown.exception "Invalid Runtime")⟩) ∧
    (∀ (prop : InstancePropertyDefine) (thunk : HostFunction),
      newInstanceGetter prop = some thunk ∨ newInstanceSetter prop = some thunk →
      thunk w rt thisVal args = ⟨[], Except.error (Thrown.exception "Invalid Runtime")⟩) ∧
    (∀ func : StaticFunctionDefine,
      newStaticFunction func w rt thisVal args =
        ⟨[], Except.error (Thrown.exception "Invalid Runtime")⟩) ∧
    (∀ (prop : StaticPropertyDefine) (thunk : HostFunction),
      newStaticGetter prop = some thunk ∨ newStaticSetter prop = some thunk →
      thunk w rt thisVal args = ⟨[], Except.error (Thrown.exception "Invalid Runtime")⟩) ∧
    (∀ callback : FunctionCallback,
      Function.newFunction callback w rt thisVal args =
        ⟨[], Except.error (Thrown.exception "Invalid Runtime")⟩) := by
  refine ⟨?_, ?_, ?_, ?_, ?_, ?_⟩
  · intro classDefine
    exact ⟨by simp [constructorHookTraced, hrt], by simp [constructorHook, hrt]⟩
  · intro f
    simp [instanceFunctionThunk, hrt, invalidRuntime]
  · intro prop thunk h
    rcases h with h | h
    · unfold newInstanceGetter at h
      cases hg : prop.getter with
      | none => simp [hg] at h
      | some g =>
        simp only [hg, Option.some.injEq] at h
        subst h
        simp [hrt, invalidRuntime]
    · unfold newInstanceSetter at h
      cases hs : prop.setter with
      | none => simp [hs] at h
      | some s =>
        simp only [hs, Option.some.injEq] at h
        subst h
        simp [hrt, invalidRuntime]
  · intro func
    simp [newStaticFunction, hrt, invalidRuntime]
  · intro prop thunk h
    rcases h with h | h
    · unfold newStaticGetter at h
      cases hg : prop.getter with
      | none => simp [hg] at h
      | some g =>
        simp only [hg, Option.some.injEq] at h
        subst h
        simp [hrt, invalidRuntime]
    · unfold newStaticSetter at h
      cases hs : prop.setter with
      | none => simp [hs] at h
      | some s =>
        simp only [hs, Option.some.injEq] at h
        subst h
        simp [hrt, invalidRuntime]
  · intro callback
    simp [Function.newFunction, hrt, invalidRuntime]

/-- C18 on the concrete engine (runtime `200`), called from runtime `201`. -/
theorem host_thunks_check_runtime_witness :
    (201 : Ptr) ≠ imageWorld.engine.runtime_ ∧
    instanceFunctionThunk dropFunction imageWorld 201 (JsValue.object 2) [] =
      ⟨[], Except.error (Thrown.exception "Invalid Runtime")⟩ ∧
    constructorHook imageClass imageWorld 201 JsValue.undefined [] =
      ⟨imageWorld, Except.error (Thrown.exception "Invalid Runtime")⟩ :=
  have hrt : (201 : Ptr) ≠ imageWorld.engine.runtime_ := by decide
  ⟨hrt,
    (host_thunks_check_runtime imageWorld 201 (JsValue.object 2) [] hrt).2.1 dropFunction,
    ((host_thunks_check_runtime imageWorld 201 JsValue.undefined [] hrt).1 imageClass).2⟩

/-- C19: for a `this` object `o`, `getThisPointer` raises "No private data
added to Native Instance" when `o` has no native state, raises "Private data
added to Native Instance isn't of ScriptClass" when its native state is not
an owning attachment, and otherwise returns the polymorphic pointer recorded
for the attached instance; the instance function, getter and setter thunks
(called on the engine's runtime) end with that exception and an empty trace
in the two failing cases, and invoke their native callback with the returned
pointer otherwise. -/
theorem getThisPointer_cases (w : World) (o : ObjId) (args : List JsValue) :
    (getNativeState w.objects o = none →
      getThisPointer w (JsValue.object o) =
        Except.error (Thrown.exception "No private data added to Native Instance")) ∧
    (∀ st, getNativeState w.objects o = some st → (∀ sc, st ≠ NativeState.shared sc) →
      getThisPointer w (JsValue.object o) =
        Except.error
          (Thrown.exception "Private data added to Native Instance isn't of ScriptClass")) ∧
    (∀ sc, getNativeState w.objects o = some (NativeState.shared sc) →
      getThisPointer w (JsValue.object o) =
        Except.ok (w.scriptClasses sc).polymorphicPointer) ∧
    (∀ t, getThisPointer w (JsValue.object o) = Except.error t →
      (∀ f : InstanceFunctionDefine,
        instanceFunctionThunk f w w.engine.runtime_ (JsValue.object o) args =
          ⟨[], Except.error t⟩) ∧
      (∀ (prop : InstancePropertyDefine) (thunk : HostFunction),
        newInstanceGetter prop = some thunk ∨ newInstanceSetter prop = some thunk →
        thunk w w.engine.runtime_ (JsValue.object o) args = ⟨[], Except.error t⟩)) ∧
    (∀ thiz, getThisPointer w (JsValue.object o) = Except.ok thiz →
      (∀ f : InstanceFunctionDefine,
        instanceFunctionThunk f w w.engine.runtime_ (JsValue.object o) args =
          ⟨Event.callback f.name (JsValue.object o) args ::
              (f.callback thiz ⟨w.engine.self, JsValue.object o, args⟩).trace,
            (f.callback thiz ⟨w.engine.self, JsValue.object o, args⟩).outcome⟩) ∧
      (∀ (prop : InstancePropertyDefine) (getter : Ptr → Run) (thunk : HostFunction),
        prop.getter = some getter → newInstanceGetter prop = some thunk →
        thunk w w.engine.runtime_ (JsValue.object o) args =
          ⟨Event.callback prop.name (JsValue.object o) args :: (getter thiz).trace,
            (getter thiz).outcome⟩) ∧
      (∀ (prop : InstancePropertyDefine) (setter : Ptr → JsValue → Run) (thunk : HostFunction),
        prop.setter = some setter → newInstanceSetter prop = some thunk →
        thunk w w.engine.runtime_ (JsValue.object o) args =
          ⟨Event.callback prop.name (JsValue.object o) args ::
              (setter thiz ((⟨w.engine.self, JsValue.object o, args⟩ : Arguments).get 0)).trace,
            returnNothing
              (setter thiz ((⟨w.engine.self, JsValue.object o, args⟩ : Arguments).get 0))⟩)) := by
  refine ⟨?_, ?_, ?_, ?_, ?_⟩
  · intro h
    simp [getThisPointer, h]
  · intro st h hshape
    cases st with
    | shared sc => exact absurd rfl (hshape sc)
    | nonOwning sc => simp [getThisPointer, h]
    | foreign tag => simp [getThisPointer, h]
  · intro sc h
    simp [getThisPointer, h]
  · intro t ht
    refine ⟨?_, ?_⟩
    · intro f
      simp [instanceFunctionThunk, ht]
    · intro prop thunk h
      rcases h with h | h
      · unfold newInstanceGetter at h
        cases hg : prop.getter with
        | none => simp [hg] at h
        | some g =>
          simp only [hg, Option.some.injEq] at h
          subst h
          simp [ht]
      · unfold newInstanceSetter at h
        cases hs : prop.setter with
        | none => simp [hs] at h
        | some s =>
          simp only [hs, Option.some.injEq] at h
          subst h
          simp [ht]
  · intro thiz ht
    refine ⟨?_, ?_, ?_⟩
    · intro f
      simp [instanceFunctionThunk, ht]
    · intro prop getter thunk hg h
      unfold newInstanceGetter at h
      simp only [hg, Option.some.injEq] at h
      subst h
      simp [ht]
    · intro prop setter thunk hs h
      unfold newInstanceSetter at h
      simp only [hs, Option.some.injEq] at h
      subst h
      simp [ht]

/-- C19 on the concrete engine: object `3` has no native state, object `2`
carries a non-owning attachment, and the constructed instance `5` yields the
native pointer `5`. -/
theorem getThisPointer_cases_witness :
    getThisPointer imageWorld (JsValue.object 3) =
      Except.error (Thrown.exception "No private data added to Native Instance") ∧
    instanceFunctionThunk dropFunction imageWorld imageWorld.engine.runtime_
        (JsValue.object 2) [] =
      ⟨[], Except.error
        (Thrown.exception "Private data added to Native Instance isn't of ScriptClass")⟩ ∧
    getThisPointer imageInstanceWorld (JsValue.object 5) = Except.ok 5 :=
  ⟨(getThisPointer_cases imageWorld 3 []).1 rfl,
    ((getThisPointer_cases imageWorld 2 []).2.2.2.1 _
      ((getThisPointer_cases imageWorld 2 []).2.1 (NativeState.nonOwning 9) rfl
        (fun sc h => by cases h))).1 dropFunction,
    (getThisPointer_cases imageInstanceWorld 5 []).2.2.1 5 rfl⟩

/-! ### Property descriptors -/

theorem drainJobs_of_no_throw (jobs : List Microtask) (done : List Nat)
    (h : ∀ job ∈ jobs, job.throws = none) :
    drainJobs jobs done = ([], done ++ jobs.map (fun job => job.id), Except.ok true) := by
  induction jobs generalizing done with
  | nil => simp [drainJobs]
  | cons job rest ih =>
    have hjob : job.throws = none := h job (List.mem_cons_self _ _)
    have hrest : ∀ j ∈ rest, j.throws = none := fun j hj => h j (List.mem_cons_of_mem _ hj)
    simp [drainJobs, hjob, ih _ hrest]

theorem drainJobs_ok (jobs : List Microtask) (done : List Nat) (b : Bool)
    (h : (drainJobs jobs done).2.2 = Except.ok b) : ∀ job ∈ jobs, job.throws = none := by
  induction jobs generalizing done with
  | nil => simp
  | cons job rest ih =>
    cases hjob : job.throws with
    | some message => simp [drainJobs, hjob] at h
    | none =>
      simp only [drainJobs, hjob] at h
      intro j hj
      rcases List.mem_cons.mp hj with hj | hj
      · rw [hj]; exact hjob
      · exact ih _ h j hj

theorem drainMicrotasks_of_no_throw (h : Host) (hjobs : ∀ job ∈ h.microtasks, job.throws = none) :
    drainMicrotasks h =
      ({ h with microtasks := [],
                completed := h.completed ++ h.microtasks.map (fun job => job.id),
                teardownLog := h.teardownLog ++ [TeardownStep.drainMicrotasks] },
        Except.ok true) := by
  simp [drainMicrotasks, drainJobs_of_no_throw _ _ hjobs]

theorem drainMicrotasks_ok (h h' : Host) (b : Bool)
    (hok : drainMicrotasks h = (h', Except.ok b)) :
    (∀ job ∈ h.microtasks, job.throws = none) ∧
    h' = { h with microtasks := [],
                  completed := h.completed ++ h.microtasks.map (fun job => job.id),
                  teardownLog := h.teardownLog ++ [TeardownStep.drainMicrotasks] } := by
  have hjobs : ∀ job ∈ h.microtasks, job.throws = none := by
    apply drainJobs_ok h.microtasks h.completed b
    have := congrArg Prod.snd hok
    simpa [drainMicrotasks] using this
  refine ⟨hjobs, ?_⟩
  rw [drainMicrotasks_of_no_throw h hjobs] at hok
  exact (congrArg Prod.fst hok).symm

theorem drainMicrotasks_error (h : Host) (job : Microtask) (hmem : job ∈ h.microtasks)
    (hthrows : job.throws ≠ none) : ∃ t, (drainMicrotasks h).2 = Except.error t := by
  cases hout : (drainMicrotasks h).2 with
  | error t => exact ⟨t, rfl⟩
  | ok b =>
    have := drainJobs_ok h.microtasks h.completed b (by simpa [drainMicrotasks] using hout)
    exact absurd (this job hmem) hthrows

/-- C12: whenever the runtime evaluates the script to a value `ret`, leaving
the state `h1`, `HermesEngine::eval` and `HermesEngine::evalInPlaceInternal`
succeed exactly when none of the jobs pending in `h1` raises, and then every
job pending after the evaluation has been run, in queue order, the microtask
queue is empty in the state handed back, and the handle returned holds
`ret`. -/
theorem eval_drains_microtasks (rt : ScriptRuntime) (h h1 : Host) (script sourceFile : String)
    (ret : JsValue) (heval : rt.evaluateJavaScript h script sourceFile = (h1, Except.ok ret)) :
    ((∀ job ∈ h1.microtasks, job.throws = none) →
      ∃ h' out,
        HermesEngine.eval rt h script sourceFile = (h', Except.ok out) ∧
        HermesEngine.evalInPlaceInternal rt h script sourceFile = (h', Except.ok out)) ∧
    (∀ h' out,
      HermesEngine.eval rt h script sourceFile = (h', Except.ok out) ∨
        HermesEngine.evalInPlaceInternal rt h script sourceFile = (h', Except.ok out) →
      (∀ job ∈ h1.microtasks, job.throws = none) ∧
      h'.microtasks = [] ∧
      h'.completed = h1.completed ++ h1.microtasks.map (fun job => job.id) ∧
      deref h'.world.cells out.valuePtr = some ret) := by
  refine ⟨?_, ?_⟩
  · intro hjobs
    refine ⟨({ h1 with
        microtasks := [],
        completed := h1.completed ++ h1.microtasks.map (fun job => job.id),
        teardownLog := h1.teardownLog ++ [TeardownStep.drainMicrotasks] } : Host).withLocal ret,
      (makeLocal h1.world.cells ret).1, ?_, ?_⟩
    · simp only [HermesEngine.eval, heval, drainMicrotasks_of_no_throw h1 hjobs]
    · simp only [HermesEngine.evalInPlaceInternal, heval, drainMicrotasks_of_no_throw h1 hjobs]
  · intro h' out hok
    have hboth : ∃ h2 b, drainMicrotasks h1 = (h2, Except.ok b) ∧ h' = h2.withLocal ret ∧
        out = (makeLocal h2.world.cells ret).1 := by
      cases hdrain : drainMicrotasks h1 with
      | mk h2 outcome =>
        cases outcome with
        | error t =>
          rcases hok with hok | hok
          · simp [HermesEngine.eval, heval, hdrain] at hok
          · simp [HermesEngine.evalInPlaceInternal, heval, hdrain] at hok
        | ok b =>
          refine ⟨h2, b, rfl, ?_⟩
          rcases hok with hok | hok
          · simp only [HermesEngine.eval, heval, hdrain, Prod.mk.injEq, Except.ok.injEq] at hok
            exact ⟨hok.1.symm, hok.2.symm⟩
          · simp only [HermesEngine.evalInPlaceInternal, heval, hdrain, Prod.mk.injEq,
              Except.ok.injEq] at hok
            exact ⟨hok.1.symm, hok.2.symm⟩
    obtain ⟨h2, b, hdrain, hh', hout⟩ := hboth
    obtain ⟨hjobs, hh2⟩ := drainMicrotasks_ok h1 h2 b hdrain
    subst hh' hout
    refine ⟨hjobs, ?_, ?_, ?_⟩
    · rw [hh2]; rfl
    · rw [hh2]; rfl
    · exact deref_allocCell _ _

/-- C12 on the concrete runtime: the continuation `7` scheduled by the
evaluated script has completed when `eval` returns. -/
theorem eval_drains_microtasks_witness :
    (promiseRuntime.evaluateJavaScript tickHost "go()" "main.js").1.microtasks = [⟨7, none⟩] ∧
    (∃ h' out,
      HermesEngine.eval promiseRuntime tickHost "go()" "main.js" = (h', Except.ok out) ∧
      HermesEngine.evalInPlaceInternal promiseRuntime tickHost "go()" "main.js" =
        (h', Except.ok out)) ∧
    ∀ h' out,
      HermesEngine.eval promiseRuntime tickHost "go()" "main.js" = (h', Except.ok out) ∨
        HermesEngine.evalInPlaceInternal promiseRuntime tickHost "go()" "main.js" =
          (h', Except.ok out) →
      (∀ job ∈ ({ tickHost with microtasks := tickHost.microtasks ++ [⟨7, none⟩] } :
          Host).microtasks, job.throws = none) ∧
      h'.microtasks = [] ∧
      h'.completed = [] ++ [7] ∧
      deref h'.world.cells out.valuePtr = some (JsValue.number (JsNumber.val 1)) :=
  have key := eval_drains_microtasks promiseRuntime tickHost
    { tickHost with microtasks := tickHost.microtasks ++ [⟨7, none⟩] } "go()" "main.js"
    (JsValue.number (JsNumber.val 1)) rfl
  ⟨rfl,
    key.1 (fun job hjob => by
      have hjob7 : job = ⟨7, none⟩ := by simpa [tickHost] using hjob
      rw [hjob7]),
    key.2⟩

/-- C13: on an engine that is not destroying, `deleteScriptClass(sc)` deletes
nothing and appends exactly one message to the engine's queue, tagged with the
engine and carrying `sc`, whose handler does nothing and whose disposal
deletes `sc`; on an engine that is destroying it deletes `sc` at once and
leaves the queue as it was. The destructor of the owning attachment of an
instance of this engine is that call. -/
theorem deleteScriptClass_defers_unless_destroying (h : Host) (sc : Ptr) :
    (h.isDestroying_ = false →
      deleteScriptClass h sc =
        { h with messageQueue_ := h.messageQueue_ ++
            [⟨MessageProc.nop, MessageProc.deleteScriptClass, h.world.engine.self, sc⟩] } ∧
      (deleteScriptClass h sc).deleted = h.deleted ∧
      (∀ fuel h',
        MessageProc.run fuel MessageProc.nop
          ⟨MessageProc.nop, MessageProc.deleteScriptClass, h.world.engine.self, sc⟩ h' =
            some (h', Except.ok ())) ∧
      (∀ h' : Host,
        (Message.dispose
          ⟨MessageProc.nop, MessageProc.deleteScriptClass, h.world.engine.self, sc⟩ h').deleted =
            h'.deleted ++ [sc])) ∧
    (h.isDestroying_ = true →
      deleteScriptClass h sc = { h with deleted := h.deleted ++ [sc] } ∧
      (deleteScriptClass h sc).messageQueue_ = h.messageQueue_) ∧
    ((h.world.scriptClasses sc).scriptEngine_ = h.world.engine.self →
      SharedScriptClassHolder.destroy h sc = some (deleteScriptClass h sc)) := by
  refine ⟨?_, ?_, ?_⟩
  · intro hflag
    refine ⟨?_, ?_, ?_, ?_⟩
    · simp [deleteScriptClass, hflag, postMessage]
    · simp [deleteScriptClass, hflag]
    · intro fuel h'
      rfl
    · intro h'
      rfl
  · intro hflag
    refine ⟨?_, ?_⟩
    · simp [deleteScriptClass, hflag, deleteInstance]
    · simp [deleteScriptClass, hflag, deleteInstance]
  · intro heng
    simp [SharedScriptClassHolder.destroy, heng]

/-- C13 on the concrete engine: in normal operation the deletion of instance
`5` is queued; once the engine is destroying it happens at once. -/
theorem deleteScriptClass_defers_unless_destroying_witness :
    ((deleteScriptClass tickHost 5).messageQueue_ =
        [⟨MessageProc.nop, MessageProc.deleteScriptClass, 100, 5⟩] ∧
      (deleteScriptClass tickHost 5).deleted = []) ∧
    ((deleteScriptClass (setDestroying tickHost) 5).deleted = [5] ∧
      (deleteScriptClass (setDestroying tickHost) 5).messageQueue_ = []) ∧
    (SharedScriptClassHolder.destroy tickHost 5).map (fun s => s.messageQueue_) =
      some [⟨MessageProc.nop, MessageProc.deleteScriptClass, 100, 5⟩] :=
  ⟨⟨congrArg (fun s : Host => s.messageQueue_)
      ((deleteScriptClass_defers_unless_destroying tickHost 5).1 rfl).1,
    ((deleteScriptClass_defers_unless_destroying tickHost 5).1 rfl).2.1⟩,
   ⟨congrArg (fun s : Host => s.deleted)
      ((deleteScriptClass_defers_unless_destroying (setDestroying tickHost) 5).2.1 rfl).1,
    ((deleteScriptClass_defers_unless_destroying (setDestroying tickHost) 5).2.1 rfl).2⟩,
   congrArg (fun o : Option Host => o.map (fun s => s.messageQueue_))
      ((deleteScriptClass_defers_unless_destroying tickHost 5).2.2 rfl)⟩

theorem Message.dispose_eq (m : Message) (s : Host) :
    Message.dispose m s =
      { s with deleted := s.deleted ++
          (if m.cleanup = MessageProc.deleteScriptClass then [m.ptr0] else []) } := by
  unfold Message.dispose
  cases hm : m.cleanup <;> simp [deleteInstance]

theorem Message.dispose_foldl (ms : List Message) (s : Host) :
    ms.foldl (fun s m => Message.dispose m s) s =
      { s with
        deleted := s.deleted ++
          List.map (fun m => m.ptr0)
            (ms.filter (fun m => m.cleanup = MessageProc.deleteScriptClass)) } := by
  induction ms generalizing s with
  | nil => simp
  | cons m rest ih =>
    rw [List.foldl_cons, ih, Message.dispose_eq]
    by_cases hm : m.cleanup = MessageProc.deleteScriptClass
    · simp [hm, List.filter_cons]
    · simp [hm, List.filter_cons]

theorem removeMessageByTag_eq (h : Host) (tag : Ptr) :
    removeMessageByTag h tag =
      { h with
        messageQueue_ := h.messageQueue_.filter (fun m => ¬ m.tag = tag),
        teardownLog := h.teardownLog ++ [TeardownStep.removeMessageByTag tag],
        deleted := h.deleted ++
          ((h.messageQueue_.filter (fun m => m.tag = tag)).filter
            (fun m => m.cleanup = MessageProc.deleteScriptClass)).map (fun m => m.ptr0) } := by
  simp only [removeMessageByTag, Message.dispose_foldl]

/-- The state in which `HermesEngine::destroy` releases the runtime when no
pending job raises. -/
theorem HermesEngine.destroy_of_no_throw (h : Host)
    (hjobs : ∀ job ∈ h.microtasks, job.throws = none) :
    HermesEngine.destroy h =
      (releaseRuntime
        { h with
          isDestroying_ := true,
          userData_ := none,
          messageQueue_ := h.messageQueue_.filter (fun m => ¬ m.tag = h.world.engine.self),
          deleted := h.deleted ++
            ((h.messageQueue_.filter (fun m => m.tag = h.world.engine.self)).filter
              (fun m => m.cleanup = MessageProc.deleteScriptClass)).map (fun m => m.ptr0),
          microtasks := [],
          completed := h.completed ++ h.microtasks.map (fun job => job.id),
          globalWeakBookkeeping_ := [],
          world := { h.world with engine := { h.world.engine with classRegistry_ := [] } },
          teardownLog := h.teardownLog ++
            [TeardownStep.setDestroying, TeardownStep.destroyUserData,
             TeardownStep.removeMessageByTag h.world.engine.self,
             TeardownStep.drainMicrotasks, TeardownStep.clearBookkeeping,
             TeardownStep.clearClassRegistry] },
        Except.ok ()) := by
  have hjobs3 : ∀ job ∈ (removeMessageByTag (destroyUserData (setDestroying h))
      (destroyUserData (setDestroying h)).world.engine.self).microtasks, job.throws = none := by
    rw [removeMessageByTag_eq]
    exact hjobs
  simp only [HermesEngine.destroy, drainMicrotasks_of_no_throw _ hjobs3]
  simp [removeMessageByTag_eq, destroyUserData, setDestroying, GlobalWeakBookkeeping.clear,
    clearClassRegistry, releaseRuntime]

/-- C14: when no pending job raises, `HermesEngine::destroy` sets the
destroying flag, destroys the user data, removes the messages tagged with the
engine, drains the microtasks, clears the handle bookkeeping table, clears
the class registry and then releases the runtime, in this order; in the state
`h6` in which the runtime is released the flag is set, the user data is gone,
no message tagged with the engine is queued, no job is pending, and the
bookkeeping table and the class registry are empty, whatever handles the table
held before. When a pending job raises, the run ends at the drain (the
function is `noexcept`): the first four steps have run in this order and the
runtime is not released. -/
theorem destroy_order (h : Host) :
    ((∀ job ∈ h.microtasks, job.throws = none) →
      ∃ h6 : Host,
        HermesEngine.destroy h = (releaseRuntime h6, Except.ok ()) ∧
        h6.teardownLog = h.teardownLog ++
          [TeardownStep.setDestroying, TeardownStep.destroyUserData,
           TeardownStep.removeMessageByTag h.world.engine.self,
           TeardownStep.drainMicrotasks, TeardownStep.clearBookkeeping,
           TeardownStep.clearClassRegistry] ∧
        (releaseRuntime h6).teardownLog = h6.teardownLog ++ [TeardownStep.releaseRuntime] ∧
        h6.runtimeReleased = h.runtimeReleased ∧
        (releaseRuntime h6).runtimeReleased = true ∧
        h6.isDestroying_ = true ∧
        h6.userData_ = none ∧
        (∀ m ∈ h6.messageQueue_, m.tag ≠ h.world.engine.self) ∧
        h6.microtasks = [] ∧
        h6.globalWeakBookkeeping_ = [] ∧
        h6.world.engine.classRegistry_ = [] ∧
        (releaseRuntime h6).globalWeakBookkeeping_ = [] ∧
        (releaseRuntime h6).world.engine.classRegistry_ = []) ∧
    (∀ job ∈ h.microtasks, job.throws ≠ none →
      ∃ t, (HermesEngine.destroy h).2 = Except.error t ∧
        (HermesEngine.destroy h).1.runtimeReleased = h.runtimeReleased ∧
        (HermesEngine.destroy h).1.teardownLog = h.teardownLog ++
          [TeardownStep.setDestroying, TeardownStep.destroyUserData,
           TeardownStep.removeMessageByTag h.world.engine.self,
           TeardownStep.drainMicrotasks]) := by
  refine ⟨?_, ?_⟩
  · intro hjobs
    refine ⟨_, HermesEngine.destroy_of_no_throw h hjobs, rfl, rfl, rfl, rfl, rfl, rfl, ?_,
      rfl, rfl, rfl, rfl, rfl⟩
    intro m hm
    have := (List.mem_filter.mp hm).2
    simpa using this
  · intro job hmem hthrows
    have hmem3 : job ∈ (removeMessageByTag (destroyUserData (setDestroying h))
        (destroyUserData (setDestroying h)).world.engine.self).microtasks := by
      rw [removeMessageByTag_eq]
      exact hmem
    obtain ⟨t, ht⟩ := drainMicrotasks_error _ job hmem3 hthrows
    refine ⟨t, ?_, ?_, ?_⟩
    · cases hd : drainMicrotasks (removeMessageByTag (destroyUserData (setDestroying h))
          (destroyUserData (setDestroying h)).world.engine.self) with
      | mk h4 outcome =>
        rw [hd] at ht
        simp only at ht
        subst ht
        simp only [HermesEngine.destroy, hd]
    · cases hd : drainMicrotasks (removeMessageByTag (destroyUserData (setDestroying h))
          (destroyUserData (setDestroying h)).world.engine.self) with
      | mk h4 outcome =>
        rw [hd] at ht
        simp only at ht
        subst ht
        have h4eq := congrArg Prod.fst hd
        simp only [HermesEngine.destroy, hd]
        simp only at h4eq
        rw [← h4eq, removeMessageByTag_eq]
        rfl
    · cases hd : drainMicrotasks (removeMessageByTag (destroyUserData (setDestroying h))
          (destroyUserData (setDestroying h)).world.engine.self) with
      | mk h4 outcome =>
        rw [hd] at ht
        simp only at ht
        subst ht
        have h4eq := congrArg Prod.fst hd
        simp only [HermesEngine.destroy, hd]
        simp only at h4eq
        rw [← h4eq, removeMessageByTag_eq]
        simp [drainMicrotasks, destroyUserData, setDestroying]

/-- C14 on an engine with two live handles in the bookkeeping table, a
registered class, a queued deletion of instance `5`, a pending tick and two
queued jobs. -/
theorem destroy_order_witness :
    busyHost.globalWeakBookkeeping_ = [700, 701] ∧
    busyHost.world.engine.classRegistry_.length = 1 ∧
    (HermesEngine.destroy busyHost).1.deleted = [5] ∧
    (HermesEngine.destroy busyHost).1.completed = [7, 8] ∧
    (HermesEngine.destroy busyHost).1.teardownLog =
      [TeardownStep.setDestroying, TeardownStep.destroyUserData,
       TeardownStep.removeMessageByTag 100, TeardownStep.drainMicrotasks,
       TeardownStep.clearBookkeeping, TeardownStep.clearClassRegistry,
       TeardownStep.releaseRuntime] ∧
    ∃ h6 : Host,
      HermesEngine.destroy busyHost = (releaseRuntime h6, Except.ok ()) ∧
      h6.teardownLog = busyHost.teardownLog ++
        [TeardownStep.setDestroying, TeardownStep.destroyUserData,
         TeardownStep.removeMessageByTag busyHost.world.engine.self,
         TeardownStep.drainMicrotasks, TeardownStep.clearBookkeeping,
         TeardownStep.clearClassRegistry] ∧
      (releaseRuntime h6).teardownLog = h6.teardownLog ++ [TeardownStep.releaseRuntime] ∧
      h6.runtimeReleased = busyHost.runtimeReleased ∧
      (releaseRuntime h6).runtimeReleased = true ∧
      h6.isDestroying_ = true ∧
      h6.userData_ = none ∧
      (∀ m ∈ h6.messageQueue_, m.tag ≠ busyHost.world.engine.self) ∧
      h6.microtasks = [] ∧
      h6.globalWeakBookkeeping_ = [] ∧
      h6.world.engine.classRegistry_ = [] ∧
      (releaseRuntime h6).globalWeakBookkeeping_ = [] ∧
      (releaseRuntime h6).world.engine.classRegistry_ = [] :=
  ⟨rfl, rfl, rfl, rfl, rfl,
    (destroy_order busyHost).1 (fun job hjob => by
      have hcases : job = ⟨7, none⟩ ∨ job = ⟨8, none⟩ := by simpa [busyHost] using hjob
      rcases hcases with hj | hj <;> rw [hj])⟩

/-- The sibling path: a construction through `performNewNativeClass` on the
same runtime returns with the continuation pending as well, and
`Object::newObjectImpl` has posted no tick message. -/
theorem performNewNativeClass_posts_no_tick :
    (performNewNativeClass promiseRuntime tickHost imageClass [threeLocal]).2 =
      Except.ok ⟨some 6⟩ ∧
    (performNewNativeClass promiseRuntime tickHost imageClass [threeLocal]).1.microtasks =
      [⟨7, none⟩] ∧
    (performNewNativeClass promiseRuntime tickHost imageClass [threeLocal]).1.completed = [] ∧
    (performNewNativeClass promiseRuntime tickHost imageClass [threeLocal]).1.messageQueue_ =
      [] :=
  ⟨rfl, rfl, rfl, rfl⟩

theorem Object.newObjectImpl_ok (rt : ScriptRuntime) (h h' : Host) (type : Local)
    (args : List Local) (out : Local)
    (hok : Object.newObjectImpl rt h type args = (h', Except.ok out)) :
    ∃ arguments constructor h1 v,
      toJsiVector h.world.cells args = Except.ok arguments ∧
      asFunction h.world.objects (deref h.world.cells type.valuePtr) = Except.ok constructor ∧
      rt.callAsConstructor h constructor arguments = (h1, Except.ok v) ∧
      h' = h1.withLocal v ∧ out = (makeLocal h1.world.cells v).1 := by
  unfold Object.newObjectImpl at hok
  cases hargs : toJsiVector h.world.cells args with
  | error t => simp [hargs] at hok
  | ok arguments =>
    cases hfn : asFunction h.world.objects (deref h.world.cells type.valuePtr) with
    | error t => simp [hargs, hfn] at hok
    | ok constructor =>
      cases hcall : rt.callAsConstructor h constructor arguments with
      | mk h1 outcome =>
        cases outcome with
        | error t => simp [hargs, hfn, hcall] at hok
        | ok v =>
          simp only [hargs, hfn, hcall, Prod.mk.injEq, Except.ok.injEq] at hok
          exact ⟨arguments, constructor, h1, v, rfl, rfl, hcall, hok.1.symm, hok.2.symm⟩

theorem toJsiVector_retainCell (cells : List Cell) (p : Option CellId) (args : List Local) :
    toJsiVector (retainCell cells p) args = toJsiVector cells args := by
  induction args with
  | nil => rfl
  | cons arg rest ih => simp only [toJsiVector, deref_retainCell, ih]

theorem toJsiVector_ok (cells : List Cell) (args : List Local) (arguments : List JsValue)
    (h : toJsiVector cells args = Except.ok arguments) :
    arguments.map some = args.map (fun arg => deref cells arg.valuePtr) := by
  induction args generalizing arguments with
  | nil =>
    simp only [toJsiVector, Except.ok.injEq] at h
    subst h
    rfl
  | cons arg rest ih =>
    unfold toJsiVector at h
    cases hv : deref cells arg.valuePtr with
    | none => simp [hv] at h
    | some v =>
      cases hrest : toJsiVector cells rest with
      | error t => simp [hv, hrest] at h
      | ok vs =>
        simp only [hv, hrest, Except.ok.injEq] at h
        subst h
        simp [hv, ih vs hrest]

/-- C17, the claim as stated fails: the static-only class `MathUtil` has an
entry in the class registry, yet `performNewNativeClass` dereferences the null
cell pointer of the entry's empty constructor handle; and for the registered
class `Image` an argument handle without a cell is dereferenced by
`toJsiVector`. Neither run invokes a constructor. -/
theorem performNewNativeClass_entry_counterexample :
    (findClass staticOnlyHost.world.engine.classRegistry_ mathClass.addr).isSome = true ∧
    (performNewNativeClass promiseRuntime staticOnlyHost mathClass []).2 =
      Except.error (Thrown.undefinedBehaviour "null cell pointer dereferenced") ∧
    (performNewNativeClass promiseRuntime staticOnlyHost mathClass []).1.world.objects =
      staticOnlyHost.world.objects ∧
    (findClass tickHost.world.engine.classRegistry_ imageClass.addr).isSome = true ∧
    (performNewNativeClass promiseRuntime tickHost imageClass [⟨none⟩]).2 =
      Except.error (Thrown.undefinedBehaviour "null cell pointer dereferenced") ∧
    (performNewNativeClass promiseRuntime tickHost imageClass [⟨none⟩]).1.world.objects =
      tickHost.world.objects :=
  ⟨rfl, rfl, rfl, rfl, rfl, rfl⟩

/-- C17, amended: without an entry for `D`, `performNewNativeClass` raises
the exception "class define[<className>] is not registered" and changes
nothing; with an entry whose constructor handle holds a function, and
argument handles that each hold a value, it calls the runtime's
`callAsConstructor` on that function with exactly the values of the argument
handles, in order, and returns a handle holding the constructed object, or
passes on what the construction raised. -/
theorem performNewNativeClass_constructs (rt : ScriptRuntime) (h : Host)
    (classDefine : ClassDefineState) (args : List Local) :
    (findClass h.world.engine.classRegistry_ classDefine.addr = none →
      performNewNativeClass rt h classDefine args =
        (h, Except.error (Thrown.exception
          ("class define[" ++ classDefine.className ++ "] is not registered")))) ∧
    (∀ registry constructor arguments,
      findClass h.world.engine.classRegistry_ classDefine.addr = some registry →
      asFunction h.world.objects (deref h.world.cells registry.constructor.valuePtr) =
        Except.ok constructor →
      toJsiVector h.world.cells args = Except.ok arguments →
      arguments.map some = args.map (fun arg => deref h.world.cells arg.valuePtr) ∧
      (∀ h1 v,
        rt.callAsConstructor
          { h with world := { h.world with
              cells := retainCell h.world.cells registry.constructor.valuePtr } }
          constructor arguments = (h1, Except.ok v) →
        ∃ h' out,
          performNewNativeClass rt h classDefine args = (h', Except.ok out) ∧
          deref h'.world.cells out.valuePtr = some v ∧
          h'.world.objects = h1.world.objects) ∧
      (∀ h1 t,
        rt.callAsConstructor
          { h with world := { h.world with
              cells := retainCell h.world.cells registry.constructor.valuePtr } }
          constructor arguments = (h1, Except.error t) →
        (performNewNativeClass rt h classDefine args).2 = Except.error t)) := by
  refine ⟨?_, ?_⟩
  · intro hfind
    simp [performNewNativeClass, hfind]
  · intro registry constructor arguments hfind hfn hargs
    refine ⟨toJsiVector_ok _ _ _ hargs, ?_, ?_⟩
    · intro h1 v hcall
      refine ⟨{ h1.withLocal v with world := { (h1.withLocal v).world with
          cells := releaseCell (h1.withLocal v).world.cells registry.constructor.valuePtr } },
        (makeLocal h1.world.cells v).1, ?_, ?_, ?_⟩
      · simp only [performNewNativeClass, hfind, Object.newObjectImpl, toJsiVector_retainCell,
          deref_retainCell, hargs, hfn, hcall]
      · simp only [deref_releaseCell]
        exact deref_allocCell _ _
      · rfl
    · intro h1 t hcall
      simp only [performNewNativeClass, hfind, Object.newObjectImpl, toJsiVector_retainCell,
        deref_retainCell, hargs, hfn, hcall]

/-- C17 amended, on the concrete engine: `Image` is constructed with the
argument `3` and the handle returned holds the new object `6`; `MathUtil` was
never registered on this engine. -/
theorem performNewNativeClass_constructs_witness :
    performNewNativeClass promiseRuntime tickHost mathClass [threeLocal] =
      (tickHost, Except.error (Thrown.exception "class define[MathUtil] is not registered")) ∧
    [JsValue.number (JsNumber.val 3)].map some =
      [threeLocal].map (fun arg => deref tickHost.world.cells arg.valuePtr) ∧
    ∃ h' out,
      performNewNativeClass promiseRuntime tickHost imageClass [threeLocal] =
        (h', Except.ok out) ∧
      deref h'.world.cells out.valuePtr = some (JsValue.object 6) ∧
      h'.world.objects = tickHost.world.objects ++ [JsObject.plain (some 1)] :=
  have key := (performNewNativeClass_constructs promiseRuntime tickHost imageClass
    [threeLocal]).2 imageRegistry 0 [JsValue.number (JsNumber.val 3)] rfl rfl rfl
  ⟨(performNewNativeClass_constructs promiseRuntime tickHost mathClass [threeLocal]).1 rfl,
    key.1,
    key.2.1 _ (JsValue.object 6) rfl⟩

/-! ### Setter bindings -/

theorem convertSetterArg_of_convert_ok (p : Param) (value : JsValue) (nothrow : Bool)
    (c : CppVal) (h : p.convert value = Except.ok c) :
    convertSetterArg p value nothrow = Except.ok (some c) := by
  unfold Param.convert at h
  unfold convertSetterArg
  cases hh : TypeHolder.make p value with
  | error e => simp [hh] at h
  | ok holder =>
    simp only [hh] at h
    simp [h]

theorem convertSetterArg_of_convert_error (p : Param) (value : JsValue) (nothrow : Bool)
    (e : String) (h : p.convert value = Except.error e) :
    convertSetterArg p value nothrow =
      if nothrow then Except.ok none else Except.error (Thrown.exception e) := by
  unfold Param.convert at h
  unfold convertSetterArg
  cases hh : TypeHolder.make p value with
  | error e' =>
    simp only [hh, Except.error.injEq] at h
    subst h
    cases nothrow <;> simp [handleException]
  | ok holder =>
    simp only [hh] at h
    cases nothrow <;> simp [h, handleException]

/-- In no-throw mode a setter binding whose argument does not convert goes on
to `std::invoke(s, *std::move(arg))` with `arg` empty; otherwise the
conversion exception propagates, and a converted argument reaches the native
setter. -/
theorem bindSet_cases (s : NativeSetter) (nothrow : Bool) (thiz : Ptr) (value : JsValue) :
    (∀ c, s.param.convert value = Except.ok c →
      bindStaticSet s nothrow value = invokeSetter s [] (some c) ∧
      bindInstanceSet s nothrow thiz value = invokeSetter s [CppVal.pointer thiz] (some c)) ∧
    (∀ e, s.param.convert value = Except.error e → nothrow = false →
      bindStaticSet s nothrow value = ⟨[], Except.error (Thrown.exception e)⟩ ∧
      bindInstanceSet s nothrow thiz value = ⟨[], Except.error (Thrown.exception e)⟩) ∧
    (∀ e, s.param.convert value = Except.error e → nothrow = true →
      bindStaticSet s nothrow value =
        ⟨[], Except.error (Thrown.undefinedBehaviour "empty std::optional dereferenced")⟩ ∧
      bindInstanceSet s nothrow thiz value =
        ⟨[], Except.error (Thrown.undefinedBehaviour "empty std::optional dereferenced")⟩) := by
  refine ⟨?_, ?_, ?_⟩
  · intro c hc
    simp [bindStaticSet, bindInstanceSet, convertSetterArg_of_convert_ok _ _ _ _ hc]
  · intro e he hn
    subst hn
    simp [bindStaticSet, bindInstanceSet, convertSetterArg_of_convert_error _ _ _ _ he]
  · intro e he hn
    subst hn
    simp [bindStaticSet, bindInstanceSet, convertSetterArg_of_convert_error _ _ _ _ he,
      invokeSetter]

/-- C29 at its failing input: the no-throw binding of `void setWidth(int)`
called with the string `"wide"`. The conversion fails and is swallowed, and
both bindings go on to dereference the empty optional; with a number the
native setter runs on the converted argument, and in throwing mode the
conversion exception propagates. -/
theorem bindSet_nothrow_reads_empty_optional :
    numberParam.convert (JsValue.string "wide") = Except.error "can't cast value as Number" ∧
    bindStaticSet setWidth true (JsValue.string "wide") =
      ⟨[], Except.error (Thrown.undefinedBehaviour "empty std::optional dereferenced")⟩ ∧
    bindInstanceSet setWidth true 5 (JsValue.string "wide") =
      ⟨[], Except.error (Thrown.undefinedBehaviour "empty std::optional dereferenced")⟩ ∧
    bindStaticSet setWidth false (JsValue.string "wide") =
      ⟨[], Except.error (Thrown.exception "can't cast value as Number")⟩ ∧
    bindStaticSet setWidth true (JsValue.number (JsNumber.val 3)) =
      ⟨[Event.invoked 4 [CppVal.integer 3]], Except.ok JsValue.undefined⟩ :=
  ⟨rfl, rfl, rfl, rfl, rfl⟩

/-! ### Returning a callback's result to script -/

/-- Returning through `moveHermes` hands the value of the cell to script and
leaves `undefined` in the cell, for every handle that shares it. -/
theorem returnMoved_deref (cells : List Cell) (res : Local) (v : JsValue)
    (h : deref cells res.valuePtr = some v) :
    (returnMoved cells res).2 = Except.ok v ∧
    deref (returnMoved cells res).1 res.valuePtr = some JsValue.undefined := by
  cases hp : res.valuePtr with
  | none => simp [hp, deref] at h
  | some c =>
    rw [hp] at h
    simp only [deref, Option.map_eq_some'] at h
    obtain ⟨cell, hcell, hv⟩ := h
    refine ⟨?_, ?_⟩
    · simp [returnMoved, moveHermes, hp, hcell, hv]
    · simp only [returnMoved, moveHermes, hp, hcell, Local.destroy, deref_releaseCell]
      simp [deref, List.getElem?_modify, hcell]

/-- C30 at its failing input: a native callback, projected by each of the
five value-returning thunks, returns `keptGlobal.get()`. The thunk hands
object `2` to script, and afterwards the cell shared with `keptGlobal` holds
`undefined`: the `Global` no longer resolves to object `2`. -/
theorem thunk_return_empties_shared_cell :
    deref imageWorld.cells keptGlobal.valuePtr = some (JsValue.object 2) ∧
    (Function.newFunctionCells returnKept imageWorld 200 JsValue.undefined []).2 =
      Except.ok (JsValue.object 2) ∧
    deref (Function.newFunctionCells returnKept imageWorld 200 JsValue.undefined []).1.cells
      keptGlobal.valuePtr = some JsValue.undefined ∧
    deref (newStaticFunctionCells returnKept imageWorld 200 JsValue.undefined []).1.cells
      keptGlobal.valuePtr = some JsValue.undefined ∧
    deref (newStaticGetterCells returnKept imageWorld 200 JsValue.undefined []).1.cells
      keptGlobal.valuePtr = some JsValue.undefined ∧
    deref (instanceFunctionCells (fun _ => returnKept) imageInstanceWorld 200
      (JsValue.object 5) []).1.cells keptGlobal.valuePtr = some JsValue.undefined ∧
    deref (newInstanceGetterCells returnKept imageInstanceWorld 200
      (JsValue.object 5) []).1.cells keptGlobal.valuePtr = some JsValue.undefined ∧
    ((Global.getValue
      (Function.newFunctionCells returnKept imageWorld 200 JsValue.undefined []).1.cells
      keptGlobal).1.isObject
      (Function.newFunctionCells returnKept imageWorld 200 JsValue.undefined []).1.cells) =
      false :=
  ⟨rfl, rfl, rfl, rfl, rfl, rfl, rfl, rfl⟩

/-! ### Numbers -/

theorem toDoubleOfInt_of_small (v : Int) (h : v.natAbs < 2 ^ 53) : toDoubleOfInt v = v := by
  have hq : doubleSpacing 64 v.natAbs = 1 := by
    rw [show (64 : Nat) = 63 + 1 from rfl, doubleSpacing, if_pos h]
  unfold toDoubleOfInt
  simp only [hq, Nat.div_one, Nat.mul_one, Nat.mod_one]
  by_cases hv : v < 0
  · simp only [hv, if_true]
    simp [abs_of_neg hv]
  · simp only [hv, if_false]
    simp [abs_of_nonneg (not_lt.mp hv)]

theorem toDoubleOfInt_two_pow_53 :
    toDoubleOfInt (2 ^ 53) = 2 ^ 53 ∧ toDoubleOfInt (-(2 ^ 53)) = -(2 ^ 53) := by
  constructor <;> rfl

theorem Local.toDouble_newNumber (cells : List Cell) (v : Int) :
    Local.toDouble (Number.newNumber cells v).2 (Number.newNumber cells v).1 =
      Except.ok (JsNumber.val (toDoubleOfInt v)) := by
  have h := deref_allocCell cells (JsValue.number (JsNumber.val (toDoubleOfInt v)))
  simp only [Local.toDouble, Number.newNumber, makeLocal, h]

theorem castDoubleToInt_val (bits : Nat) (z : Int)
    (h : -(2 : Int) ^ (bits - 1) ≤ z ∧ z < (2 : Int) ^ (bits - 1)) :
    castDoubleToInt bits (JsNumber.val z) = Except.ok z := by
  simp only [castDoubleToInt, h, and_self, if_true]

theorem castDoubleToInt_ok (bits : Nat) (n : JsNumber) (v : Int)
    (h : castDoubleToInt bits n = Except.ok v) : n = JsNumber.val v := by
  cases n with
  | nan => simp [castDoubleToInt] at h
  | val z =>
    by_cases hz : -(2 : Int) ^ (bits - 1) ≤ z ∧ z < (2 : Int) ^ (bits - 1)
    · rw [castDoubleToInt_val bits z hz, Except.ok.injEq] at h
      rw [h]
    · simp [castDoubleToInt, hz] at h

/-- C23, the claim as stated fails: the 64-bit integer `2^53 + 1` comes back
from `Number::newNumber(v).toInt64()` as `2^53`. -/
theorem int64_roundtrip_counterexample :
    (-(2 : Int) ^ 63 ≤ 9007199254740993 ∧ (9007199254740993 : Int) < 2 ^ 63) ∧
    Local.toInt64 (Number.newNumber [] 9007199254740993).2
      (Number.newNumber [] 9007199254740993).1 = Except.ok 9007199254740992 :=
  ⟨by decide, rfl⟩

/-- C23, amended: for every 32-bit integer `v`, `Number::newNumber(v).toInt32()`
is `v`; for every 64-bit integer `v`, `Number::newNumber(v).toInt64()` is `v`
exactly when `v` is a value of a `double`, which holds for every `v` of
magnitude at most `2^53`. -/
theorem number_roundtrip (cells : List Cell) (v : Int) :
    (-(2 : Int) ^ 31 ≤ v ∧ v < (2 : Int) ^ 31 →
      Local.toInt32 (Number.newNumber cells v).2 (Number.newNumber cells v).1 = Except.ok v) ∧
    (-(2 : Int) ^ 63 ≤ v ∧ v < (2 : Int) ^ 63 →
      (Local.toInt64 (Number.newNumber cells v).2 (Number.newNumber cells v).1 = Except.ok v ↔
        toDoubleOfInt v = v)) ∧
    (v.natAbs ≤ 2 ^ 53 →
      toDoubleOfInt v = v ∧
      Local.toInt64 (Number.newNumber cells v).2 (Number.newNumber cells v).1 = Except.ok v) := by
  have hexact : v.natAbs ≤ 2 ^ 53 → toDoubleOfInt v = v := by
    intro h
    rcases Nat.lt_or_eq_of_le h with hlt | heq
    · exact toDoubleOfInt_of_small v hlt
    · rcases Int.natAbs_eq v with hv | hv
      · rw [heq] at hv
        rw [hv]
        exact toDoubleOfInt_two_pow_53.1
      · rw [heq] at hv
        rw [hv]
        exact toDoubleOfInt_two_pow_53.2
  refine ⟨?_, ?_, ?_⟩
  · intro hrange
    have hsmall : v.natAbs ≤ 2 ^ 53 := by omega
    simp only [Local.toInt32, Local.toDouble_newNumber, hexact hsmall]
    exact castDoubleToInt_val 32 v hrange
  · intro hrange
    simp only [Local.toInt64, Local.toDouble_newNumber]
    constructor
    · intro h
      have := castDoubleToInt_ok 64 _ v h
      simpa using this
    · intro h
      rw [h]
      exact castDoubleToInt_val 64 v hrange
  · intro hsmall
    refine ⟨hexact hsmall, ?_⟩
    simp only [Local.toInt64, Local.toDouble_newNumber, hexact hsmall]
    exact castDoubleToInt_val 64 v (by constructor <;> omega)

/-- C23 amended, at the 32-bit integer `321` of the test and at the 64-bit
integer `2^53`. -/
theorem number_roundtrip_witness :
    Local.toInt32 (Number.newNumber [] 321).2 (Number.newNumber [] 321).1 = Except.ok 321 ∧
    (Local.toInt64 (Number.newNumber [] 321).2 (Number.newNumber [] 321).1 = Except.ok 321 ↔
      toDoubleOfInt 321 = 321) ∧
    Local.toInt64 (Number.newNumber [] 9007199254740992).2
      (Number.newNumber [] 9007199254740992).1 = Except.ok 9007199254740992 :=
  ⟨(number_roundtrip [] 321).1 (by decide),
    (number_roundtrip [] 321).2.1 (by decide),
    ((number_roundtrip [] 9007199254740992).2.2 (by decide)).2⟩

/-! ### Script exceptions -/

theorem ExceptionFields.fillMessage_hasMessage (props : PropertyTable) (currentEngine : Ptr)
    (cells : List Cell) (fields : ExceptionFields) (exception : Local) :
    (ExceptionFields.fillMessage props currentEngine cells fields exception).1.hasMessage_ =
      true := by
  unfold ExceptionFields.fillMessage
  by_cases hflag : fields.hasMessage_ = true
  · simp [hflag]
  · rw [if_neg hflag]
    simp only
    repeat' split
    all_goals rfl

/-- C24: for an exception value that is an object with a string `message`,
the `Exception` built from it reports that message, and as stack trace the
string `stack` of the object, or the empty string when the object has no
`stack`; building it always ends normally (the model function is total), and
a further `fillMessage`, with whatever value, leaves fields and cells as they
are. -/
theorem exception_message_and_stack (props : PropertyTable) (currentEngine : Ptr)
    (cells : List Cell) (exception : Local) (o : ObjId) (message : String)
    (hobj : deref cells exception.valuePtr = some (JsValue.object o))
    (hmsg : PropertyBag.get (props o) "message" = some (JsValue.string message)) :
    (∀ stack, PropertyBag.get (props o) "stack" = some (JsValue.string stack) →
      Exception.message (Exception.ofValue props currentEngine cells exception).1 = message ∧
      Exception.stacktrace (Exception.ofValue props currentEngine cells exception).1 = stack) ∧
    (PropertyBag.get (props o) "stack" = none →
      Exception.message (Exception.ofValue props currentEngine cells exception).1 = message ∧
      Exception.stacktrace (Exception.ofValue props currentEngine cells exception).1 = "") ∧
    (∀ (props' : PropertyTable) (engine' : Ptr) (other : Local),
      ExceptionFields.fillMessage props' engine'
          (Exception.ofValue props currentEngine cells exception).2
          (Exception.ofValue props currentEngine cells exception).1 other =
        Exception.ofValue props currentEngine cells exception) := by
  refine ⟨?_, ?_, ?_⟩
  · intro stack hstack
    simp [Exception.ofValue, ExceptionFields.fillMessage, ExceptionFields.empty, hobj,
      getProperty, hasProperty, hmsg, hstack, asStringToString, Exception.message,
      Exception.stacktrace]
  · intro hstack
    simp [Exception.ofValue, ExceptionFields.fillMessage, ExceptionFields.empty, hobj,
      getProperty, hasProperty, hmsg, hstack, asStringToString, Exception.message,
      Exception.stacktrace]
  · intro props' engine' other
    have hflag := ExceptionFields.fillMessage_hasMessage props currentEngine cells
      ExceptionFields.empty exception
    unfold Exception.ofValue
    rw [ExceptionFields.fillMessage, if_pos hflag]

/-- C24 on the error of the test (`message` and `stack` strings) and on a
thrown object with a `message` only. -/
theorem exception_message_and_stack_witness :
    (Exception.message (Exception.ofValue errorProperties 100 imageCells ⟨some 3⟩).1 =
        "Property 'log' doesn't exist" ∧
      Exception.stacktrace (Exception.ofValue errorProperties 100 imageCells ⟨some 3⟩).1 =
        "ReferenceError: Property 'log' doesn't exist\n    at global (:1:1)") ∧
    (Exception.message (Exception.ofValue errorProperties 100 imageCells ⟨some 2⟩).1 = "boom" ∧
      Exception.stacktrace (Exception.ofValue errorProperties 100 imageCells ⟨some 2⟩).1 = "") :=
  ⟨(exception_message_and_stack errorProperties 100 imageCells ⟨some 3⟩ 3
      "Property 'log' doesn't exist" rfl rfl).1 _ rfl,
    (exception_message_and_stack errorProperties 100 imageCells ⟨some 2⟩ 2 "boom" rfl rfl).2.1
      rfl⟩

/-- C25 at its failing input: the thrown object `1` has the string `message`
"boom" and the number `42` as `stack`. No stack text can be extracted, and the
message reported is the fallback text instead of "boom"; with the same
message and no `stack` (object `2`) it is "boom". -/
theorem stack_failure_overwrites_message :
    PropertyBag.get (errorProperties 1) "message" = some (JsValue.string "boom") ∧
    PropertyBag.get (errorProperties 1) "stack" = some (JsValue.number (JsNumber.val 42)) ∧
    Exception.message (Exception.ofValue errorProperties 100 imageCells ⟨some 1⟩).1 =
      "[another exception in message()]" ∧
    Exception.stacktrace (Exception.ofValue errorProperties 100 imageCells ⟨some 1⟩).1 = "" ∧
    Exception.message (Exception.ofValue errorProperties 100 imageCells ⟨some 2⟩).1 = "boom" :=
  ⟨rfl, rfl, rfl, rfl, rfl⟩

/-! ### Arrays -/

theorem castToInt_of_lt (n : Nat) (h : n < 2 ^ 31) : castToInt n = (n : Int) := by
  have h32 : n % 2 ^ 32 = n := Nat.mod_eq_of_lt (by omega)
  simp only [castToInt, h32, h, if_true]

theorem TrackedGlobal.wellFormed_empty : TrackedGlobal.wellFormed ⟨⟨none, 0⟩, 0⟩ :=
  ⟨fun h => by simp [Global.isEmpty] at h, fun _ => rfl⟩

theorem TrackedGlobal.wellFormed_copy (g : TrackedGlobal) (h : g.wellFormed) :
    TrackedGlobal.wellFormed ⟨⟨g.handle.valuePtr, g.handle.engine_⟩, g.origin⟩ := h

theorem TrackedGlobal.wellFormed_ofLocal (p : Option CellId) (e : Ptr) (he : e ≠ 0) :
    TrackedGlobal.wellFormed ⟨⟨p, e⟩, e⟩ :=
  ⟨fun _ => rfl, fun h => by simp [Global.isEmpty, he] at h⟩

theorem TrackedGlobal.wellFormed_reset (cells : List Cell) (g : TrackedGlobal)
    (h : g.wellFormed) :
    TrackedGlobal.wellFormed
      ⟨(Global.reset cells g.handle).1, if g.handle.isEmpty then g.origin else 0⟩ := by
  by_cases hempty : g.handle.isEmpty = true
  · simp only [Global.reset, hempty, if_true]
    exact h
  · simp only [Global.reset, hempty, if_false]
    exact TrackedGlobal.wellFormed_empty

theorem mem_set_cases {α : Type} {l : List α} {i : Nat} {x y : α} (h : y ∈ l.set i x) :
    y ∈ l ∨ y = x :=
  List.mem_or_eq_of_mem_set h

/-- Every step keeps the invariant of every `Global` object. -/
theorem HandleStore.apply_wellFormed (s : HandleStore) (op : GlobalOp) (hop : op.valid)
    (h : ∀ g ∈ s.globals, g.wellFormed) : ∀ g ∈ (s.apply op).globals, g.wellFormed := by
  cases op with
  | construct =>
    intro g hg
    simp only [HandleStore.apply, List.mem_append, List.mem_singleton] at hg
    rcases hg with hg | hg
    · exact h g hg
    · rw [hg]; exact TrackedGlobal.wellFormed_empty
  | ofLocal currentEngine localReference =>
    intro g hg
    simp only [HandleStore.apply, List.mem_append, List.mem_singleton] at hg
    rcases hg with hg | hg
    · exact h g hg
    · rw [hg]
      exact TrackedGlobal.wellFormed_ofLocal _ _ hop
  | copyConstruct src =>
    intro g hg
    unfold HandleStore.apply at hg
    cases hsrc : s.globals[src]? with
    | none =>
      simp only [hsrc] at hg
      exact h g hg
    | some x =>
      simp only [hsrc, List.mem_append, List.mem_singleton] at hg
      rcases hg with hg | hg
      · exact h g hg
      · rw [hg]
        exact TrackedGlobal.wellFormed_copy x (h x (List.getElem?_mem hsrc))
  | moveConstruct src =>
    intro g hg
    unfold HandleStore.apply at hg
    cases hsrc : s.globals[src]? with
    | none =>
      simp only [hsrc] at hg
      exact h g hg
    | some x =>
      simp only [hsrc, List.mem_append, List.mem_singleton] at hg
      rcases hg with hg | hg
      · rcases mem_set_cases hg with hg | hg
        · exact h g hg
        · rw [hg]; exact TrackedGlobal.wellFormed_empty
      · rw [hg]
        exact TrackedGlobal.wellFormed_copy x (h x (List.getElem?_mem hsrc))
  | copyAssign dst src =>
    intro g hg
    unfold HandleStore.apply at hg
    by_cases hsame : dst = src
    · simp only [hsame, if_true] at hg
      exact h g hg
    · simp only [hsame, if_false] at hg
      cases hdst : s.globals[dst]? with
      | none =>
        simp only [hdst] at hg
        exact h g hg
      | some d =>
        cases hsrc : s.globals[src]? with
        | none =>
          simp only [hdst, hsrc] at hg
          exact h g hg
        | some x =>
          simp only [hdst, hsrc] at hg
          rcases mem_set_cases hg with hg | hg
          · exact h g hg
          · rw [hg]
            exact TrackedGlobal.wellFormed_copy x (h x (List.getElem?_mem hsrc))
  | moveAssign dst src =>
    intro g hg
    unfold HandleStore.apply at hg
    by_cases hsame : dst = src
    · simp only [hsame, if_true] at hg
      exact h g hg
    · simp only [hsame, if_false] at hg
      cases hdst : s.globals[dst]? with
      | none =>
        simp only [hdst] at hg
        exact h g hg
      | some d =>
        cases hsrc : s.globals[src]? with
        | none =>
          simp only [hdst, hsrc] at hg
          exact h g hg
        | some x =>
          simp only [hdst, hsrc] at hg
          rcases mem_set_cases hg with hg | hg
          · rcases mem_set_cases hg with hg | hg
            · exact h g hg
            · rw [hg]
              exact TrackedGlobal.wellFormed_copy x (h x (List.getElem?_mem hsrc))
          · rw [hg]; exact TrackedGlobal.wellFormed_empty
  | swap a b =>
    intro g hg
    unfold HandleStore.apply at hg
    cases ha : s.globals[a]? with
    | none =>
      simp only [ha] at hg
      exact h g hg
    | some x =>
      cases hb : s.globals[b]? with
      | none =>
        simp only [ha, hb] at hg
        exact h g hg
      | some y =>
        simp only [ha, hb] at hg
        rcases mem_set_cases hg with hg | hg
        · rcases mem_set_cases hg with hg | hg
          · exact h g hg
          · rw [hg]
            exact TrackedGlobal.wellFormed_copy y (h y (List.getElem?_mem hb))
        · rw [hg]
          exact TrackedGlobal.wellFormed_copy x (h x (List.getElem?_mem ha))
  | reset a =>
    intro g hg
    unfold HandleStore.apply at hg
    cases ha : s.globals[a]? with
    | none =>
      simp only [ha] at hg
      exact h g hg
    | some x =>
      simp only [ha] at hg
      rcases mem_set_cases hg with hg | hg
      · exact h g hg
      · rw [hg]
        exact TrackedGlobal.wellFormed_reset s.cells x (h x (List.getElem?_mem ha))

theorem HandleStore.run_wellFormed (ops : List GlobalOp) (s : HandleStore)
    (hops : ∀ op ∈ ops, op.valid) (h : ∀ g ∈ s.globals, g.wellFormed) :
    ∀ g ∈ (s.run ops).globals, g.wellFormed := by
  induction ops generalizing s with
  | nil => exact h
  | cons op rest ih =>
    have hop : op.valid := hops op (List.mem_cons_self _ _)
    have hrest : ∀ o ∈ rest, o.valid := fun o ho => hops o (List.mem_cons_of_mem _ ho)
    exact ih (s.apply op) hrest (HandleStore.apply_wellFormed s op hop h)
theorem getElem?_set_same {α : Type} (l : List α) (i : Nat) (x y : α) (h : l[i]? = some y) :
    (l.set i x)[i]? = some x := by
  have hlt : i < l.length := getElem?_lt_length_of_eq_some h
  simp [List.getElem?_set, hlt]

/-- C27: in every store reached from one without `Global`s by constructing
from a `Local`, default, copy and move construction, copy and move
assignment, `swap` and `reset`, every `Global` that is not empty has as its
engine the engine that was current when the handle its content comes from was
constructed from a `Local`, and every empty `Global` holds no value cell and
no engine; in such a store, `reset` leaves its object empty with no cell and
no engine, and a move assignment or move construction leaves the object
moved from empty with no cell and no engine and hands cell, engine and origin
to the target. -/
theorem global_engine_is_origin (cells : List Cell) (ops : List GlobalOp)
    (hops : ∀ op ∈ ops, op.valid) :
    (∀ g ∈ ((⟨cells, []⟩ : HandleStore).run ops).globals,
      (g.handle.isEmpty = false → g.handle.engine_ = g.origin) ∧
      (g.handle.isEmpty = true → g.handle.valuePtr = none ∧ g.handle.engine_ = 0)) ∧
    (∀ a g, ((⟨cells, []⟩ : HandleStore).run ops).globals[a]? = some g →
      ∃ g', (((⟨cells, []⟩ : HandleStore).run ops).apply (GlobalOp.reset a)).globals[a]? =
          some g' ∧
        g'.handle = ⟨none, 0⟩ ∧ g'.handle.isEmpty = true) ∧
    (∀ dst src d g, dst ≠ src →
      ((⟨cells, []⟩ : HandleStore).run ops).globals[dst]? = some d →
      ((⟨cells, []⟩ : HandleStore).run ops).globals[src]? = some g →
      (((⟨cells, []⟩ : HandleStore).run ops).apply (GlobalOp.moveAssign dst src)).globals[src]? =
          some ⟨⟨none, 0⟩, 0⟩ ∧
      (((⟨cells, []⟩ : HandleStore).run ops).apply (GlobalOp.moveAssign dst src)).globals[dst]? =
          some ⟨⟨g.handle.valuePtr, g.handle.engine_⟩, g.origin⟩) ∧
    (∀ src g, ((⟨cells, []⟩ : HandleStore).run ops).globals[src]? = some g →
      (((⟨cells, []⟩ : HandleStore).run ops).apply (GlobalOp.moveConstruct src)).globals[src]? =
          some ⟨⟨none, 0⟩, 0⟩ ∧
      (((⟨cells, []⟩ : HandleStore).run ops).apply (GlobalOp.moveConstruct src)).globals[
          ((⟨cells, []⟩ : HandleStore).run ops).globals.length]? =
          some ⟨⟨g.handle.valuePtr, g.handle.engine_⟩, g.origin⟩) := by
  have hinv := HandleStore.run_wellFormed ops ⟨cells, []⟩ hops (fun g hg => by cases hg)
  refine ⟨?_, ?_, ?_, ?_⟩
  · intro g hg
    obtain ⟨h1, h2⟩ := hinv g hg
    refine ⟨h1, fun hempty => ?_⟩
    rw [h2 hempty]
    exact ⟨rfl, rfl⟩
  · intro a g hg
    have hwf := hinv g (List.getElem?_mem hg)
    refine ⟨⟨(Global.reset ((⟨cells, []⟩ : HandleStore).run ops).cells g.handle).1,
      if g.handle.isEmpty then g.origin else 0⟩, ?_, ?_, ?_⟩
    · simp only [HandleStore.apply, hg]
      exact getElem?_set_same _ _ _ _ hg
    · by_cases hempty : g.handle.isEmpty = true
      · simp only [Global.reset, hempty, if_true]
        exact hwf.2 hempty
      · simp [Global.reset, hempty]
    · by_cases hempty : g.handle.isEmpty = true
      · simp only [Global.reset, hempty, if_true]
      · have hne : ¬ g.handle.engine_ = 0 := by simpa [Global.isEmpty] using hempty
        simp [Global.reset, Global.isEmpty, hne]
  · intro dst src d g hne hd hg
    have hsrc' : ∀ x : TrackedGlobal,
        (((⟨cells, []⟩ : HandleStore).run ops).globals.set dst x)[src]? = some g := by
      intro x
      rw [List.getElem?_set_ne hne]
      exact hg
    refine ⟨?_, ?_⟩
    · simp only [HandleStore.apply, hne, if_false, hd, hg, Global.moveAssign]
      exact getElem?_set_same _ _ _ _ (hsrc' _)
    · simp only [HandleStore.apply, hne, if_false, hd, hg, Global.moveAssign]
      rw [List.getElem?_set_ne (Ne.symm hne)]
      exact getElem?_set_same _ _ _ _ hd
  · intro src g hg
    have hlt : src < ((⟨cells, []⟩ : HandleStore).run ops).globals.length :=
      getElem?_lt_length_of_eq_some hg
    refine ⟨?_, ?_⟩
    · simp only [HandleStore.apply, hg, Global.moveAssign]
      rw [List.getElem?_append_left (by simpa using hlt)]
      exact getElem?_set_same _ _ _ _ hg
    · simp only [HandleStore.apply, hg, Global.moveAssign]
      rw [List.getElem?_append_right (by simp)]
      simp
/-- C27 on `handleProgram`: the objects moved from, swapped with a default
`Global` and reset are empty; the one that holds the cell has engine `100`. -/
theorem global_engine_is_origin_witness :
    (∀ op ∈ handleProgram, op.valid) ∧
    ((⟨imageCells, []⟩ : HandleStore).run handleProgram).globals =
      [⟨⟨none, 0⟩, 0⟩, ⟨⟨none, 0⟩, 0⟩, ⟨⟨none, 0⟩, 0⟩, ⟨⟨some 2, 100⟩, 100⟩] ∧
    ∀ g ∈ ((⟨imageCells, []⟩ : HandleStore).run handleProgram).globals,
      (g.handle.isEmpty = false → g.handle.engine_ = g.origin) ∧
      (g.handle.isEmpty = true → g.handle.valuePtr = none ∧ g.handle.engine_ = 0) :=
  have hvalid : ∀ op ∈ handleProgram, op.valid := by
    intro op hop
    simp only [handleProgram, List.mem_cons, List.mem_singleton, List.not_mem_nil,
      or_false] at hop
    rcases hop with h | h | h | h | h | h <;> rw [h] <;> simp [GlobalOp.valid]
  ⟨hvalid, rfl, (global_engine_is_origin imageCells handleProgram hvalid).1⟩

/-! ### The tick flag -/

/-- C22 at its failing input: script runs `new Image()`. The projected
constructor binds the instance `5` to the object `5`, which carries its owning
attachment, but `weakRef_` of the instance is still null: `isScriptObjectNull`
answers `true`, and `getScriptObject` returns a `Local` for a new object `6`
without native state instead of object `5`. -/
theorem getScriptObject_of_script_instance :
    (constructorHook imageClass imageThunkWorld 200 (JsValue.object 3) []).outcome =
      Except.ok (JsValue.object 5) ∧
    getNativeState imageBoundWorld.objects 5 = some (NativeState.shared 5) ∧
    (imageBoundWorld.scriptClasses 5).polymorphicPointer = 5 ∧
    (imageBoundWorld.scriptClasses 5).weakRef_ = none ∧
    ScriptClass.isScriptObjectNull imageBoundWorld 5 = true ∧
    (match (ScriptClass.getScriptObject imageBoundWorld 5).2 with
      | Except.ok l => deref (ScriptClass.getScriptObject imageBoundWorld 5).1.cells l.valuePtr
      | Except.error _ => none) = some (JsValue.object 6) ∧
    getNativeState (ScriptClass.getScriptObject imageBoundWorld 5).1.objects 6 = none :=
  ⟨rfl, rfl, rfl, rfl, rfl, rfl, rfl⟩

/-! ### Registering a class -/

theorem defineInstance_engine (w : World) (registry : ClassRegistryData) :
    (defineInstance w registry).1.engine = w.engine := rfl

theorem Object.newObject_engine (w : World) : (Object.newObject w).1.engine = w.engine := rfl

theorem findClass_eq_none_iff (registry : List (Ptr × ClassRegistryData)) (key : Ptr) :
    findClass registry key = none ↔ entriesFor registry key = 0 := by
  induction registry with
  | nil => simp [findClass, entriesFor]
  | cons e rest ih =>
    obtain ⟨k, data⟩ := e
    by_cases hk : k = key
    · simp [findClass, entriesFor, hk]
    · simp only [findClass, hk, if_false, ih]
      simp [entriesFor, hk]

theorem entriesFor_emplaceClass (registry : List (Ptr × ClassRegistryData)) (key : Ptr)
    (data : ClassRegistryData) (h : entriesFor registry key ≤ 1) :
    entriesFor (emplaceClass registry key data) key = 1 := by
  unfold emplaceClass
  cases hfind : findClass registry key with
  | none =>
    have hzero := (findClass_eq_none_iff registry key).mp hfind
    simp only [entriesFor, List.filter_append, List.length_append] at hzero ⊢
    simp [hzero]
  | some e =>
    have hne : entriesFor registry key ≠ 0 := by
      intro hzero
      rw [(findClass_eq_none_iff registry key).mpr hzero] at hfind
      cases hfind
    simp only
    omega

theorem deref_makeLocal_old (cells : List Cell) (x : JsValue) (p : Option CellId) (v : JsValue)
    (h : deref cells p = some v) : deref (makeLocal cells x).2 p = some v :=
  deref_allocCell_old cells x p v h

theorem deref_Local_empty_old (cells : List Cell) (p : Option CellId) (v : JsValue)
    (h : deref cells p = some v) : deref (Local.empty cells).2 p = some v :=
  deref_allocCell_old cells JsValue.undefined p v h

theorem deref_Global_reset (cells : List Cell) (g : Global) (q : Option CellId) :
    deref (Global.reset cells g).2 q = deref cells q := by
  unfold Global.reset
  split
  · rfl
  · exact deref_releaseCell _ _ _

theorem deref_Global_getValue_old (cells : List Cell) (g : Global) (p : Option CellId)
    (v : JsValue) (h : deref cells p = some v) : deref (Global.getValue cells g).2 p = some v := by
  unfold Global.getValue
  split
  · exact deref_Local_empty_old cells p v h
  · rw [deref_retainCell]
    exact h

theorem deref_Object_newObject_old (w : World) (p : Option CellId) (v : JsValue)
    (h : deref w.cells p = some v) : deref (Object.newObject w).1.cells p = some v :=
  deref_makeLocal_old _ _ p v h

theorem deref_defineInstance_old (w : World) (registry : ClassRegistryData)
    (p : Option CellId) (v : JsValue) (h : deref w.cells p = some v) :
    deref (defineInstance w registry).1.cells p = some v := by
  simp only [defineInstance, Local.destroy, Global.ofLocal, deref_releaseCell, deref_retainCell]
  apply deref_Object_newObject_old
  apply deref_Global_getValue_old
  rw [deref_releaseCell, deref_retainCell]
  exact deref_makeLocal_old _ _ p v h

theorem deref_performRegisterNativeClass_old (r : Realm) (classDefine : ClassDefineState)
    (nameSpace : String) (hasInstanceDefine : Bool) (f : Ptr → Ptr)
    (p : Option CellId) (v : JsValue) (h : deref r.world.cells p = some v) :
    deref (performRegisterNativeClass r classDefine nameSpace hasInstanceDefine f).world.cells p =
      some v := by
  have h0 := deref_Local_empty_old r.world.cells p v h
  cases hasInstanceDefine
  all_goals
    simp only [performRegisterNativeClass, Local.destroy, dropRegistryData, Bool.false_eq_true,
      if_false, if_true]
    rw [deref_releaseCell]
    split
    · rw [deref_releaseCell]
      first
        | exact deref_Object_newObject_old _ p v h0
        | exact deref_defineInstance_old _ _ p v h0
    · rw [deref_Global_reset, deref_Global_reset, deref_releaseCell]
      first
        | exact deref_Object_newObject_old _ p v h0
        | exact deref_defineInstance_old _ _ p v h0
theorem performRegisterNativeClass_registry (r : Realm) (classDefine : ClassDefineState)
    (nameSpace : String) (hasInstanceDefine : Bool) (f : Ptr → Ptr) :
    ∃ data,
      (performRegisterNativeClass r classDefine nameSpace hasInstanceDefine f).world.engine.classRegistry_ =
        emplaceClass r.world.engine.classRegistry_ classDefine.addr data := by
  cases hasInstanceDefine <;> exact ⟨_, rfl⟩

/-- What registration does to the registry: it leaves exactly one entry keyed
by the class description whenever there was at most one before; when the
description already has an entry, the class registry is left as it was, entry
for entry, and every value cell that resolved before still resolves to the
same value. -/
theorem performRegisterNativeClass_keeps_entry (r : Realm) (classDefine : ClassDefineState)
    (nameSpace : String) (hasInstanceDefine : Bool) (f : Ptr → Ptr) :
    (entriesFor r.world.engine.classRegistry_ classDefine.addr ≤ 1 →
      entriesFor
        (performRegisterNativeClass r classDefine nameSpace hasInstanceDefine
          f).world.engine.classRegistry_ classDefine.addr = 1) ∧
    (∀ entry, findClass r.world.engine.classRegistry_ classDefine.addr = some entry →
      (performRegisterNativeClass r classDefine nameSpace hasInstanceDefine
          f).world.engine.classRegistry_ = r.world.engine.classRegistry_ ∧
      (∀ p v, deref r.world.cells p = some v →
        deref (performRegisterNativeClass r classDefine nameSpace hasInstanceDefine
          f).world.cells p = some v)) := by
  obtain ⟨data, hdata⟩ :=
    performRegisterNativeClass_registry r classDefine nameSpace hasInstanceDefine f
  refine ⟨?_, ?_⟩
  · intro hle
    rw [hdata]
    exact entriesFor_emplaceClass _ _ _ hle
  · intro entry hentry
    refine ⟨?_, ?_⟩
    · rw [hdata]
      simp only [emplaceClass, hentry]
    · intro p v hp
      exact deref_performRegisterNativeClass_old r classDefine nameSpace hasInstanceDefine f
        p v hp

end ScriptX
